import Mathlib

/-!
# PR environment API: the environment lifecycle orchestrator

A shallow embedding of `pr-env-api-go`:

* `internal/models` (`Service`, `Environment`, `EnvironmentLog`, `MarshalServices`,
  `UnmarshalServices`), with the fragment of Go's `encoding/json` they rely on;
* `internal/utils/envconfig` (`CreateEnvironmentID`, `GetEnvironmentDir`,
  `CreateEnvironmentURL`);
* `internal/repositories/sqlite` (`Create`, `Get`, `Update`, `List` on the table
  `environments`, `Create` on the table `environment_logs`);
* `internal/services/environment` (`CreateEnvironment`, `UpdateEnvironment`,
  `RemoveEnvironment`, `GetEnvironment`, `ListEnvironments`, `logEnvironmentAction`).

Go strings are modelled by `String` (sequences of Unicode scalar values, i.e. valid
UTF-8), Go `int` by `Int`, `time.Time` by `Nat` (a clock reading), and a Go slice by
a `List` (the nil slice and the empty slice are both `[]`).
-/

deriving instance DecidableEq for Except

namespace PrEnv

/-! ## models.Service -/

/-- The Go struct `models.Service` (JSON tags `name` and `imageUrl`). -/
structure Service where
  Name : String
  ImageURL : String
  deriving DecidableEq, Repr

/-! ## encoding/json: encoder -/

/-- Lower-case hexadecimal digit of `n % 16`, the table `hex` of `encoding/json`. -/
def hexDigit (n : Nat) : Char :=
  if n % 16 < 10 then Char.ofNat (48 + n % 16) else Char.ofNat (87 + n % 16)

/-- The escape `\u` followed by the four hexadecimal digits of `n`. -/
def uEscape (n : Nat) : List Char :=
  ['\\', 'u', hexDigit (n / 4096), hexDigit (n / 256), hexDigit (n / 16), hexDigit n]

/-- The output of the string encoder of `encoding/json` (`appendString` with
`escapeHTML = true`) for one character: quote and backslash are backslash-escaped,
the control characters have their short or `\u00XX` form, `<`, `>`, `&`, U+2028 and
U+2029 are written as `\uXXXX`, every other character is copied. -/
def escapeChar (c : Char) : List Char :=
  if c = '\\' ∨ c = '"' then ['\\', c]
  else if c = '\x08' then ['\\', 'b']
  else if c = '\x0c' then ['\\', 'f']
  else if c = '\n' then ['\\', 'n']
  else if c = '\r' then ['\\', 'r']
  else if c = '\t' then ['\\', 't']
  else if c.toNat < 32 ∨ c = '<' ∨ c = '>' ∨ c = '&' ∨ c.toNat = 8232 ∨ c.toNat = 8233 then
    uEscape c.toNat
  else [c]

/-- The escaped body of a JSON string (without the surrounding quotes). -/
def escapeChars : List Char → List Char
  | [] => []
  | c :: cs => escapeChar c ++ escapeChars cs

/-- A JSON string literal: the escaped body between double quotes. -/
def encodeString (s : String) : List Char :=
  '"' :: (escapeChars s.data ++ ['"'])

/-- The JSON object `encoding/json` writes for one `models.Service`: the fields in
declaration order under their tags `name` and `imageUrl`. -/
def encodeService (s : Service) : List Char :=
  "\x7b\"name\":".data ++ encodeString s.Name ++ ",\"imageUrl\":".data ++
    encodeString s.ImageURL ++ ['\x7d']

/-- The elements of a JSON array separated by commas. -/
def encodeElems : List Service → List Char
  | [] => []
  | [s] => encodeService s
  | s :: t => encodeService s ++ ',' :: encodeElems t

/-- What `json.Marshal` returns for a `[]models.Service` (a non-nil slice). -/
def jsonMarshalServices (ss : List Service) : List Char :=
  '[' :: (encodeElems ss ++ [']'])

/-! ## encoding/json: decoder

`json.Unmarshal` first checks that the whole input is one JSON value surrounded by
optional white space, then stores the value into the target.  The syntax is
modelled by a parser to `JSONValue`; nesting consumes fuel. -/

/-- A parsed JSON value; numbers keep their literal, objects their members in order. -/
inductive JSONValue where
  | null
  | bool (b : Bool)
  | number (lit : List Char)
  | string (s : List Char)
  | array (xs : List JSONValue)
  | object (kvs : List (List Char × JSONValue))
  deriving Repr

/-- JSON white space: space, tab, carriage return, line feed. -/
def isSpace (c : Char) : Bool :=
  c = ' ' || c = '\t' || c = '\r' || c = '\n'

/-- Drop leading white space. -/
def skipWS : List Char → List Char
  | [] => []
  | c :: cs => if isSpace c then skipWS cs else c :: cs

/-- Value of a hexadecimal digit, either case. -/
def hexVal (c : Char) : Option Nat :=
  if 48 ≤ c.toNat ∧ c.toNat ≤ 57 then some (c.toNat - 48)
  else if 97 ≤ c.toNat ∧ c.toNat ≤ 102 then some (c.toNat - 87)
  else if 65 ≤ c.toNat ∧ c.toNat ≤ 70 then some (c.toNat - 55)
  else none

/-- The number written by four hexadecimal digits (`getu4`). -/
def getu4 (a b c d : Char) : Option Nat :=
  match hexVal a, hexVal b, hexVal c, hexVal d with
  | some x, some y, some z, some w => some (x * 4096 + y * 256 + z * 16 + w)
  | _, _, _, _ => none

/-- The character denoted by a one-letter escape. -/
def simpleEscape (e : Char) : Option Char :=
  if e = '"' then some '"'
  else if e = '\\' then some '\\'
  else if e = '/' then some '/'
  else if e = 'b' then some '\x08'
  else if e = 'f' then some '\x0c'
  else if e = 'n' then some '\n'
  else if e = 'r' then some '\r'
  else if e = 't' then some '\t'
  else none

/-- Put a character in front of a parsed string body. -/
def consChar (c : Char) (r : Option (List Char × List Char)) : Option (List Char × List Char) :=
  r.map fun p => (c :: p.1, p.2)

/-- The replacement character U+FFFD. -/
def replacementChar : Char := Char.ofNat 65533

/-- The second half of a `\u` surrogate pair: when `n` is a high surrogate and the
input continues with `\u` and a low surrogate, the character the pair denotes and
the input after it. -/
def readLowSurrogate (n : Nat) : List Char → Option (Char × List Char)
  | b1 :: u1 :: a :: b :: c :: d :: rest =>
    match getu4 a b c d with
    | some m =>
      if b1 = '\\' ∧ u1 = 'u' ∧ n < 56320 ∧ 56320 ≤ m ∧ m < 57344 then
        some (Char.ofNat ((n - 55296) * 1024 + (m - 56320) + 65536), rest)
      else none
    | none => none
  | _ => none

/-- Read one escape sequence, the input standing right after the backslash:
a one-letter escape, or `u` and four hexadecimal digits; a `\u` pair of surrogates
gives one character and a lone surrogate gives U+FFFD. -/
def readEscape : List Char → Option (Char × List Char)
  | [] => none
  | e :: rest =>
    if e = 'u' then
      match rest with
      | a :: b :: c :: d :: rest1 =>
        match getu4 a b c d with
        | none => none
        | some n =>
          if 55296 ≤ n ∧ n < 57344 then
            match readLowSurrogate n rest1 with
            | some r => some r
            | none => some (replacementChar, rest1)
          else some (Char.ofNat n, rest1)
      | _ => none
    else (simpleEscape e).map fun ch => (ch, rest)

/-- Read a string body up to and including its closing quote (`unquote`): escapes
are resolved and a raw control character is a syntax error.  Every step consumes
input, so fuel equal to the length of the input is never exhausted. -/
def parseStringBody : Nat → List Char → Option (List Char × List Char)
  | 0, _ => none
  | _ + 1, [] => none
  | fuel + 1, c :: cs =>
    if c = '"' then some ([], cs)
    else if c = '\\' then
      match readEscape cs with
      | none => none
      | some (ch, rest) => consChar ch (parseStringBody fuel rest)
    else if c.toNat < 32 then none
    else consChar c (parseStringBody fuel cs)

/-- Read a string, the input standing right after the opening quote. -/
def parseString (r : List Char) : Option (List Char × List Char) :=
  parseStringBody r.length r

/-- Whether the character is a decimal digit. -/
def isDigit (c : Char) : Bool := 48 ≤ c.toNat && c.toNat ≤ 57

/-- The digits of the integer part: a single `0`, or a non-zero digit and more digits. -/
def parseIntPart : List Char → Option (List Char × List Char)
  | [] => none
  | c :: cs =>
    if c = '0' then some ([c], cs)
    else if isDigit c then some (c :: (cs.span isDigit).1, (cs.span isDigit).2)
    else none

/-- An optional fraction: a dot and at least one digit. -/
def parseFrac : List Char → Option (List Char × List Char)
  | [] => some ([], [])
  | c :: cs =>
    if c = '.' then
      if (cs.span isDigit).1 = [] then none
      else some (c :: (cs.span isDigit).1, (cs.span isDigit).2)
    else some ([], c :: cs)

/-- The digits of an exponent, at least one. -/
def parseExpDigits (pre : List Char) (cs : List Char) : Option (List Char × List Char) :=
  if (cs.span isDigit).1 = [] then none
  else some (pre ++ (cs.span isDigit).1, (cs.span isDigit).2)

/-- An optional exponent: `e` or `E`, an optional sign, at least one digit. -/
def parseExp : List Char → Option (List Char × List Char)
  | [] => some ([], [])
  | c :: cs =>
    if c = 'e' ∨ c = 'E' then
      match cs with
      | [] => none
      | s :: r => if s = '+' ∨ s = '-' then parseExpDigits [c, s] r else parseExpDigits [c] (s :: r)
    else some ([], c :: cs)

/-- A JSON number literal (after an optional minus sign has been read by the caller). -/
def parseUnsigned (cs : List Char) : Option (List Char × List Char) :=
  match parseIntPart cs with
  | none => none
  | some (i, r1) =>
    match parseFrac r1 with
    | none => none
    | some (f, r2) =>
      match parseExp r2 with
      | none => none
      | some (e, r3) => some (i ++ f ++ e, r3)

mutual
/-- Parse one JSON value and return it with the unread input. -/
def parseValue : Nat → List Char → Option (JSONValue × List Char)
  | 0, _ => none
  | fuel + 1, cs =>
    match skipWS cs with
    | [] => none
    | c :: r =>
      if c = '"' then (parseString r).map fun p => (JSONValue.string p.1, p.2)
      else if c = '[' then
        match skipWS r with
        | [] => none
        | c1 :: r1 =>
          if c1 = ']' then some (JSONValue.array [], r1)
          else (parseElems fuel (c1 :: r1)).map fun p => (JSONValue.array p.1, p.2)
      else if c = '\x7b' then
        match skipWS r with
        | [] => none
        | c1 :: r1 =>
          if c1 = '\x7d' then some (JSONValue.object [], r1)
          else (parseMembers fuel (c1 :: r1)).map fun p => (JSONValue.object p.1, p.2)
      else if c = 'n' then
        match r with
        | 'u' :: 'l' :: 'l' :: r1 => some (JSONValue.null, r1)
        | _ => none
      else if c = 't' then
        match r with
        | 'r' :: 'u' :: 'e' :: r1 => some (JSONValue.bool true, r1)
        | _ => none
      else if c = 'f' then
        match r with
        | 'a' :: 'l' :: 's' :: 'e' :: r1 => some (JSONValue.bool false, r1)
        | _ => none
      else if c = '-' then (parseUnsigned r).map fun p => (JSONValue.number (c :: p.1), p.2)
      else (parseUnsigned (c :: r)).map fun p => (JSONValue.number p.1, p.2)
/-- Parse the elements of a non-empty array up to and including `]`. -/
def parseElems : Nat → List Char → Option (List JSONValue × List Char)
  | 0, _ => none
  | fuel + 1, cs =>
    match parseValue fuel cs with
    | none => none
    | some (v, r) =>
      match skipWS r with
      | [] => none
      | c :: r1 =>
        if c = ',' then (parseElems fuel r1).map fun p => (v :: p.1, p.2)
        else if c = ']' then some ([v], r1)
        else none
/-- Parse the members of a non-empty object up to and including the closing brace. -/
def parseMembers : Nat → List Char → Option (List (List Char × JSONValue) × List Char)
  | 0, _ => none
  | fuel + 1, cs =>
    match skipWS cs with
    | [] => none
    | q :: r =>
      if q = '"' then
        match parseString r with
        | none => none
        | some (k, r1) =>
          match skipWS r1 with
          | [] => none
          | col :: r2 =>
            if col = ':' then
              match parseValue fuel r2 with
              | none => none
              | some (v, r3) =>
                match skipWS r3 with
                | [] => none
                | c :: r4 =>
                  if c = ',' then (parseMembers fuel r4).map fun p => ((k, v) :: p.1, p.2)
                  else if c = '\x7d' then some ([(k, v)], r4)
                  else none
            else none
      else none
end

/-- Parse a whole document: one value, then only white space.  The fuel is the
length of the input plus one: every bracket that costs fuel is matched by a closing
bracket and every further element by a comma, so a well-formed input never runs
out.  (The library also refuses input nested deeper than 10000 levels.) -/
def parseJSON (cs : List Char) : Option JSONValue :=
  match parseValue (cs.length + 1) cs with
  | none => none
  | some (v, r) => if skipWS r = [] then some v else none

/-- ASCII upper-casing, the folding `encoding/json` applies to object keys before the
case-insensitive field match (the only non-ASCII characters it folds to ASCII
letters are U+017F and U+212A, to `S` and `K`, letters that occur in no field name
of `Service`). -/
def foldChar (c : Char) : Char :=
  if 97 ≤ c.toNat ∧ c.toNat ≤ 122 then Char.ofNat (c.toNat - 32) else c

/-- The fields of `models.Service` a JSON key can select. -/
inductive ServiceField where
  | name
  | imageUrl
  deriving DecidableEq, Repr

/-- Field selected by an object key: the exact tag first, then the tag up to case;
any other key selects nothing and its value is ignored. -/
def findField (key : List Char) : Option ServiceField :=
  if key = "name".data then some ServiceField.name
  else if key = "imageUrl".data then some ServiceField.imageUrl
  else if key.map foldChar = "NAME".data then some ServiceField.name
  else if key.map foldChar = "IMAGEURL".data then some ServiceField.imageUrl
  else none

/-- Store one object member into a `Service`: a string sets the selected field,
`null` leaves it, any other value is an `UnmarshalTypeError`. -/
def storeMember (svc : Service) (kv : List Char × JSONValue) : Except String Service :=
  match findField kv.1, kv.2 with
  | none, _ => Except.ok svc
  | some _, JSONValue.null => Except.ok svc
  | some ServiceField.name, JSONValue.string v => Except.ok { svc with Name := String.mk v }
  | some ServiceField.imageUrl, JSONValue.string v => Except.ok { svc with ImageURL := String.mk v }
  | some _, _ => Except.error "json: cannot unmarshal value into Go struct field of type string"

/-- Store the members of an object in order (a later duplicate key overwrites). -/
def storeMembers : Service → List (List Char × JSONValue) → Except String Service
  | svc, [] => Except.ok svc
  | svc, kv :: kvs =>
    match storeMember svc kv with
    | Except.ok svc1 => storeMembers svc1 kvs
    | Except.error m => Except.error m

/-- Decode one array element into a fresh `Service`. -/
def decodeService : JSONValue → Except String Service
  | JSONValue.object kvs => storeMembers ⟨"", ""⟩ kvs
  | JSONValue.null => Except.ok ⟨"", ""⟩
  | _ => Except.error "json: cannot unmarshal value into Go value of type models.Service"

/-- Decode the elements of an array in order. -/
def decodeElems : List JSONValue → Except String (List Service)
  | [] => Except.ok []
  | v :: vs =>
    match decodeService v with
    | Except.error m => Except.error m
    | Except.ok svc =>
      match decodeElems vs with
      | Except.error m => Except.error m
      | Except.ok rest => Except.ok (svc :: rest)

/-- Decode a JSON value into a `[]models.Service` that was nil before the call:
an array gives its elements, `null` leaves the slice nil, anything else is an
`UnmarshalTypeError`. -/
def decodeServices : JSONValue → Except String (List Service)
  | JSONValue.array xs => decodeElems xs
  | JSONValue.null => Except.ok []
  | _ => Except.error "json: cannot unmarshal value into Go value of type []models.Service"

/-- The call `json.Unmarshal(data, &services)` on a nil `[]models.Service`. -/
def jsonUnmarshalServices (data : List Char) : Except String (List Service) :=
  match parseJSON data with
  | none => Except.error "invalid character in JSON input"
  | some v => decodeServices v

/-! ## models.Environment, models.EnvironmentLog -/

/-- The Go struct `models.Environment`. -/
structure Environment where
  ID : String
  RepositoryName : String
  ServicesData : String
  Services : List Service
  PRNumber : Int
  Status : String
  URL : String
  CreatedAt : Nat
  UpdatedAt : Nat
  deriving DecidableEq, Repr

/-- The Go struct `models.EnvironmentLog`. -/
structure EnvironmentLog where
  ID : Int
  EnvironmentID : String
  Action : String
  Status : String
  Message : String
  CreatedAt : Nat
  deriving DecidableEq, Repr

/-- `Environment.UnmarshalServices`: empty `ServicesData` gives an empty slice,
otherwise the JSON in `ServicesData` is decoded into `Services`.  (Every caller in
the repository applies it to a record whose `Services` is still nil.) -/
def Environment.UnmarshalServices (e : Environment) : Except String Environment :=
  if e.ServicesData = "" then Except.ok { e with Services := [] }
  else
    match jsonUnmarshalServices e.ServicesData.data with
    | Except.ok ss => Except.ok { e with Services := ss }
    | Except.error m => Except.error m

/-- `Environment.MarshalServices`: `ServicesData` becomes the JSON of `Services`;
`json.Marshal` has no failing case on a `[]Service`. -/
def Environment.MarshalServices (e : Environment) : Except String Environment :=
  Except.ok { e with ServicesData := String.mk (jsonMarshalServices e.Services) }

/-! ## utils/envconfig -/

/-- The configuration `EnvironmentConfig` reads (`config.Config`), together with the
library function `filepath.Join` it calls, taken as a parameter. -/
structure EnvironmentConfig where
  EnvsDir : String
  TailscaleDomain : String
  Join : String → String → String

/-- `CreateEnvironmentID`: `fmt.Sprintf("%s-pr-%d", repositoryName, prNumber)`. -/
def CreateEnvironmentID (repositoryName : String) (prNumber : Int) : String :=
  repositoryName ++ "-pr-" ++ toString prNumber

/-- `GetEnvironmentDir`: `filepath.Join(c.config.EnvsDir, environmentID)`. -/
def GetEnvironmentDir (c : EnvironmentConfig) (environmentID : String) : String :=
  c.Join c.EnvsDir environmentID

/-- `CreateEnvironmentURL`: `fmt.Sprintf("https://%s.%s", id, TailscaleDomain)`. -/
def CreateEnvironmentURL (c : EnvironmentConfig) (environmentID : String) : String :=
  "https://" ++ environmentID ++ "." ++ c.TailscaleDomain

/-! ## The world outside the orchestrator

The database, the file system, the shell and the clock are outside the program.
The state keeps the two tables, a trace of what the composition driver was asked
to do, and, for every kind of external call, how many calls of that kind were made
so far.  An `Oracle` fixes the outcome of the k-th call of each kind (`none`: the
call succeeds, `some msg`: it fails with that error text) and the k-th clock
reading; every statement below holds for all oracles. -/

/-- A row of the table `environments`. -/
structure Row where
  id : String
  repository_name : String
  services_data : String
  pr_number : Int
  status : String
  url : String
  created_at : Nat
  updated_at : Nat
  deriving DecidableEq, Repr

/-- What the composition driver was asked to do, in order. -/
inductive Event where
  | setup (repositoryName : String) (prNumber : Int) (services : List Service)
  | start (environmentDir : String)
  | stop (environmentDir : String)
  | cleanup (environmentDir : String)
  | exec (command : String)
  deriving DecidableEq, Repr

/-- Number of external calls made so far, per kind of call. -/
structure Counters where
  queryRow : Nat
  query : Nat
  insertEnvironment : Nat
  updateEnvironment : Nat
  insertLog : Nat
  setup : Nat
  exec : Nat
  remove : Nat
  now : Nat
  deriving DecidableEq, Repr

/-- Outcome of the k-th external call of each kind, and the k-th clock reading. -/
structure Oracle where
  queryRow : Nat → Option String
  query : Nat → Option String
  insertEnvironment : Nat → Option String
  updateEnvironment : Nat → Option String
  insertLog : Nat → Option String
  setup : Nat → Option String
  exec : Nat → Option String
  remove : Nat → Option String
  now : Nat → Nat

/-- The state of the world: both tables, the driver trace and the call counters. -/
structure World where
  environments : List Row
  environment_logs : List EnvironmentLog
  trace : List Event
  count : Counters
  deriving DecidableEq, Repr

/-- The Go call `time.Now()` (also the `CURRENT_TIMESTAMP` of an insert). -/
def timeNow (o : Oracle) (w : World) : Nat × World :=
  (o.now w.count.now, { w with count := { w.count with now := w.count.now + 1 } })

/-! ## repositories/sqlite: EnvironmentRepository -/

/-- The row written for an environment. -/
def Environment.toRow (e : Environment) : Row :=
  ⟨e.ID, e.RepositoryName, e.ServicesData, e.PRNumber, e.Status, e.URL, e.CreatedAt, e.UpdatedAt⟩

/-- `Scan` of a row into a fresh `models.Environment` (its `Services` still nil). -/
def Row.scan (r : Row) : Environment :=
  ⟨r.id, r.repository_name, r.services_data, [], r.pr_number, r.status, r.url, r.created_at,
    r.updated_at⟩

/-- `EnvironmentRepository.Create`: marshal the services, stamp both timestamps with
`time.Now()`, `INSERT INTO environments`.  The insert fails when the database fails
or when the primary key `id` is already present; a failed insert writes nothing.
The returned record is `*env` as the call leaves it. -/
def EnvironmentRepository.Create (o : Oracle) (env : Environment) (w : World) :
    Except String Environment × World :=
  match env.MarshalServices with
  | Except.error m => (Except.error m, w)
  | Except.ok env1 =>
    let (now, w1) := timeNow o w
    let env2 := { env1 with CreatedAt := now, UpdatedAt := now }
    let w2 := { w1 with count := { w1.count with insertEnvironment := w1.count.insertEnvironment + 1 } }
    match o.insertEnvironment w1.count.insertEnvironment with
    | some m => (Except.error m, w2)
    | none =>
      if w1.environments.any (fun r => r.id = env2.ID) then
        (Except.error "UNIQUE constraint failed: environments.id", w2)
      else (Except.ok env2, { w2 with environments := w2.environments ++ [env2.toRow] })

/-- `EnvironmentRepository.Get`: `SELECT ... WHERE id = ?`, scan, unmarshal the
services.  No row gives the error `environment <id> not found`. -/
def EnvironmentRepository.Get (o : Oracle) (id : String) (w : World) :
    Except String Environment × World :=
  let w1 := { w with count := { w.count with queryRow := w.count.queryRow + 1 } }
  match o.queryRow w.count.queryRow with
  | some m => (Except.error m, w1)
  | none =>
    match w.environments.find? (fun r => r.id = id) with
    | none => (Except.error ("environment " ++ id ++ " not found"), w1)
    | some r => ((r.scan).UnmarshalServices, w1)

/-- The assignment of `UPDATE environments SET repository_name, services_data,
status, url, updated_at WHERE id = ?` to one row. -/
def Row.update (env : Environment) (r : Row) : Row :=
  if r.id = env.ID then
    { r with repository_name := env.RepositoryName, services_data := env.ServicesData,
             status := env.Status, url := env.URL, updated_at := env.UpdatedAt }
  else r

/-- `EnvironmentRepository.Update`: marshal the services, stamp `UpdatedAt` with
`time.Now()`, run the `UPDATE`.  A failed statement changes nothing.  The returned
record is `*env` as the call leaves it. -/
def EnvironmentRepository.Update (o : Oracle) (env : Environment) (w : World) :
    Except String Environment × World :=
  match env.MarshalServices with
  | Except.error m => (Except.error m, w)
  | Except.ok env1 =>
    let (now, w1) := timeNow o w
    let env2 := { env1 with UpdatedAt := now }
    let w2 := { w1 with count := { w1.count with updateEnvironment := w1.count.updateEnvironment + 1 } }
    match o.updateEnvironment w1.count.updateEnvironment with
    | some m => (Except.error m, w2)
    | none => (Except.ok env2, { w2 with environments := w2.environments.map (Row.update env2) })

/-- The filters of `List`: the keys `status`, `prNumber`, `repositoryName` of the
`map[string]interface{}`, each absent or holding a value of the expected type. -/
structure Filters where
  status : Option String
  prNumber : Option Int
  repositoryName : Option String
  deriving DecidableEq, Repr

/-- The `WHERE` clause `List` builds: a status filter applies when non-empty, a PR
number filter when positive, a repository filter when non-empty. -/
def Filters.selects (f : Filters) (r : Row) : Bool :=
  (match f.status with
    | some st => if st ≠ "" then decide (r.status = st) else true
    | none => true) &&
  (match f.prNumber with
    | some n => if n > 0 then decide (r.pr_number = n) else true
    | none => true) &&
  (match f.repositoryName with
    | some rn => if rn ≠ "" then decide (r.repository_name = rn) else true
    | none => true)

/-- Scan and unmarshal the selected rows in order; the first failure aborts. -/
def scanRows : List Row → Except String (List Environment)
  | [] => Except.ok []
  | r :: rs =>
    match (r.scan).UnmarshalServices with
    | Except.error m => Except.error m
    | Except.ok e =>
      match scanRows rs with
      | Except.error m => Except.error m
      | Except.ok es => Except.ok (e :: es)

/-- `EnvironmentRepository.List`: the selected rows `ORDER BY created_at DESC`. -/
def EnvironmentRepository.List (o : Oracle) (f : Filters) (w : World) :
    Except String (List Environment) × World :=
  let w1 := { w with count := { w.count with query := w.count.query + 1 } }
  match o.query w.count.query with
  | some m => (Except.error m, w1)
  | none =>
    (scanRows ((w.environments.filter f.selects).insertionSort
      (fun a b => b.created_at ≤ a.created_at)), w1)

/-! ## repositories/sqlite: EnvironmentLogRepository -/

/-- The next `AUTOINCREMENT` key of `environment_logs`. -/
def nextLogID (logs : List EnvironmentLog) : Int :=
  (logs.foldl (fun m l => max m l.ID) 0) + 1

/-- `EnvironmentLogRepository.Create`: `INSERT INTO environment_logs`; the database
assigns the key and the creation time.  A failed insert writes nothing. -/
def EnvironmentLogRepository.Create (o : Oracle) (log : EnvironmentLog) (w : World) :
    Except String EnvironmentLog × World :=
  let w1 := { w with count := { w.count with insertLog := w.count.insertLog + 1 } }
  match o.insertLog w.count.insertLog with
  | some m => (Except.error m, w1)
  | none =>
    let (now, w2) := timeNow o w1
    let row := { log with ID := nextLogID w.environment_logs, CreatedAt := now }
    (Except.ok row, { w2 with environment_logs := w2.environment_logs ++ [row] })

/-! ## services/dockercompose: the composition driver -/

/-- `CommandExecutor.Execute`: run a shell command; a non-zero exit or a timeout is
an error.  The output is not modelled: the driver discards it. -/
def Execute (o : Oracle) (command : String) (w : World) : Except String Unit × World :=
  let w1 := { w with trace := w.trace ++ [Event.exec command],
                     count := { w.count with exec := w.count.exec + 1 } }
  match o.exec w.count.exec with
  | some m => (Except.error m, w1)
  | none => (Except.ok (), w1)

/-- `SetupPrEnvironment`: create the environment directory, copy the template into
it and rewrite its files; these file system steps succeed or fail as one external
call.  On success the directory of the environment is returned. -/
def SetupPrEnvironment (o : Oracle) (c : EnvironmentConfig) (repositoryName : String)
    (prNumber : Int) (services : List Service) (w : World) : Except String String × World :=
  let w1 := { w with trace := w.trace ++ [Event.setup repositoryName prNumber services],
                     count := { w.count with setup := w.count.setup + 1 } }
  match o.setup w.count.setup with
  | some m => (Except.error m, w1)
  | none => (Except.ok (GetEnvironmentDir c (CreateEnvironmentID repositoryName prNumber)), w1)

/-- `StartEnvironment`: `cd <dir> && docker compose up -d`. -/
def StartEnvironment (o : Oracle) (environmentDir : String) (w : World) :
    Except String Unit × World :=
  Execute o ("cd " ++ environmentDir ++ " && docker compose up -d")
    { w with trace := w.trace ++ [Event.start environmentDir] }

/-- `StopEnvironment`: `cd <dir> && docker compose down -v --remove-orphans`, then
`docker system prune -f`; the first failing command is the error of the call. -/
def StopEnvironment (o : Oracle) (environmentDir : String) (w : World) :
    Except String Unit × World :=
  match Execute o ("cd " ++ environmentDir ++ " && docker compose down -v --remove-orphans")
      { w with trace := w.trace ++ [Event.stop environmentDir] } with
  | (Except.error m, w1) => (Except.error m, w1)
  | (Except.ok _, w1) =>
    match Execute o "docker system prune -f" w1 with
    | (Except.error m, w2) => (Except.error m, w2)
    | (Except.ok _, w2) => (Except.ok (), w2)

/-- `CleanupEnvironment`: `filesystem.Remove(environmentDir)`. -/
def CleanupEnvironment (o : Oracle) (environmentDir : String) (w : World) :
    Except String Unit × World :=
  let w1 := { w with trace := w.trace ++ [Event.cleanup environmentDir],
                     count := { w.count with remove := w.count.remove + 1 } }
  match o.remove w.count.remove with
  | some m => (Except.error m, w1)
  | none => (Except.ok (), w1)

/-! ## services/environment: the orchestrator -/

/-- `Service.logEnvironmentAction`: append an audit row; a failure of the log store
is only logged. -/
def logEnvironmentAction (o : Oracle) (environmentID action status message : String)
    (w : World) : World :=
  (EnvironmentLogRepository.Create o ⟨0, environmentID, action, status, message, 0⟩ w).2

/-- Lines 49-84 of `CreateEnvironment`: what it does once the lookup found no
environment. -/
def createFresh (o : Oracle) (c : EnvironmentConfig) (repositoryName : String) (prNumber : Int)
    (services : List Service) (w : World) : Except String Environment × World :=
  let environmentID := CreateEnvironmentID repositoryName prNumber
  match SetupPrEnvironment o c repositoryName prNumber services w with
  | (Except.error e, w1) =>
    (Except.error ("failed to set up PR environment: " ++ e),
      logEnvironmentAction o environmentID "create" "error" e w1)
  | (Except.ok environmentDir, w1) =>
    match StartEnvironment o environmentDir w1 with
    | (Except.error e, w2) =>
      (Except.error ("failed to start environment: " ++ e),
        logEnvironmentAction o environmentID "create" "error" e w2)
    | (Except.ok _, w2) =>
      let env : Environment :=
        ⟨environmentID, repositoryName, "", services, prNumber, "running",
          CreateEnvironmentURL c environmentID, 0, 0⟩
      match EnvironmentRepository.Create o env w2 with
      | (Except.error e, w3) =>
        (Except.error ("failed to store environment in database: " ++ e),
          logEnvironmentAction o environmentID "create" "error" e w3)
      | (Except.ok env1, w3) =>
        (Except.ok env1,
          logEnvironmentAction o environmentID "create" "success"
            ("Environment created successfully with " ++ toString services.length ++ " services")
            w3)

/-- Lines 99-130 of `UpdateEnvironment`: what it does once the lookup returned
`existingEnv`. -/
def updateExisting (o : Oracle) (c : EnvironmentConfig) (existingEnv : Environment)
    (repositoryName : String) (prNumber : Int) (services : List Service) (w : World) :
    Except String Environment × World :=
  let environmentID := CreateEnvironmentID repositoryName prNumber
  match SetupPrEnvironment o c repositoryName prNumber services w with
  | (Except.error e, w1) =>
    (Except.error ("failed to set up PR environment: " ++ e),
      logEnvironmentAction o environmentID "update" "error" e w1)
  | (Except.ok environmentDir, w1) =>
    match StartEnvironment o environmentDir w1 with
    | (Except.error e, w2) =>
      (Except.error ("failed to start environment: " ++ e),
        logEnvironmentAction o environmentID "update" "error" e w2)
    | (Except.ok _, w2) =>
      let env : Environment :=
        { existingEnv with RepositoryName := repositoryName, Services := services,
                           Status := "running", URL := CreateEnvironmentURL c environmentID }
      match EnvironmentRepository.Update o env w2 with
      | (Except.error e, w3) =>
        (Except.error ("failed to update environment in database: " ++ e),
          logEnvironmentAction o environmentID "update" "error" e w3)
      | (Except.ok env1, w3) =>
        (Except.ok env1,
          logEnvironmentAction o environmentID "update" "success"
            ("Environment updated successfully with " ++ toString services.length ++ " services")
            w3)

mutual
/-- `Service.CreateEnvironment`.  The hand-off to `UpdateEnvironment` consumes one
unit of fuel; `none` means the fuel ran out. -/
def CreateEnvironment (o : Oracle) (c : EnvironmentConfig) :
    Nat → String → Int → List Service → World → Option (Except String Environment × World)
  | fuel, repositoryName, prNumber, services, w =>
    match EnvironmentRepository.Get o (CreateEnvironmentID repositoryName prNumber) w with
    | (Except.ok _, w1) =>
      match fuel with
      | 0 => none
      | f + 1 => UpdateEnvironment o c f repositoryName prNumber services w1
    | (Except.error _, w1) => some (createFresh o c repositoryName prNumber services w1)
/-- `Service.UpdateEnvironment`.  The hand-off to `CreateEnvironment` consumes one
unit of fuel; `none` means the fuel ran out. -/
def UpdateEnvironment (o : Oracle) (c : EnvironmentConfig) :
    Nat → String → Int → List Service → World → Option (Except String Environment × World)
  | fuel, repositoryName, prNumber, services, w =>
    match EnvironmentRepository.Get o (CreateEnvironmentID repositoryName prNumber) w with
    | (Except.error _, w1) =>
      match fuel with
      | 0 => none
      | f + 1 => CreateEnvironment o c f repositoryName prNumber services w1
    | (Except.ok existingEnv, w1) =>
      some (updateExisting o c existingEnv repositoryName prNumber services w1)
end

/-- `Service.RemoveEnvironment`. -/
def RemoveEnvironment (o : Oracle) (c : EnvironmentConfig) (repositoryName : String)
    (prNumber : Int) (w : World) : Except String Environment × World :=
  let environmentID := CreateEnvironmentID repositoryName prNumber
  match EnvironmentRepository.Get o environmentID w with
  | (Except.error _, w1) => (Except.error ("environment " ++ environmentID ++ " not found"), w1)
  | (Except.ok existingEnv, w1) =>
    let environmentDir := GetEnvironmentDir c environmentID
    match StopEnvironment o environmentDir w1 with
    | (Except.error e, w2) =>
      (Except.error ("failed to stop environment: " ++ e),
        logEnvironmentAction o environmentID "remove" "error" e w2)
    | (Except.ok _, w2) =>
      match EnvironmentRepository.Update o { existingEnv with Status := "removed" } w2 with
      | (Except.error e, w3) =>
        (Except.error ("failed to update environment status in database: " ++ e),
          logEnvironmentAction o environmentID "remove" "error" e w3)
      | (Except.ok _, w3) =>
        let w4 := logEnvironmentAction o environmentID "remove" "success"
          "Environment removed successfully" w3
        let w5 := (CleanupEnvironment o environmentDir w4).2
        (Except.ok ⟨environmentID, repositoryName, "", [], 0, "removed", "", 0, 0⟩, w5)

/-- `Service.GetEnvironment`. -/
def GetEnvironment (o : Oracle) (id : String) (w : World) : Except String Environment × World :=
  match EnvironmentRepository.Get o id w with
  | (Except.error e, w1) => (Except.error ("failed to get environment: " ++ e), w1)
  | (Except.ok env, w1) => (Except.ok env, w1)

/-- `Service.ListEnvironments`. -/
def ListEnvironments (o : Oracle) (f : Filters) (w : World) :
    Except String (List Environment) × World :=
  match EnvironmentRepository.List o f w with
  | (Except.error e, w1) => (Except.error ("failed to list environments: " ++ e), w1)
  | (Except.ok envs, w1) => (Except.ok envs, w1)

/-! ## Auxiliary definitions of the proofs -/

/-- The JSON value `encoding/json` writes for a `Service`. -/
def serviceValue (s : Service) : JSONValue :=
  JSONValue.object
    [("name".data, JSONValue.string s.Name.data), ("imageUrl".data, JSONValue.string s.ImageURL.data)]

/-- The state after one lookup by id: only the lookup counter moved. -/
def afterLookup (w : World) : World :=
  { w with count := { w.count with queryRow := w.count.queryRow + 1 } }

/-- The record `CreateEnvironment` builds and stores when every step succeeds. -/
def createdEnvironment (o : Oracle) (c : EnvironmentConfig) (r : String) (n : Int)
    (s : List Service) (w : World) : Environment :=
  ⟨CreateEnvironmentID r n, r, String.mk (jsonMarshalServices s), s, n, "running",
    CreateEnvironmentURL c (CreateEnvironmentID r n), o.now w.count.now, o.now w.count.now⟩

/-- The record `UpdateEnvironment` stores and returns when every step succeeds: the
looked-up record with its repository name, services, status, url and update time
replaced. -/
def updatedEnvironment (o : Oracle) (c : EnvironmentConfig) (existingEnv : Environment)
    (r : String) (n : Int) (s : List Service) (w : World) : Environment :=
  { existingEnv with RepositoryName := r, ServicesData := String.mk (jsonMarshalServices s),
                     Services := s, Status := "running",
                     URL := CreateEnvironmentURL c (CreateEnvironmentID r n),
                     UpdatedAt := o.now w.count.now }

/-- The record `RemoveEnvironment` hands to the store's update: the looked-up
record with status `removed`, its services marshalled again and a new update time. -/
def removedEnvironment (o : Oracle) (existingEnv : Environment) (w : World) : Environment :=
  { existingEnv with Status := "removed",
                     ServicesData := String.mk (jsonMarshalServices existingEnv.Services),
                     UpdatedAt := o.now w.count.now }

/-! ## A concrete scenario

The scenario of the specification: environment `widgets-pr-42` with the single
service `api`. -/

/-- An oracle under which every external call succeeds; the k-th clock reading is
`100 + k`. -/
def allSucceed : Oracle :=
  ⟨fun _ => none, fun _ => none, fun _ => none, fun _ => none, fun _ => none, fun _ => none,
    fun _ => none, fun _ => none, fun k => 100 + k⟩

/-- As `allSucceed`, but every provision fails. -/
def setupFails : Oracle := { allSucceed with setup := fun _ => some "copy failed" }

/-- As `allSucceed`, but every shell command fails. -/
def execFails : Oracle := { allSucceed with exec := fun _ => some "exit status 1" }

/-- As `allSucceed`, but every directory removal fails. -/
def removeFails : Oracle := { allSucceed with remove := fun _ => some "permission denied" }

/-- A configuration; paths are joined with a slash. -/
def exampleConfig : EnvironmentConfig :=
  ⟨"data/environments", "example.com", fun a b => a ++ "/" ++ b⟩

/-- No call made yet. -/
def zeroCounters : Counters := ⟨0, 0, 0, 0, 0, 0, 0, 0, 0⟩

/-- The empty store. -/
def emptyWorld : World := ⟨[], [], [], zeroCounters⟩

/-- The services of the scenario. -/
def apiV1 : List Service := [⟨"api", "img:v1"⟩]

/-- The services of the scenario after the update. -/
def apiV2 : List Service := [⟨"api", "img:v2"⟩]

/-- The row of `widgets-pr-42`, running `api` at `img:v1`. -/
def widgetsRow : Row :=
  ⟨"widgets-pr-42", "widgets", "[\x7b\"name\":\"api\",\"imageUrl\":\"img:v1\"\x7d]", 42, "running",
    "https://widgets-pr-42.example.com", 100, 100⟩

/-- The record the store returns for `widgetsRow`. -/
def widgetsEnvironment : Environment :=
  ⟨"widgets-pr-42", "widgets", "[\x7b\"name\":\"api\",\"imageUrl\":\"img:v1\"\x7d]", apiV1, 42,
    "running", "https://widgets-pr-42.example.com", 100, 100⟩

/-- A store holding the row of `widgets-pr-42` only. -/
def widgetsWorld : World := ⟨[widgetsRow], [], [], zeroCounters⟩

/-- The minimal record `RemoveEnvironment` returns for `widgets-pr-42`. -/
def removedWidgets : Environment :=
  ⟨"widgets-pr-42", "widgets", "", [], 0, "removed", "", 0, 0⟩

/-- The state after `k` lookups by id: only the lookup counter moved. -/
def lookups (k : Nat) (w : World) : World :=
  { w with count := { w.count with queryRow := w.count.queryRow + k } }

/-- The audit rows of `w1` that were appended since `w`. -/
def newAuditRows (w w1 : World) : List EnvironmentLog :=
  w1.environment_logs.drop w.environment_logs.length

/-- The driver events of `w1` that were recorded since `w`. -/
def newEvents (w w1 : World) : List Event :=
  w1.trace.drop w.trace.length

/-- A call of one of the three mutating operations of the orchestrator. -/
inductive Call where
  | create (repositoryName : String) (prNumber : Int) (services : List Service)
  | update (repositoryName : String) (prNumber : Int) (services : List Service)
  | remove (repositoryName : String) (prNumber : Int)
  deriving DecidableEq, Repr

/-- The state one call leaves behind; `none` when the delegation ran out of fuel. -/
def runCall (o : Oracle) (c : EnvironmentConfig) (fuel : Nat) : Call → World → Option World
  | Call.create r n s, w => (CreateEnvironment o c fuel r n s w).map Prod.snd
  | Call.update r n s, w => (UpdateEnvironment o c fuel r n s w).map Prod.snd
  | Call.remove r n, w => some (RemoveEnvironment o c r n w).2

/-- The state a sequence of calls leaves behind, each call starting where the previous one
stopped. -/
def runCalls (o : Oracle) (c : EnvironmentConfig) (fuel : Nat) : List Call → World → Option World
  | [], w => some w
  | call :: rest, w =>
    match runCall o c fuel call w with
    | none => none
    | some w1 => runCalls o c fuel rest w1

/-! ## strings: Contains, ReplaceAll

Go strings are byte sequences; on valid UTF-8 text and a pattern of ASCII characters a match of
the bytes is a match of the characters, so both functions are given on characters. -/

/-- Whether `substr` occurs in the characters `s`. -/
def containsChars (substr : List Char) : List Char → Bool
  | [] => substr.isPrefixOf []
  | ch :: rest => substr.isPrefixOf (ch :: rest) || containsChars substr rest

/-- `strings.Contains(s, substr)`. -/
def Contains (s substr : String) : Bool :=
  containsChars substr.data s.data

/-- The scan of `strings.Replace(s, old, new, -1)` for a non-empty `old`: the leftmost
occurrence is replaced and the scan goes on behind it.  Each step consumes a character, so
fuel above the length of the text is never used up. -/
def replaceFrom (old new : List Char) : Nat → List Char → List Char
  | 0, s => s
  | fuel + 1, s =>
    if old.isPrefixOf s then new ++ replaceFrom old new fuel (s.drop old.length)
    else
      match s with
      | [] => []
      | ch :: rest => ch :: replaceFrom old new fuel rest

/-- `strings.ReplaceAll(s, old, new)`: every non-overlapping occurrence of `old`, leftmost
first, is replaced by `new`; an empty `old` matches before the text and behind every
character. -/
def ReplaceAll (s old new : String) : String :=
  if old.data = [] then String.mk (new.data ++ s.data.flatMap (fun ch => ch :: new.data))
  else String.mk (replaceFrom old.data new.data (s.data.length + 1) s.data)

/-- The substitution `UpdateEnvironmentFiles` applies to the text of `.env` and of
`docker-compose.yml`: `strings.ReplaceAll(content, "tailscale-subdomain", environmentID)`. -/
def substituteSubdomain (content environmentID : String) : String :=
  ReplaceAll content "tailscale-subdomain" environmentID

/-! ## strings.Split, strconv.Atoi -/

/-- The scan of `strings.Split(s, sep)` for a non-empty `sep`: `cur` holds the characters of
the part being read; the leftmost occurrence of `sep` closes it.  Each step consumes a
character, so fuel above the length of the text is never used up. -/
def splitFrom (sep : List Char) : Nat → List Char → List Char → List (List Char)
  | 0, s, cur => [cur ++ s]
  | fuel + 1, s, cur =>
    if sep.isPrefixOf s then cur :: splitFrom sep fuel (s.drop sep.length) []
    else
      match s with
      | [] => [cur]
      | ch :: rest => splitFrom sep fuel rest (cur ++ [ch])

/-- `strings.Split(s, sep)`: the parts of `s` between the non-overlapping occurrences of `sep`,
leftmost first; an empty `sep` splits behind every character. -/
def Split (s sep : String) : List String :=
  if sep.data = [] then s.data.map (fun ch => String.mk [ch])
  else (splitFrom sep.data (s.data.length + 1) s.data []).map String.mk

/-- The value of a string of decimal digits. -/
def digitsValue (ds : List Char) : Nat :=
  ds.foldl (fun acc ch => acc * 10 + (ch.toNat - 48)) 0

/-- `strconv.Atoi(s)` on a platform with 64-bit `int`: an optional sign and at least one
decimal digit, nothing else; a value outside the range of `int` is an error. -/
def Atoi (s : String) : Option Int :=
  match s.data with
  | [] => none
  | ch :: rest =>
    let neg := decide (ch = '-')
    let digits := if ch = '-' ∨ ch = '+' then rest else ch :: rest
    if digits = [] then none
    else if digits.all isDigit then
      if neg then
        if digitsValue digits ≤ 2 ^ 63 then some (-(digitsValue digits : Int)) else none
      else
        if digitsValue digits < 2 ^ 63 then some (digitsValue digits : Int) else none
    else none

/-! ## handlers: the HTTP layer -/

/-- Lines 73-87 of the `UpdateEnvironment` handler and 132-146 of the `RemoveEnvironment`
handler: split the path parameter on `-pr-` and read the second part as the PR number.  An
error is the status and message of the response sent. -/
def splitEnvironmentID (id : String) : Except (Nat × String) (String × Int) :=
  match Split id "-pr-" with
  | [repositoryName, pr] =>
    match Atoi pr with
    | none => Except.error (400, "Invalid PR number in environment ID")
    | some prNumber => Except.ok (repositoryName, prNumber)
  | _ =>
    Except.error (400, "Invalid environment ID format. Expected format: \x7brepository_name\x7d-pr-\x7bpr_number\x7d")

/-- The `RemoveEnvironment` handler (`DELETE /api/environments/:id`): the status of the
response. -/
def RemoveEnvironmentHandler (o : Oracle) (c : EnvironmentConfig) (id : String) (w : World) :
    Nat × World :=
  match splitEnvironmentID id with
  | Except.error (status, _) => (status, w)
  | Except.ok (repositoryName, prNumber) =>
    match RemoveEnvironment o c repositoryName prNumber w with
    | (Except.error e, w1) => if Contains e "not found" then (404, w1) else (500, w1)
    | (Except.ok _, w1) => (200, w1)

/-- The `GetEnvironment` handler (`GET /api/environments/:id`): the status of the response. -/
def GetEnvironmentHandler (o : Oracle) (id : String) (w : World) : Nat × World :=
  match GetEnvironment o id w with
  | (Except.error e, w1) => if Contains e "not found" then (404, w1) else (500, w1)
  | (Except.ok _, w1) => (200, w1)

/-- The filters the `ListEnvironments` handler builds from the query parameters `status`,
`repository_name` and `pr_number`: a parameter that is empty, or a PR number that is not an
integer, sets no filter. -/
def listFilters (status repositoryName prNumberStr : String) : Filters :=
  ⟨if status ≠ "" then some status else none,
    if prNumberStr ≠ "" then Atoi prNumberStr else none,
    if repositoryName ≠ "" then some repositoryName else none⟩

/-- The `ListEnvironments` handler (`GET /api/environments`): the status of the response and
the records sent. -/
def ListEnvironmentsHandler (o : Oracle) (status repositoryName prNumberStr : String)
    (w : World) : (Nat × List Environment) × World :=
  match ListEnvironments o (listFilters status repositoryName prNumberStr) w with
  | (Except.error _, w1) => ((500, []), w1)
  | (Except.ok envs, w1) => ((200, envs), w1)
/-- As `allSucceed`, but every lookup by id fails in the database. -/
def readFails : Oracle := { allSucceed with queryRow := fun _ => some "database is locked" }

/-- As `allSucceed`, but every shell command fails: the shell does not find `docker`. -/
def dockerMissing : Oracle := { allSucceed with exec := fun _ => some "sh: 1: docker: not found" }

/-- The row of `gadgets-pr-7`, created after `widgetsRow`. -/
def gadgetsRow : Row :=
  ⟨"gadgets-pr-7", "gadgets", "[\x7b\"name\":\"api\",\"imageUrl\":\"img:v1\"\x7d]", 7, "running",
    "https://gadgets-pr-7.example.com", 200, 200⟩

/-- The record the store returns for `gadgetsRow`. -/
def gadgetsEnvironment : Environment :=
  ⟨"gadgets-pr-7", "gadgets", "[\x7b\"name\":\"api\",\"imageUrl\":\"img:v1\"\x7d]", apiV1, 7,
    "running", "https://gadgets-pr-7.example.com", 200, 200⟩

/-- A store holding the rows of `widgets-pr-42` and `gadgets-pr-7`. -/
def twoRowsWorld : World := ⟨[widgetsRow, gadgetsRow], [], [], zeroCounters⟩

/-- As `allSucceed`, but every insert into the audit log fails. -/
def logFails : Oracle := { allSucceed with insertLog := fun _ => some "disk I/O error" }

/-! ## utils/commandexecutor -/

/-- What `cmd.Run()` leaves behind for `sh -c command`: the two buffers attached to the
process and the error of the run (a non-zero exit, a kill at the timeout). -/
structure ProcessResult where
  stdout : String
  stderr : String
  err : Option String
  deriving DecidableEq, Repr

/-- `CommandExecutor.ExecuteWithTimeout`: run the command under the timeout; an error of the
run is returned with an empty string, otherwise the text of the `stdout` buffer. -/
def CommandExecutor.ExecuteWithTimeout (run : String → Nat → ProcessResult) (command : String)
    (timeout : Nat) : Except String String :=
  match (run command timeout).err with
  | some e => Except.error e
  | none => Except.ok (run command timeout).stdout

/-- `CommandExecutor.Execute`: `ExecuteWithTimeout` with the default timeout. -/
def CommandExecutor.Execute (run : String → Nat → ProcessResult) (defaultTimeout : Nat)
    (command : String) : Except String String :=
  CommandExecutor.ExecuteWithTimeout run command defaultTimeout

/-! ## handlers: the request bodies -/

/-- The struct the create and update handlers bind the body to; `Services` is `none` while
the slice is nil.  The update handler's struct has no `PRNumber`. -/
structure RequestBody where
  RepositoryName : String
  PRNumber : Int
  Services : Option (List Service)
  deriving DecidableEq, Repr

/-- The fields of the request struct a JSON key can select. -/
inductive RequestField where
  | repositoryName
  | prNumber
  | services
  deriving DecidableEq, Repr

/-- Field selected by an object key: the exact tag first, then the tag up to case.  Without
`withPR` (the update handler) no field has the tag `pr_number`. -/
def findRequestField (withPR : Bool) (key : List Char) : Option RequestField :=
  if key = "repository_name".data then some RequestField.repositoryName
  else if withPR ∧ key = "pr_number".data then some RequestField.prNumber
  else if key = "services".data then some RequestField.services
  else if key.map foldChar = "REPOSITORY_NAME".data then some RequestField.repositoryName
  else if withPR ∧ key.map foldChar = "PR_NUMBER".data then some RequestField.prNumber
  else if key.map foldChar = "SERVICES".data then some RequestField.services
  else none

/-- Decode the elements of an array into a slice that holds `old`: the element at an index
the slice already has is decoded over the old value, whose other fields stay; `null` leaves
an element as it is. -/
def decodeElemsInto : List Service → List JSONValue → Except String (List Service)
  | _, [] => Except.ok []
  | old, v :: vs =>
    let decoded :=
      match v with
      | JSONValue.object kvs => storeMembers (old.headD ⟨"", ""⟩) kvs
      | JSONValue.null => Except.ok (old.headD ⟨"", ""⟩)
      | _ => Except.error "json: cannot unmarshal value into Go value of type models.Service"
    match decoded with
    | Except.error m => Except.error m
    | Except.ok svc =>
      match decodeElemsInto old.tail vs with
      | Except.error m => Except.error m
      | Except.ok rest => Except.ok (svc :: rest)

/-- Store one object member into the request struct: a value of the field's JSON type sets
the field (a number must be the literal of an `int`), `null` leaves it, a key that selects no
field is skipped, any other value is an `UnmarshalTypeError`. -/
def storeRequestMember (withPR : Bool) (req : RequestBody) (kv : List Char × JSONValue) :
    Except String RequestBody :=
  match findRequestField withPR kv.1, kv.2 with
  | none, _ => Except.ok req
  | some _, JSONValue.null => Except.ok req
  | some RequestField.repositoryName, JSONValue.string v =>
    Except.ok { req with RepositoryName := String.mk v }
  | some RequestField.prNumber, JSONValue.number lit =>
    match Atoi (String.mk lit) with
    | some n => Except.ok { req with PRNumber := n }
    | none => Except.error "json: cannot unmarshal number into Go struct field of type int"
  | some RequestField.services, JSONValue.array xs =>
    match decodeElemsInto (req.Services.getD []) xs with
    | Except.ok ss => Except.ok { req with Services := some ss }
    | Except.error m => Except.error m
  | some _, _ => Except.error "json: cannot unmarshal value into Go struct field"

/-- Store the members of an object in order. -/
def storeRequestMembers (withPR : Bool) :
    RequestBody → List (List Char × JSONValue) → Except String RequestBody
  | req, [] => Except.ok req
  | req, kv :: kvs =>
    match storeRequestMember withPR req kv with
    | Except.ok req1 => storeRequestMembers withPR req1 kvs
    | Except.error m => Except.error m

/-- `c.ShouldBindJSON(&req)`: decode the first JSON value of the body into the zero struct,
then check the `binding:"required"` tags: a non-empty repository name, a non-zero PR number
(create only), a non-nil services slice.  On success the services are the slice decoded. -/
def ShouldBindJSON (withPR : Bool) (body : String) : Except String (String × Int × List Service) :=
  let decoded : Except String RequestBody :=
    match parseValue (body.data.length + 1) body.data with
    | none => Except.error "invalid character in JSON input"
    | some (JSONValue.object kvs, _) => storeRequestMembers withPR ⟨"", 0, none⟩ kvs
    | some (JSONValue.null, _) => Except.ok ⟨"", 0, none⟩
    | some _ => Except.error "json: cannot unmarshal value into Go value of type struct"
  match decoded with
  | Except.error m => Except.error m
  | Except.ok req =>
    if req.RepositoryName = "" then
      Except.error "Field validation for 'RepositoryName' failed on the 'required' tag"
    else if withPR ∧ req.PRNumber = 0 then
      Except.error "Field validation for 'PRNumber' failed on the 'required' tag"
    else
      match req.Services with
      | none => Except.error "Field validation for 'Services' failed on the 'required' tag"
      | some ss => Except.ok (req.RepositoryName, req.PRNumber, ss)

/-- The loop `for _, service := range req.Services` of both handlers: the message of the first
service without a name or without an image URL. -/
def validateServices : List Service → Option String
  | [] => none
  | service :: rest =>
    if service.Name = "" then some "Each service must have a name"
    else if service.ImageURL = "" then some "Each service must have an image_url"
    else validateServices rest

/-- The `CreateEnvironment` handler (`POST /api/environments`) over the environment service it
holds: the status of the response, the environment sent with it, and the state the service
left; `none` when the service does not return. -/
def CreateEnvironmentHandler
    (createEnvironment : String → Int → List Service → World →
      Option (Except String Environment × World))
    (body : String) (w : World) : Option ((Nat × Option Environment) × World) :=
  match ShouldBindJSON true body with
  | Except.error _ => some ((400, none), w)
  | Except.ok (repositoryName, prNumber, services) =>
    if services.length = 0 then some ((400, none), w)
    else
      match validateServices services with
      | some _ => some ((400, none), w)
      | none =>
        match createEnvironment repositoryName prNumber services w with
        | none => none
        | some (Except.error _, w1) => some ((500, none), w1)
        | some (Except.ok environment, w1) => some ((201, some environment), w1)

/-- The `UpdateEnvironment` handler (`PUT /api/environments/:id`) over the environment service
it holds. -/
def UpdateEnvironmentHandler
    (updateEnvironment : String → Int → List Service → World →
      Option (Except String Environment × World))
    (id body : String) (w : World) : Option ((Nat × Option Environment) × World) :=
  match splitEnvironmentID id with
  | Except.error (status, _) => some ((status, none), w)
  | Except.ok (_, prNumber) =>
    match ShouldBindJSON false body with
    | Except.error _ => some ((400, none), w)
    | Except.ok (repositoryName, _, services) =>
      if services.length = 0 then some ((400, none), w)
      else
        match validateServices services with
        | some _ => some ((400, none), w)
        | none =>
          match updateEnvironment repositoryName prNumber services w with
          | none => none
          | some (Except.error _, w1) => some ((500, none), w1)
          | some (Except.ok environment, w1) => some ((200, some environment), w1)

/-! ## The requests of the tests -/

/-- The body `TestCreateEnvironment` posts, as `json.Marshal` writes the map. -/
def testCreateBody : String :=
  "\x7b\"pr_number\":123,\"repository_name\":\"test-repo\",\"services\":[\x7b\"image_url\":\"image1:latest\",\"name\":\"service1\"\x7d]\x7d"

/-- The same request with the image under the key of the struct tag. -/
def tagCreateBody : String :=
  "\x7b\"pr_number\":123,\"repository_name\":\"test-repo\",\"services\":[\x7b\"imageUrl\":\"image1:latest\",\"name\":\"service1\"\x7d]\x7d"

/-- The services data of `TestEnvironment_UnmarshalServices`. -/
def testServicesData : String :=
  "[\x7b\"name\":\"service1\",\"image_url\":\"image1:latest\"\x7d,\x7b\"name\":\"service2\",\"image_url\":\"image2:latest\"\x7d]"

/-- A body for `PUT /api/environments/widgets-pr-42` that names the repository `gadgets`. -/
def gadgetsUpdateBody : String :=
  "\x7b\"repository_name\":\"gadgets\",\"services\":[\x7b\"name\":\"api\",\"imageUrl\":\"img:v2\"\x7d]\x7d"

/-- The process of `echo 'Error message' >&2`: exit status zero, the text on standard error. -/
def echoToStderr : String → Nat → ProcessResult :=
  fun _ _ => ⟨"", "Error message\n", none⟩

/-! ## utils/envconfig: the images of the manifest -/

/-- A value `yaml.Unmarshal` stores into an `interface{}`; a mapping with string keys is a
`map[string]interface{}`, given by its entries. -/
inductive YAMLValue where
  | null
  | bool (b : Bool)
  | int (n : Int)
  | string (s : String)
  | other (literal : String)
  | sequence (items : List YAMLValue)
  | mapping (entries : List (String × YAMLValue))

/-- The Go expression `m[key]` on a map given by its entries. -/
def mapGet (m : List (String × YAMLValue)) (key : String) : Option YAMLValue :=
  match m.find? (fun e => e.1 = key) with
  | some e => some e.2
  | none => none

/-- The Go statement `m[key] = value`: the entry of the key is replaced, a new key is added. -/
def mapSet (m : List (String × YAMLValue)) (key : String) (value : YAMLValue) :
    List (String × YAMLValue) :=
  if m.any (fun e => e.1 = key) then m.map (fun e => if e.1 = key then (key, value) else e)
  else m ++ [(key, value)]

/-- The body of the loop of `UpdateEnvironmentFiles` over the requested services: when the
manifest defines the service as a mapping, its `image` becomes the image URL (the mapping is
changed in place, which is the entry of `servicesMap`); otherwise only a warning is logged. -/
def updateServiceImage (servicesMap : List (String × YAMLValue)) (service : Service) :
    List (String × YAMLValue) :=
  match mapGet servicesMap service.Name with
  | some (YAMLValue.mapping serviceConfig) =>
    mapSet servicesMap service.Name
      (YAMLValue.mapping (mapSet serviceConfig "image" (YAMLValue.string service.ImageURL)))
  | _ => servicesMap

/-- The loop `for _, service := range services`. -/
def updateServiceImages (servicesMap : List (String × YAMLValue)) (services : List Service) :
    List (String × YAMLValue) :=
  services.foldl updateServiceImage servicesMap

/-- Lines 97-110 of `UpdateEnvironmentFiles`: when `compose["services"]` is a mapping, the
images of the requested services are set in it; otherwise nothing is done. -/
def updateComposeImages (compose : List (String × YAMLValue)) (services : List Service) :
    List (String × YAMLValue) :=
  match mapGet compose "services" with
  | some (YAMLValue.mapping servicesMap) =>
    mapSet compose "services" (YAMLValue.mapping (updateServiceImages servicesMap services))
  | _ => compose

/-- The image the requests leave in a service definition: the one of the last requested
service of that name, if there is one. -/
def requestedImage (services : List Service) (name : String) : Option String :=
  (services.reverse.find? (fun service => service.Name = name)).map (fun service => service.ImageURL)

/-- The service map of a manifest: `api` with an image and ports, `db` with an image, and
`note`, which is no mapping. -/
def exampleServicesMap : List (String × YAMLValue) :=
  [("api", YAMLValue.mapping
      [("image", YAMLValue.string "img:v0"),
        ("ports", YAMLValue.sequence [YAMLValue.string "80:80"])]),
    ("db", YAMLValue.mapping [("image", YAMLValue.string "postgres:16")]),
    ("note", YAMLValue.string "kept")]

/-- Requests that name `api` twice and a service the manifest does not have. -/
def exampleRequests : List Service :=
  [⟨"api", "img:v1"⟩, ⟨"cache", "redis:7"⟩, ⟨"api", "img:v2"⟩]

/-! ## path/filepath: Clean, Join

The library functions `GetEnvironmentDir` reaches through `filepath.Join`, on paths with the
separator `/`. -/

/-- The elements of a path between its separators. -/
def splitOnSlash : List Char → List (List Char)
  | [] => [[]]
  | ch :: rest =>
    if ch = '/' then [] :: splitOnSlash rest
    else
      match splitOnSlash rest with
      | [] => [[ch]]
      | part :: parts => (ch :: part) :: parts

/-- One element of the path met by `filepath.Clean`, the elements kept so far being `stack`,
last first: an empty element and `.` are dropped, `..` removes the element before it unless
that is a `..` too, and is dropped at the root. -/
def cleanStep (rooted : Bool) (stack : List (List Char)) (part : List Char) :
    List (List Char) :=
  if part = [] ∨ part = ['.'] then stack
  else if part = ['.', '.'] then
    match stack with
    | [] => if rooted then [] else [part]
    | top :: below => if top = ['.', '.'] then part :: stack else below
  else part :: stack

/-- The elements of a path joined by the separator. -/
def joinParts : List (List Char) → List Char
  | [] => []
  | [part] => part
  | part :: next :: rest => part ++ '/' :: joinParts (next :: rest)

/-- `filepath.Clean(path)`: the shortest path equivalent to `path` by lexical processing; the
empty path gives `.`. -/
def filepathClean (path : List Char) : List Char :=
  let rooted := decide (path.head? = some '/')
  let body := joinParts ((splitOnSlash path).foldl (cleanStep rooted) []).reverse
  if rooted then '/' :: body else if body = [] then ['.'] else body

/-- `filepath.Join(a, b)`: the non-empty elements joined by the separator, and the result
cleaned; no non-empty element gives the empty string. -/
def filepathJoin (a b : String) : String :=
  if a = "" then (if b = "" then "" else String.mk (filepathClean b.data))
  else if b = "" then String.mk (filepathClean a.data)
  else String.mk (filepathClean (a.data ++ '/' :: b.data))

/-- The configuration of the scenario with the paths joined by `filepath.Join`. -/
def cleaningConfig : EnvironmentConfig :=
  ⟨"data/environments", "example.com", filepathJoin⟩

/-- A body for `POST /api/environments` that names the repository `my-pr-app`. -/
def prAppCreateBody : String :=
  "\x7b\"repository_name\":\"my-pr-app\",\"pr_number\":7,\"services\":[\x7b\"name\":\"api\",\"imageUrl\":\"img:v1\"\x7d]\x7d"

/-! ## Lemmas: the JSON decoder inverts the encoder -/

theorem hexVal_hexDigit (n : Nat) : hexVal (hexDigit n) = some (n % 16) := by
  have h : n % 16 < 16 := Nat.mod_lt _ (by decide)
  unfold hexDigit
  generalize n % 16 = m at h
  interval_cases m <;> rfl

theorem getu4_uEscape (n : Nat) (h : n < 65536) :
    getu4 (hexDigit (n / 4096)) (hexDigit (n / 256)) (hexDigit (n / 16)) (hexDigit n) = some n := by
  simp only [getu4, hexVal_hexDigit]
  congr 1
  omega

theorem readEscape_uEscape (n : Nat) (h : n < 55296) (cs : List Char) :
    readEscape ('u' :: hexDigit (n / 4096) :: hexDigit (n / 256) :: hexDigit (n / 16)
      :: hexDigit n :: cs) = some (Char.ofNat n, cs) := by
  have h3 : ¬ (55296 ≤ n ∧ n < 57344) := by omega
  simp [readEscape, getu4_uEscape n (by omega), h3]

theorem parseStringBody_escapeChar (c : Char) (fuel : Nat) (cs : List Char) :
    parseStringBody (fuel + 1) (escapeChar c ++ cs) = consChar c (parseStringBody fuel cs) := by
  unfold escapeChar
  split_ifs with h1 h2 h3 h4 h5 h6 h7
  · rcases h1 with h | h <;> subst h <;> simp [parseStringBody, readEscape, simpleEscape]
  · subst h2; simp [parseStringBody, readEscape, simpleEscape]
  · subst h3; simp [parseStringBody, readEscape, simpleEscape]
  · subst h4; simp [parseStringBody, readEscape, simpleEscape]
  · subst h5; simp [parseStringBody, readEscape, simpleEscape]
  · subst h6; simp [parseStringBody, readEscape, simpleEscape]
  · have hn : c.toNat < 55296 := by
      rcases h7 with h | h | h | h | h | h
      · omega
      · subst h; decide
      · subst h; decide
      · subst h; decide
      · omega
      · omega
    simp [uEscape, parseStringBody, readEscape_uEscape _ hn, Char.ofNat_toNat]
  · push_neg at h1 h7
    simp [parseStringBody, h1.1, h1.2, h7.1]


theorem escapeChar_length_pos (c : Char) : 0 < (escapeChar c).length := by
  unfold escapeChar uEscape
  split_ifs <;> simp

theorem parseStringBody_escapeChars (s rest : List Char) :
    ∀ fuel, (escapeChars s).length < fuel →
      parseStringBody fuel (escapeChars s ++ '"' :: rest) = some (s, rest) := by
  induction s with
  | nil =>
    intro fuel h
    cases fuel with
    | zero => simp at h
    | succ f => simp [escapeChars, parseStringBody]
  | cons c s ih =>
    intro fuel h
    cases fuel with
    | zero => simp at h
    | succ f =>
      have hc := escapeChar_length_pos c
      simp only [escapeChars, List.length_append] at h
      simp only [escapeChars, List.append_assoc]
      rw [parseStringBody_escapeChar, ih f (by omega)]
      rfl

theorem parseString_escapeChars (s rest : List Char) :
    parseString (escapeChars s ++ '"' :: rest) = some (s, rest) := by
  unfold parseString
  exact parseStringBody_escapeChars s rest _ (by simp)

theorem parseString_name (rest : List Char) :
    parseString ('n' :: 'a' :: 'm' :: 'e' :: '"' :: rest) = some ("name".data, rest) :=
  parseString_escapeChars "name".data rest

theorem parseString_imageUrl (rest : List Char) :
    parseString ('i' :: 'm' :: 'a' :: 'g' :: 'e' :: 'U' :: 'r' :: 'l' :: '"' :: rest)
      = some ("imageUrl".data, rest) :=
  parseString_escapeChars "imageUrl".data rest

theorem encodeService_append (s : Service) (rest : List Char) :
    encodeService s ++ rest =
      '\x7b' :: '"' :: 'n' :: 'a' :: 'm' :: 'e' :: '"' :: ':' :: '"' ::
        (escapeChars s.Name.data ++ '"' :: ',' :: '"' :: 'i' :: 'm' :: 'a' :: 'g' :: 'e' :: 'U'
          :: 'r' :: 'l' :: '"' :: ':' :: '"' ::
            (escapeChars s.ImageURL.data ++ '"' :: '\x7d' :: rest)) := by
  simp [encodeService, encodeString]

theorem parseValue_encodeService (s : Service) (rest : List Char) (f : Nat) :
    parseValue (f + 4) (encodeService s ++ rest) = some (serviceValue s, rest) := by
  rw [encodeService_append]
  simp [parseValue, parseMembers, skipWS, isSpace, parseString_name, parseString_imageUrl,
    parseString_escapeChars, serviceValue]


theorem encodeService_length (s : Service) : 5 ≤ (encodeService s).length := by
  simp [encodeService, encodeString]

theorem encodeElems_cons_cons (s t : Service) (u : List Service) :
    encodeElems (s :: t :: u) = encodeService s ++ ',' :: encodeElems (t :: u) := rfl

theorem encodeElems_length (s : Service) (ss : List Service) :
    ss.length + 5 ≤ (encodeElems (s :: ss)).length := by
  induction ss generalizing s with
  | nil => simpa [encodeElems] using encodeService_length s
  | cons t u ih =>
    have h1 := ih t
    have h2 := encodeService_length s
    simp only [encodeElems_cons_cons, List.length_append, List.length_cons] at *
    omega

theorem parseElems_encodeElems (ss : List Service) :
    ∀ (s : Service) (rest : List Char) (f : Nat),
      parseElems (f + ss.length + 5) (encodeElems (s :: ss) ++ ']' :: rest)
        = some ((s :: ss).map serviceValue, rest) := by
  induction ss with
  | nil =>
    intro s rest f
    simp [encodeElems, parseElems, parseValue_encodeService, skipWS, isSpace]
  | cons t u ih =>
    intro s rest f
    have h := ih t rest f
    rw [encodeElems_cons_cons]
    simp only [List.length_cons, List.append_assoc, List.cons_append]
    rw [show f + (u.length + 1) + 5 = (f + u.length + 5) + 1 by omega, parseElems,
      show f + u.length + 5 = (f + u.length + 1) + 4 by omega, parseValue_encodeService]
    rw [show (f + u.length + 1) + 4 = f + u.length + 5 by omega]
    simp [skipWS, isSpace, h]

theorem parseJSON_jsonMarshalServices (ss : List Service) :
    parseJSON (jsonMarshalServices ss) = some (JSONValue.array (ss.map serviceValue)) := by
  cases ss with
  | nil => simp [parseJSON, jsonMarshalServices, encodeElems, parseValue, skipWS, isSpace]
  | cons s t =>
    have hl := encodeElems_length s t
    obtain ⟨f, hf⟩ : ∃ f, (jsonMarshalServices (s :: t)).length = f + t.length + 5 :=
      ⟨(jsonMarshalServices (s :: t)).length - (t.length + 5), by
        simp only [jsonMarshalServices, List.length_cons, List.length_append]; omega⟩
    have he : ∃ r, encodeElems (s :: t) = '\x7b' :: r := by
      cases t with
      | nil => exact ⟨_, by simpa [encodeElems] using encodeService_append s []⟩
      | cons t u => exact ⟨_, by rw [encodeElems_cons_cons, encodeService_append]⟩
    obtain ⟨r, hr⟩ := he
    have hp := parseElems_encodeElems t s [] f
    unfold parseJSON
    rw [hf]
    unfold jsonMarshalServices
    rw [parseValue]
    rw [hr] at hp ⊢
    simp only [List.cons_append] at hp ⊢
    simp [hp, skipWS, isSpace]

theorem decodeElems_serviceValue (ss : List Service) :
    decodeElems (ss.map serviceValue) = Except.ok ss := by
  induction ss with
  | nil => rfl
  | cons s t ih =>
    simp [decodeElems, ih, decodeService, serviceValue, storeMembers, storeMember, findField]

/-- Decoding what the encoder wrote gives back the services. -/
theorem jsonUnmarshal_jsonMarshal (ss : List Service) :
    jsonUnmarshalServices (jsonMarshalServices ss) = Except.ok ss := by
  simp [jsonUnmarshalServices, parseJSON_jsonMarshalServices, decodeServices,
    decodeElems_serviceValue]


/-! ## Lemmas: the store -/

theorem Get_snd (o : Oracle) (id : String) (w : World) :
    (EnvironmentRepository.Get o id w).2 = afterLookup w := by
  unfold EnvironmentRepository.Get afterLookup
  cases o.queryRow w.count.queryRow <;> simp
  cases List.find? (fun r => decide (r.id = id)) w.environments <;> simp

theorem find_absent (id : String) (rows : List Row) (h : ∀ row ∈ rows, row.id ≠ id) :
    rows.find? (fun r => decide (r.id = id)) = none := by
  simp [List.find?_eq_none]
  exact h

theorem Get_absent (o : Oracle) (id : String) (w : World)
    (h : ∀ row ∈ w.environments, row.id ≠ id) :
    ∃ e, EnvironmentRepository.Get o id w = (Except.error e, afterLookup w) := by
  unfold EnvironmentRepository.Get afterLookup
  cases o.queryRow w.count.queryRow with
  | some m => exact ⟨m, rfl⟩
  | none => simp [find_absent id _ h]

theorem mk_marshal_ne_empty (s : List Service) : String.mk (jsonMarshalServices s) ≠ "" := by
  intro h
  have := congrArg String.data h
  simp [jsonMarshalServices] at this

theorem UnmarshalServices_marshalled (e : Environment) (s : List Service)
    (h : e.ServicesData = String.mk (jsonMarshalServices s)) :
    e.UnmarshalServices = Except.ok { e with Services := s } := by
  unfold Environment.UnmarshalServices
  rw [h]
  simp [mk_marshal_ne_empty, jsonUnmarshal_jsonMarshal]

theorem createFresh_ok (o : Oracle) (c : EnvironmentConfig) (r : String) (n : Int)
    (s : List Service) (w : World)
    (habsent : ∀ row ∈ w.environments, row.id ≠ CreateEnvironmentID r n)
    (hsetup : o.setup w.count.setup = none)
    (hstart : o.exec w.count.exec = none)
    (hinsert : o.insertEnvironment w.count.insertEnvironment = none) :
    (createFresh o c r n s w).1 = Except.ok (createdEnvironment o c r n s w) ∧
    (createFresh o c r n s w).2.environments
      = w.environments ++ [(createdEnvironment o c r n s w).toRow] ∧
    (createFresh o c r n s w).2.count.queryRow = w.count.queryRow := by
  have hany : (w.environments.any fun r1 => decide (r1.id = CreateEnvironmentID r n)) = false := by
    simp only [List.any_eq_false, decide_eq_true_eq]
    exact habsent
  simp [createFresh, SetupPrEnvironment, StartEnvironment, Execute, EnvironmentRepository.Create,
      Environment.MarshalServices, timeNow, hsetup, hstart, hinsert, hany,
      logEnvironmentAction, EnvironmentLogRepository.Create, createdEnvironment]
  cases o.insertLog w.count.insertLog <;> simp

theorem CreateEnvironment_of_error (o : Oracle) (c : EnvironmentConfig) (fuel : Nat) (r : String)
    (n : Int) (s : List Service) (w : World) (e : String)
    (h : (EnvironmentRepository.Get o (CreateEnvironmentID r n) w).1 = Except.error e) :
    CreateEnvironment o c fuel r n s w = some (createFresh o c r n s (afterLookup w)) := by
  rw [CreateEnvironment]
  have h2 := Get_snd o (CreateEnvironmentID r n) w
  rcases hg : EnvironmentRepository.Get o (CreateEnvironmentID r n) w with ⟨a, b⟩
  rw [hg] at h h2
  simp only at h h2
  subst h h2
  rfl

@[simp] theorem afterLookup_environments (w : World) :
    (afterLookup w).environments = w.environments := rfl

@[simp] theorem afterLookup_environment_logs (w : World) :
    (afterLookup w).environment_logs = w.environment_logs := rfl

@[simp] theorem afterLookup_trace (w : World) : (afterLookup w).trace = w.trace := rfl

theorem Get_of_find (o : Oracle) (id : String) (w : World) (row : Row)
    (hq : o.queryRow w.count.queryRow = none)
    (hf : w.environments.find? (fun r => decide (r.id = id)) = some row) :
    (EnvironmentRepository.Get o id w).1 = (row.scan).UnmarshalServices := by
  simp [EnvironmentRepository.Get, hq, hf]

theorem updateExisting_cases (o : Oracle) (c : EnvironmentConfig) (ex : Environment) (r : String)
    (n : Int) (s : List Service) (w : World) :
    (o.setup w.count.setup = none ∧ o.exec w.count.exec = none ∧
      o.updateEnvironment w.count.updateEnvironment = none ∧
      (updateExisting o c ex r n s w).1 = Except.ok (updatedEnvironment o c ex r n s w) ∧
      (updateExisting o c ex r n s w).2.environments
        = w.environments.map (Row.update (updatedEnvironment o c ex r n s w))) ∨
    (¬ (o.setup w.count.setup = none ∧ o.exec w.count.exec = none ∧
        o.updateEnvironment w.count.updateEnvironment = none) ∧
      (∃ e, (updateExisting o c ex r n s w).1 = Except.error e) ∧
      (updateExisting o c ex r n s w).2.environments = w.environments) := by
  cases h1 : o.setup w.count.setup <;> cases h2 : o.exec w.count.exec <;>
    cases h3 : o.updateEnvironment w.count.updateEnvironment <;>
    cases h4 : o.insertLog w.count.insertLog <;>
    simp [updateExisting, SetupPrEnvironment, StartEnvironment, Execute,
      EnvironmentRepository.Update, Environment.MarshalServices, timeNow, h1, h2, h3, h4,
      logEnvironmentAction, EnvironmentLogRepository.Create, updatedEnvironment]

theorem updateExisting_afterLookup (o : Oracle) (c : EnvironmentConfig) (ex : Environment)
    (r : String) (n : Int) (s : List Service) (w : World) :
    updateExisting o c ex r n s (afterLookup w)
      = ((updateExisting o c ex r n s w).1, afterLookup (updateExisting o c ex r n s w).2) := by
  cases h1 : o.setup w.count.setup <;> cases h2 : o.exec w.count.exec <;>
    cases h3 : o.updateEnvironment w.count.updateEnvironment <;>
    cases h4 : o.insertLog w.count.insertLog <;>
    simp [updateExisting, SetupPrEnvironment, StartEnvironment, Execute,
      EnvironmentRepository.Update, Environment.MarshalServices, timeNow, h1, h2, h3, h4,
      logEnvironmentAction, EnvironmentLogRepository.Create, afterLookup]

theorem createFresh_afterLookup (o : Oracle) (c : EnvironmentConfig)
    (r : String) (n : Int) (s : List Service) (w : World) :
    createFresh o c r n s (afterLookup w)
      = ((createFresh o c r n s w).1, afterLookup (createFresh o c r n s w).2) := by
  cases h1 : o.setup w.count.setup <;> cases h2 : o.exec w.count.exec <;>
    cases h3 : o.insertEnvironment w.count.insertEnvironment <;>
    cases h4 : o.insertLog w.count.insertLog <;>
    cases h5 : (w.environments.any fun r1 => decide (r1.id = CreateEnvironmentID r n)) <;>
    simp [createFresh, SetupPrEnvironment, StartEnvironment, Execute,
      EnvironmentRepository.Create, Environment.MarshalServices, timeNow, h1, h2, h3, h4, h5,
      logEnvironmentAction, EnvironmentLogRepository.Create, afterLookup]

theorem Get_fst_snd (o : Oracle) (id : String) (w : World) :
    EnvironmentRepository.Get o id w = ((EnvironmentRepository.Get o id w).1, afterLookup w) := by
  rw [← Get_snd]

theorem CreateEnvironment_of_ok (o : Oracle) (c : EnvironmentConfig) (fuel : Nat) (r : String)
    (n : Int) (s : List Service) (w : World) (ex : Environment)
    (h : (EnvironmentRepository.Get o (CreateEnvironmentID r n) w).1 = Except.ok ex) :
    CreateEnvironment o c (fuel + 1) r n s w
      = UpdateEnvironment o c fuel r n s (afterLookup w) := by
  rw [CreateEnvironment, Get_fst_snd, h]

theorem UpdateEnvironment_of_ok (o : Oracle) (c : EnvironmentConfig) (fuel : Nat) (r : String)
    (n : Int) (s : List Service) (w : World) (ex : Environment)
    (h : (EnvironmentRepository.Get o (CreateEnvironmentID r n) w).1 = Except.ok ex) :
    UpdateEnvironment o c fuel r n s w = some (updateExisting o c ex r n s (afterLookup w)) := by
  rw [UpdateEnvironment, Get_fst_snd, h]

theorem UpdateEnvironment_of_error (o : Oracle) (c : EnvironmentConfig) (fuel : Nat) (r : String)
    (n : Int) (s : List Service) (w : World) (e : String)
    (h : (EnvironmentRepository.Get o (CreateEnvironmentID r n) w).1 = Except.error e) :
    UpdateEnvironment o c (fuel + 1) r n s w
      = CreateEnvironment o c fuel r n s (afterLookup w) := by
  rw [UpdateEnvironment, Get_fst_snd, h]

theorem UnmarshalServices_ok_inv (e e1 : Environment)
    (h : e.UnmarshalServices = Except.ok e1) : e1 = { e with Services := e1.Services } := by
  unfold Environment.UnmarshalServices at h
  split_ifs at h with h0
  · simp only [Except.ok.injEq] at h
    subst h; rfl
  · split at h
    · simp only [Except.ok.injEq] at h
      subst h; rfl
    · simp at h

theorem Get_ok_inv (o : Oracle) (id : String) (w : World) (env : Environment)
    (h : (EnvironmentRepository.Get o id w).1 = Except.ok env) :
    o.queryRow w.count.queryRow = none ∧
      ∃ row, w.environments.find? (fun r => decide (r.id = id)) = some row ∧
        (row.scan).UnmarshalServices = Except.ok env := by
  unfold EnvironmentRepository.Get at h
  cases hq : o.queryRow w.count.queryRow with
  | some m => simp [hq] at h
  | none =>
    cases hf : w.environments.find? (fun r => decide (r.id = id)) with
    | none => simp [hq, hf] at h
    | some row =>
      simp only [hq, hf] at h
      exact ⟨rfl, row, rfl, h⟩

theorem Get_ok_ID (o : Oracle) (id : String) (w : World) (env : Environment)
    (h : (EnvironmentRepository.Get o id w).1 = Except.ok env) : env.ID = id := by
  obtain ⟨_, row, hf, hu⟩ := Get_ok_inv o id w env h
  have h1 := UnmarshalServices_ok_inv _ _ hu
  have h2 := List.find?_some hf
  simp only [decide_eq_true_eq] at h2
  rw [h1]
  exact h2

theorem Row.update_id (env : Environment) (row : Row) : (Row.update env row).id = row.id := by
  unfold Row.update
  split_ifs <;> rfl


theorem find_map_update (env : Environment) (id : String) (rows : List Row) :
    (rows.map (Row.update env)).find? (fun r => decide (r.id = id))
      = (rows.find? (fun r => decide (r.id = id))).map (Row.update env) := by
  induction rows with
  | nil => rfl
  | cons a t ih =>
    simp only [List.map_cons, List.find?_cons, Row.update_id]
    cases h : decide (a.id = id) <;> simp [ih]

theorem RemoveEnvironment_found (o : Oracle) (c : EnvironmentConfig) (r : String) (n : Int)
    (w : World) (existing : Environment)
    (hfound : (EnvironmentRepository.Get o (CreateEnvironmentID r n) w).1 = Except.ok existing) :
    (∀ e, (StopEnvironment o (GetEnvironmentDir c (CreateEnvironmentID r n)) w).1 = Except.error e →
      (RemoveEnvironment o c r n w).1 = Except.error ("failed to stop environment: " ++ e) ∧
      (RemoveEnvironment o c r n w).2.environments = w.environments ∧
      (∃ evs, (RemoveEnvironment o c r n w).2.trace = w.trace ++ evs ∧
        ∀ d, Event.cleanup d ∉ evs) ∧
      (RemoveEnvironment o c r n w).2.environment_logs = w.environment_logs ++
        (match o.insertLog w.count.insertLog with
          | none => [⟨nextLogID w.environment_logs, CreateEnvironmentID r n, "remove", "error", e,
              o.now w.count.now⟩]
          | some _ => [])) ∧
    ((StopEnvironment o (GetEnvironmentDir c (CreateEnvironmentID r n)) w).1 = Except.ok () →
      (∀ e, o.updateEnvironment w.count.updateEnvironment = some e →
        (RemoveEnvironment o c r n w).1
          = Except.error ("failed to update environment status in database: " ++ e) ∧
        (RemoveEnvironment o c r n w).2.environments = w.environments) ∧
      (o.updateEnvironment w.count.updateEnvironment = none →
        (RemoveEnvironment o c r n w).1
          = Except.ok ⟨CreateEnvironmentID r n, r, "", [], 0, "removed", "", 0, 0⟩ ∧
        (RemoveEnvironment o c r n w).2.environments
          = w.environments.map (Row.update (removedEnvironment o existing w)) ∧
        (RemoveEnvironment o c r n w).2.trace = w.trace ++
          [Event.stop (GetEnvironmentDir c (CreateEnvironmentID r n)),
            Event.exec ("cd " ++ GetEnvironmentDir c (CreateEnvironmentID r n)
              ++ " && docker compose down -v --remove-orphans"),
            Event.exec "docker system prune -f",
            Event.cleanup (GetEnvironmentDir c (CreateEnvironmentID r n))])) := by
  have hg : EnvironmentRepository.Get o (CreateEnvironmentID r n) w
      = (Except.ok existing, afterLookup w) := by rw [Get_fst_snd, hfound]
  simp only [RemoveEnvironment, hg]
  cases h1 : o.exec w.count.exec <;> cases h2 : o.exec (w.count.exec + 1) <;>
    cases h3 : o.updateEnvironment w.count.updateEnvironment <;>
    cases h4 : o.insertLog w.count.insertLog <;>
    cases h5 : o.remove w.count.remove <;>
    simp [StopEnvironment, Execute, EnvironmentRepository.Update, Environment.MarshalServices,
      timeNow, h1, h2, h3, h4, h5, logEnvironmentAction, EnvironmentLogRepository.Create,
      CleanupEnvironment, afterLookup, removedEnvironment]

theorem scanRows_mem (rows : List Row) : ∀ envs, scanRows rows = Except.ok envs →
    ∀ e ∈ envs, ∃ row ∈ rows, e.ID = row.id ∧ e.Status = row.status := by
  induction rows with
  | nil =>
    intro envs h e he
    simp only [scanRows, Except.ok.injEq] at h
    subst h
    simp at he
  | cons a t ih =>
    intro envs h e he
    unfold scanRows at h
    cases hu : (a.scan).UnmarshalServices with
    | error m => simp [hu] at h
    | ok e1 =>
      cases hs : scanRows t with
      | error m => simp [hu, hs] at h
      | ok es =>
        simp only [hu, hs, Except.ok.injEq] at h
        subst h
        rcases List.mem_cons.mp he with h1 | h1
        · subst h1
          have := UnmarshalServices_ok_inv _ _ hu
          exact ⟨a, List.mem_cons_self _ _, by rw [this]; rfl, by rw [this]; rfl⟩
        · obtain ⟨row, hr, h2⟩ := ih es hs e h1
          exact ⟨row, List.mem_cons_of_mem _ hr, h2⟩

theorem scanRows_ok (rows : List Row)
    (hdec : ∀ row ∈ rows, ∃ e, (row.scan).UnmarshalServices = Except.ok e) :
    ∃ envs, scanRows rows = Except.ok envs ∧
      ∀ row ∈ rows, ∃ e ∈ envs, e.ID = row.id ∧ e.Status = row.status := by
  induction rows with
  | nil => exact ⟨[], rfl, by simp⟩
  | cons a t ih =>
    obtain ⟨e1, hu⟩ := hdec a (List.mem_cons_self _ _)
    obtain ⟨es, hs, hes⟩ := ih (fun row hr => hdec row (List.mem_cons_of_mem _ hr))
    refine ⟨e1 :: es, by simp [scanRows, hu, hs], ?_⟩
    intro row hr
    rcases List.mem_cons.mp hr with h1 | h1
    · subst h1
      have := UnmarshalServices_ok_inv _ _ hu
      exact ⟨e1, List.mem_cons_self _ _, by rw [this]; rfl, by rw [this]; rfl⟩
    · obtain ⟨e, he, h2⟩ := hes row h1
      exact ⟨e, List.mem_cons_of_mem _ he, h2⟩

theorem List_fst (o : Oracle) (f : Filters) (w : World) (hq : o.query w.count.query = none) :
    (EnvironmentRepository.List o f w).1
      = scanRows ((w.environments.filter f.selects).insertionSort
          (fun a b => b.created_at ≤ a.created_at)) := by
  simp [EnvironmentRepository.List, hq]

theorem List_ok_mem (o : Oracle) (f : Filters) (w : World) (envs : List Environment)
    (h : (EnvironmentRepository.List o f w).1 = Except.ok envs) :
    ∀ e ∈ envs, ∃ row ∈ w.environments, f.selects row = true ∧ e.ID = row.id ∧
      e.Status = row.status := by
  intro e he
  cases hq : o.query w.count.query with
  | some m => simp [EnvironmentRepository.List, hq] at h
  | none =>
    rw [List_fst o f w hq] at h
    obtain ⟨row, hr, h2⟩ := scanRows_mem _ envs h e he
    rw [(List.perm_insertionSort _ _).mem_iff, List.mem_filter] at hr
    exact ⟨row, hr.1, hr.2, h2⟩

theorem selects_status (st : String) (hst : st ≠ "") (row : Row) :
    Filters.selects ⟨some st, none, none⟩ row = decide (row.status = st) := by
  simp [Filters.selects, hst]

theorem removed_row_decodes (o : Oracle) (existing : Environment) (w : World) (row : Row)
    (hid : row.id = existing.ID) :
    ∃ e, ((Row.update (removedEnvironment o existing w) row).scan).UnmarshalServices
      = Except.ok e := by
  refine ⟨_, UnmarshalServices_marshalled _ existing.Services ?_⟩
  simp [Row.update, removedEnvironment, hid, Row.scan]


/-! ## The lifecycle orchestrator -/

/-- C1. When the store holds no record with the environment's id and provision, start and the
store's create succeed, `CreateEnvironment` returns a record with that id, the given repository
name, PR number and services, status `running` and url `https://<id>.<domain>`, the store gains
exactly that row, and a get by id issued right afterwards (a read the database does not fail)
returns a record with the same id, repository name, PR number, services, status and url. -/
theorem create_then_get (o : Oracle) (c : EnvironmentConfig) (fuel : Nat) (r : String) (n : Int)
    (s : List Service) (w : World)
    (habsent : ∀ row ∈ w.environments, row.id ≠ CreateEnvironmentID r n)
    (hsetup : o.setup w.count.setup = none)
    (hstart : o.exec w.count.exec = none)
    (hinsert : o.insertEnvironment w.count.insertEnvironment = none) :
    ∃ env w1, CreateEnvironment o c fuel r n s w = some (Except.ok env, w1) ∧
      env.ID = r ++ "-pr-" ++ toString n ∧ env.RepositoryName = r ∧ env.PRNumber = n ∧
      env.Services = s ∧ env.Status = "running" ∧
      env.URL = "https://" ++ (r ++ "-pr-" ++ toString n) ++ "." ++ c.TailscaleDomain ∧
      w1.environments = w.environments ++ [env.toRow] ∧
      (o.queryRow w1.count.queryRow = none →
        ∃ got, (EnvironmentRepository.Get o (CreateEnvironmentID r n) w1).1 = Except.ok got ∧
          got.ID = env.ID ∧ got.RepositoryName = env.RepositoryName ∧
          got.PRNumber = env.PRNumber ∧ got.Services = env.Services ∧
          got.Status = env.Status ∧ got.URL = env.URL) := by
  obtain ⟨e, hget⟩ := Get_absent o _ w habsent
  obtain ⟨h1, h2, h3⟩ := createFresh_ok o c r n s (afterLookup w) habsent hsetup hstart hinsert
  refine ⟨createdEnvironment o c r n s (afterLookup w),
    (createFresh o c r n s (afterLookup w)).2, ?_, rfl, rfl, rfl, rfl, rfl, rfl, h2, ?_⟩
  · rw [CreateEnvironment_of_error o c fuel r n s w e (by rw [hget]), ← h1]
  · intro hq
    refine ⟨createdEnvironment o c r n s (afterLookup w), ?_, rfl, rfl, rfl, rfl, rfl, rfl⟩
    rw [Get_of_find o _ _ (createdEnvironment o c r n s (afterLookup w)).toRow hq]
    · exact UnmarshalServices_marshalled _ s rfl
    · rw [h2, afterLookup_environments, List.find?_append, find_absent _ _ habsent]
      simp [Environment.toRow, createdEnvironment]

/-- C2. When the lookup of the environment's id yields a record, `CreateEnvironment` is the
call of `UpdateEnvironment` in the state the lookup leaves; and when the lookup, repeated, yields
the record again, `CreateEnvironment` and `UpdateEnvironment` started in the same state return the
same value and leave the same rows, the same audit rows and the same driver trace.  If the value
is a record, its services are `s` and the stored services of the environment are the encoding of
`s` alone, which decodes to `s`. -/
theorem create_on_existing_is_update (o : Oracle) (c : EnvironmentConfig) (r : String) (n : Int)
    (s : List Service) (w : World) (existing : Environment)
    (hfound : (EnvironmentRepository.Get o (CreateEnvironmentID r n) w).1 = Except.ok existing) :
    (∀ fuel, CreateEnvironment o c (fuel + 1) r n s w
      = UpdateEnvironment o c fuel r n s (EnvironmentRepository.Get o (CreateEnvironmentID r n) w).2) ∧
    ((EnvironmentRepository.Get o (CreateEnvironmentID r n)
        (EnvironmentRepository.Get o (CreateEnvironmentID r n) w).2).1 = Except.ok existing →
      ∀ fuel, ∃ res w1 w2,
        CreateEnvironment o c (fuel + 1) r n s w = some (res, w1) ∧
        UpdateEnvironment o c fuel r n s w = some (res, w2) ∧
        w1.environments = w2.environments ∧ w1.environment_logs = w2.environment_logs ∧
        w1.trace = w2.trace ∧
        ∀ env, res = Except.ok env → env.Services = s ∧
          ∀ row ∈ w1.environments, row.id = CreateEnvironmentID r n →
            row.services_data = String.mk (jsonMarshalServices s) ∧
            jsonUnmarshalServices row.services_data.data = Except.ok s) := by
  rw [Get_snd]
  refine ⟨fun fuel => CreateEnvironment_of_ok o c fuel r n s w existing hfound, ?_⟩
  intro hagain fuel
  refine ⟨(updateExisting o c existing r n s w).1,
    afterLookup (afterLookup (updateExisting o c existing r n s w).2),
    afterLookup (updateExisting o c existing r n s w).2, ?_, ?_, rfl, rfl, rfl, ?_⟩
  · rw [CreateEnvironment_of_ok o c fuel r n s w existing hfound,
      UpdateEnvironment_of_ok o c fuel r n s _ existing hagain,
      updateExisting_afterLookup, updateExisting_afterLookup]
  · rw [UpdateEnvironment_of_ok o c fuel r n s _ existing hfound, updateExisting_afterLookup]
  · intro env henv
    rcases updateExisting_cases o c existing r n s w with ⟨_, _, _, h1, h2⟩ | ⟨_, ⟨e, h1⟩, _⟩
    · rw [h1] at henv
      simp only [Except.ok.injEq] at henv
      subst henv
      refine ⟨rfl, ?_⟩
      intro row hrow hid
      simp only [afterLookup_environments, h2, List.mem_map] at hrow
      obtain ⟨row0, _, rfl⟩ := hrow
      have hid0 : row0.id = (updatedEnvironment o c existing r n s w).ID := by
        rw [Row.update_id] at hid
        rw [hid]
        exact (Get_ok_ID o _ w existing hfound).symm
      have hsd : (Row.update (updatedEnvironment o c existing r n s w) row0).services_data
          = String.mk (jsonMarshalServices s) := by
        simp [Row.update, hid0, updatedEnvironment]
      exact ⟨hsd, by rw [hsd]; exact jsonUnmarshal_jsonMarshal s⟩
    · rw [h1] at henv
      simp at henv

/-- C3. When the lookup of the environment's id yields no record, `UpdateEnvironment` is the call
of `CreateEnvironment` in the state the lookup leaves; and when the lookup, repeated, again yields
no record, `UpdateEnvironment` and `CreateEnvironment` started in the same state return the same
value and leave the same rows, the same audit rows and the same driver trace. -/
theorem update_on_absent_is_create (o : Oracle) (c : EnvironmentConfig) (r : String) (n : Int)
    (s : List Service) (w : World) (e : String)
    (hnone : (EnvironmentRepository.Get o (CreateEnvironmentID r n) w).1 = Except.error e) :
    (∀ fuel, UpdateEnvironment o c (fuel + 1) r n s w
      = CreateEnvironment o c fuel r n s (EnvironmentRepository.Get o (CreateEnvironmentID r n) w).2) ∧
    (∀ e1, (EnvironmentRepository.Get o (CreateEnvironmentID r n)
        (EnvironmentRepository.Get o (CreateEnvironmentID r n) w).2).1 = Except.error e1 →
      ∀ fuel, ∃ res w1 w2,
        UpdateEnvironment o c (fuel + 1) r n s w = some (res, w1) ∧
        CreateEnvironment o c fuel r n s w = some (res, w2) ∧
        w1.environments = w2.environments ∧ w1.environment_logs = w2.environment_logs ∧
        w1.trace = w2.trace) := by
  rw [Get_snd]
  refine ⟨fun fuel => UpdateEnvironment_of_error o c fuel r n s w e hnone, ?_⟩
  intro e1 hagain fuel
  refine ⟨(createFresh o c r n s w).1, afterLookup (afterLookup (createFresh o c r n s w).2),
    afterLookup (createFresh o c r n s w).2, ?_, ?_, rfl, rfl, rfl⟩
  · rw [UpdateEnvironment_of_error o c fuel r n s w e hnone,
      CreateEnvironment_of_error o c fuel r n s _ e1 hagain,
      createFresh_afterLookup, createFresh_afterLookup]
  · rw [CreateEnvironment_of_error o c fuel r n s w e hnone, createFresh_afterLookup]

/-- C4. When the lookup yields a record and provision, start and the store's update succeed,
`UpdateEnvironment` returns the looked-up record with services `s`, status `running` and the url of
the environment, its id, PR number and creation time unchanged; in the store exactly the rows with
that id are rewritten (repository name, services data, status, url, update time), the stored
services data decodes to `s`, and a get by id issued right afterwards (a read the database does not
fail) returns a record with the same id, repository name, PR number, services, status and url as
the returned one. -/
theorem update_success (o : Oracle) (c : EnvironmentConfig) (fuel : Nat) (r : String) (n : Int)
    (s : List Service) (w : World) (existing : Environment)
    (hfound : (EnvironmentRepository.Get o (CreateEnvironmentID r n) w).1 = Except.ok existing)
    (hsetup : o.setup w.count.setup = none)
    (hstart : o.exec w.count.exec = none)
    (hupdate : o.updateEnvironment w.count.updateEnvironment = none) :
    ∃ env w1, UpdateEnvironment o c fuel r n s w = some (Except.ok env, w1) ∧
      env.Services = s ∧ env.Status = "running" ∧
      env.URL = CreateEnvironmentURL c (CreateEnvironmentID r n) ∧
      env.ID = existing.ID ∧ env.PRNumber = existing.PRNumber ∧
      env.CreatedAt = existing.CreatedAt ∧
      w1.environments = w.environments.map (fun row =>
        if row.id = CreateEnvironmentID r n then
          { row with repository_name := r, services_data := String.mk (jsonMarshalServices s),
                     status := "running", url := CreateEnvironmentURL c (CreateEnvironmentID r n),
                     updated_at := o.now w.count.now }
        else row) ∧
      jsonUnmarshalServices (String.mk (jsonMarshalServices s)).data = Except.ok s ∧
      (o.queryRow w1.count.queryRow = none →
        ∃ got, (EnvironmentRepository.Get o (CreateEnvironmentID r n) w1).1 = Except.ok got ∧
          got.ID = env.ID ∧ got.RepositoryName = env.RepositoryName ∧
          got.PRNumber = env.PRNumber ∧ got.Services = env.Services ∧
          got.Status = env.Status ∧ got.URL = env.URL) := by
  have hid := Get_ok_ID o _ w existing hfound
  obtain ⟨_, row0, hf, hu⟩ := Get_ok_inv o _ w existing hfound
  have hex := UnmarshalServices_ok_inv _ _ hu
  have hrow0 : row0.id = CreateEnvironmentID r n := by
    have := List.find?_some hf
    simpa using this
  rcases updateExisting_cases o c existing r n s (afterLookup w) with
    ⟨_, _, _, h1, h2⟩ | ⟨hno, _, _⟩
  swap
  · exact absurd ⟨hsetup, hstart, hupdate⟩ hno
  have hmap : (updateExisting o c existing r n s (afterLookup w)).2.environments
      = w.environments.map (fun row =>
        if row.id = CreateEnvironmentID r n then
          { row with repository_name := r, services_data := String.mk (jsonMarshalServices s),
                     status := "running", url := CreateEnvironmentURL c (CreateEnvironmentID r n),
                     updated_at := o.now w.count.now }
        else row) := by
    rw [h2]
    simp only [afterLookup_environments]
    apply List.map_congr_left
    intro row _
    simp [Row.update, updatedEnvironment, hid, afterLookup]
  refine ⟨updatedEnvironment o c existing r n s (afterLookup w),
    (updateExisting o c existing r n s (afterLookup w)).2, ?_, rfl, rfl, rfl, rfl, rfl, rfl,
    hmap, jsonUnmarshal_jsonMarshal s, ?_⟩
  · rw [UpdateEnvironment_of_ok o c fuel r n s w existing hfound, ← h1]
  · intro hq
    refine ⟨updatedEnvironment o c existing r n s (afterLookup w), ?_, rfl, rfl, rfl, rfl, rfl,
      rfl⟩
    have hfind : (updateExisting o c existing r n s (afterLookup w)).2.environments.find?
        (fun r1 => decide (r1.id = CreateEnvironmentID r n))
        = some (Row.update (updatedEnvironment o c existing r n s (afterLookup w)) row0) := by
      rw [h2, find_map_update, afterLookup_environments, hf]
      rfl
    rw [Get_of_find o _ _ _ hq hfind]
    have hupd : Row.update (updatedEnvironment o c existing r n s (afterLookup w)) row0
        = { row0 with repository_name := r,
                      services_data := String.mk (jsonMarshalServices s),
                      status := "running",
                      url := CreateEnvironmentURL c (CreateEnvironmentID r n),
                      updated_at := o.now w.count.now } := by
      simp [Row.update, updatedEnvironment, hid, hrow0, afterLookup]
    rw [hupd, UnmarshalServices_marshalled _ s rfl, hex]
    simp [updatedEnvironment, Row.scan, afterLookup]

/-- C5. When the lookup yields a record and provision, start or the store's update fails,
`UpdateEnvironment` returns an error and the rows of the store are exactly what they were before
the call. -/
theorem update_failure_keeps_store (o : Oracle) (c : EnvironmentConfig) (fuel : Nat) (r : String)
    (n : Int) (s : List Service) (w : World) (existing : Environment)
    (hfound : (EnvironmentRepository.Get o (CreateEnvironmentID r n) w).1 = Except.ok existing)
    (hfail : o.setup w.count.setup ≠ none ∨ o.exec w.count.exec ≠ none ∨
      o.updateEnvironment w.count.updateEnvironment ≠ none) :
    ∃ e w1, UpdateEnvironment o c fuel r n s w = some (Except.error e, w1) ∧
      w1.environments = w.environments := by
  rcases updateExisting_cases o c existing r n s (afterLookup w) with
    ⟨h1, h2, h3, _, _⟩ | ⟨_, ⟨e, h1⟩, h2⟩
  · exfalso
    rcases hfail with h | h | h
    · exact h h1
    · exact h h2
    · exact h h3
  · refine ⟨e, (updateExisting o c existing r n s (afterLookup w)).2, ?_, h2⟩
    rw [UpdateEnvironment_of_ok o c fuel r n s w existing hfound, ← h1]
/-- C6. When the store holds no record with the environment's id and provision or start fails
with error text `e`, `CreateEnvironment` returns an error that carries `e`, the rows of the store
are unchanged, after a provision failure the driver trace gains the provision call only (start is
not invoked), and the one row handed to the log store has action `create`, status `error` and
message `e`: the audit table gains exactly that row when the log store accepts the insert and is
unchanged otherwise. -/
theorem create_failure_writes_no_row (o : Oracle) (c : EnvironmentConfig) (fuel : Nat)
    (r : String) (n : Int) (s : List Service) (w : World)
    (habsent : ∀ row ∈ w.environments, row.id ≠ CreateEnvironmentID r n)
    (hfail : o.setup w.count.setup ≠ none ∨ o.exec w.count.exec ≠ none) :
    ∃ e msg w1,
      (o.setup w.count.setup = some e ∨
        (o.setup w.count.setup = none ∧ o.exec w.count.exec = some e)) ∧
      CreateEnvironment o c fuel r n s w = some (Except.error msg, w1) ∧
      (o.setup w.count.setup = some e → msg = "failed to set up PR environment: " ++ e) ∧
      (o.setup w.count.setup = none → msg = "failed to start environment: " ++ e) ∧
      w1.environments = w.environments ∧
      (o.setup w.count.setup = some e → w1.trace = w.trace ++ [Event.setup r n s]) ∧
      w1.environment_logs = w.environment_logs ++
        (match o.insertLog w.count.insertLog with
          | none => [⟨nextLogID w.environment_logs, CreateEnvironmentID r n, "create", "error", e,
              o.now w.count.now⟩]
          | some _ => []) := by
  obtain ⟨e0, hget⟩ := Get_absent o _ w habsent
  have hc := CreateEnvironment_of_error o c fuel r n s w e0 (by rw [hget])
  rw [createFresh_afterLookup] at hc
  cases h1 : o.setup w.count.setup with
  | some e =>
    refine ⟨e, "failed to set up PR environment: " ++ e,
      afterLookup (createFresh o c r n s w).2, Or.inl rfl, ?_, fun _ => rfl, ?_, ?_, ?_, ?_⟩
    · rw [hc]
      simp [createFresh, SetupPrEnvironment, h1]
    · intro h; cases h
    · cases h4 : o.insertLog w.count.insertLog <;>
        simp [createFresh, SetupPrEnvironment, h1, h4, logEnvironmentAction,
          EnvironmentLogRepository.Create, timeNow]
    · intro _
      cases h4 : o.insertLog w.count.insertLog <;>
        simp [createFresh, SetupPrEnvironment, h1, h4, logEnvironmentAction,
          EnvironmentLogRepository.Create, timeNow]
    · cases h4 : o.insertLog w.count.insertLog <;>
        simp [createFresh, SetupPrEnvironment, h1, h4, logEnvironmentAction,
          EnvironmentLogRepository.Create, timeNow]
  | none =>
    cases h2 : o.exec w.count.exec with
    | none =>
      rcases hfail with h | h
      · exact absurd h1 h
      · exact absurd h2 h
    | some e =>
      refine ⟨e, "failed to start environment: " ++ e,
        afterLookup (createFresh o c r n s w).2, Or.inr ⟨rfl, rfl⟩, ?_, ?_, fun _ => rfl,
        ?_, ?_, ?_⟩
      · rw [hc]
        simp [createFresh, SetupPrEnvironment, StartEnvironment, Execute, h1, h2]
      · intro h; cases h
      · cases h4 : o.insertLog w.count.insertLog <;>
          simp [createFresh, SetupPrEnvironment, StartEnvironment, Execute, h1, h2, h4,
            logEnvironmentAction, EnvironmentLogRepository.Create, timeNow]
      · intro h; cases h
      · cases h4 : o.insertLog w.count.insertLog <;>
          simp [createFresh, SetupPrEnvironment, StartEnvironment, Execute, h1, h2, h4,
            logEnvironmentAction, EnvironmentLogRepository.Create, timeNow]

/-- C7. When the store holds no record with the environment's id, `RemoveEnvironment` returns the
error `environment <id> not found`; the rows, the audit rows and the driver trace are unchanged
(no audit row is written, neither stop nor cleanup is invoked). -/
theorem remove_unknown_not_found (o : Oracle) (c : EnvironmentConfig) (r : String) (n : Int)
    (w : World) (habsent : ∀ row ∈ w.environments, row.id ≠ CreateEnvironmentID r n) :
    (RemoveEnvironment o c r n w).1
        = Except.error ("environment " ++ CreateEnvironmentID r n ++ " not found") ∧
      (RemoveEnvironment o c r n w).2.environments = w.environments ∧
      (RemoveEnvironment o c r n w).2.environment_logs = w.environment_logs ∧
      (RemoveEnvironment o c r n w).2.trace = w.trace := by
  obtain ⟨e0, hget⟩ := Get_absent o _ w habsent
  simp [RemoveEnvironment, hget]

/-- C8. After a `RemoveEnvironment` call that returns without error, a get by id (a read the
database does not fail) returns the record with status `removed`; no list filtered on status
`running` contains a record with that id; and the list filtered on status `removed` (a query the
database does not fail, over rows whose services data decode) contains the record with status
`removed`. -/
theorem remove_then_get_and_list (o : Oracle) (c : EnvironmentConfig) (r : String) (n : Int)
    (w : World) (env : Environment)
    (hres : (RemoveEnvironment o c r n w).1 = Except.ok env) :
    (o.queryRow (RemoveEnvironment o c r n w).2.count.queryRow = none →
      ∃ got, (EnvironmentRepository.Get o (CreateEnvironmentID r n)
          (RemoveEnvironment o c r n w).2).1 = Except.ok got ∧
        got.ID = CreateEnvironmentID r n ∧ got.Status = "removed") ∧
    (∀ envs, (EnvironmentRepository.List o ⟨some "running", none, none⟩
        (RemoveEnvironment o c r n w).2).1 = Except.ok envs →
      ∀ e ∈ envs, e.ID ≠ CreateEnvironmentID r n) ∧
    (o.query (RemoveEnvironment o c r n w).2.count.query = none →
      (∀ row ∈ w.environments, ∃ e, (row.scan).UnmarshalServices = Except.ok e) →
      ∃ envs, (EnvironmentRepository.List o ⟨some "removed", none, none⟩
          (RemoveEnvironment o c r n w).2).1 = Except.ok envs ∧
        ∃ e ∈ envs, e.ID = CreateEnvironmentID r n ∧ e.Status = "removed") := by
  -- the call went through the lookup, the stop and the status update
  cases hget : (EnvironmentRepository.Get o (CreateEnvironmentID r n) w).1 with
  | error e0 =>
    have hg : EnvironmentRepository.Get o (CreateEnvironmentID r n) w
        = (Except.error e0, afterLookup w) := by rw [Get_fst_snd, hget]
    simp [RemoveEnvironment, hg] at hres
  | ok existing =>
    obtain ⟨hA, hB⟩ := RemoveEnvironment_found o c r n w existing hget
    cases hstop : (StopEnvironment o (GetEnvironmentDir c (CreateEnvironmentID r n)) w).1 with
    | error e1 =>
      rw [(hA e1 hstop).1] at hres
      simp at hres
    | ok u =>
      obtain ⟨hB1, hB2⟩ := hB hstop
      cases hupd : o.updateEnvironment w.count.updateEnvironment with
      | some e2 =>
        rw [(hB1 e2 hupd).1] at hres
        simp at hres
      | none =>
        obtain ⟨_, henvs, _⟩ := hB2 hupd
        have hid := Get_ok_ID o _ w existing hget
        obtain ⟨_, row0, hf, hu⟩ := Get_ok_inv o _ w existing hget
        have hrow0 : row0.id = CreateEnvironmentID r n := by
          have := List.find?_some hf
          simpa using this
        have hmem0 : row0 ∈ w.environments := List.mem_of_find?_eq_some hf
        have hst : ∀ row : Row, row.id = CreateEnvironmentID r n →
            (Row.update (removedEnvironment o existing w) row).status = "removed" := by
          intro row h
          simp [Row.update, removedEnvironment, hid, h]
        refine ⟨?_, ?_, ?_⟩
        · intro hq
          have hfind : (RemoveEnvironment o c r n w).2.environments.find?
              (fun r1 => decide (r1.id = CreateEnvironmentID r n))
              = some (Row.update (removedEnvironment o existing w) row0) := by
            rw [henvs, find_map_update, hf]
            rfl
          obtain ⟨got, hgot⟩ := removed_row_decodes o existing w row0 (by rw [hrow0, hid])
          refine ⟨got, ?_, ?_, ?_⟩
          · rw [Get_of_find o _ _ _ hq hfind, hgot]
          · rw [UnmarshalServices_ok_inv _ _ hgot]
            simp [Row.scan, Row.update_id, hrow0]
          · rw [UnmarshalServices_ok_inv _ _ hgot]
            simp [Row.scan, hst row0 hrow0]
        · intro envs hl e he heq
          obtain ⟨row, hr, hsel, h1, h2⟩ := List_ok_mem o _ _ envs hl e he
          rw [henvs, List.mem_map] at hr
          obtain ⟨rowa, _, rfl⟩ := hr
          rw [selects_status "running" (by decide)] at hsel
          rw [hst rowa (by rw [← Row.update_id (removedEnvironment o existing w), ← h1, heq])]
            at hsel
          simp at hsel
        · intro hq hdec
          have hdec1 : ∀ row ∈ ((RemoveEnvironment o c r n w).2.environments.filter
              (Filters.selects ⟨some "removed", none, none⟩)).insertionSort
                (fun a b => b.created_at ≤ a.created_at),
              ∃ e, (row.scan).UnmarshalServices = Except.ok e := by
            intro row hr
            rw [(List.perm_insertionSort _ _).mem_iff, List.mem_filter, henvs, List.mem_map] at hr
            obtain ⟨⟨rowa, hra, rfl⟩, _⟩ := hr
            by_cases h : rowa.id = existing.ID
            · exact removed_row_decodes o existing w rowa h
            · have : Row.update (removedEnvironment o existing w) rowa = rowa := by
                simp [Row.update, removedEnvironment, h]
              rw [this]
              exact hdec rowa hra
          obtain ⟨envs, hs, hall⟩ := scanRows_ok _ hdec1
          refine ⟨envs, by rw [List_fst o _ _ hq, hs], ?_⟩
          have hin : Row.update (removedEnvironment o existing w) row0 ∈
              ((RemoveEnvironment o c r n w).2.environments.filter
                (Filters.selects ⟨some "removed", none, none⟩)).insertionSort
                  (fun a b => b.created_at ≤ a.created_at) := by
            rw [(List.perm_insertionSort _ _).mem_iff, List.mem_filter, henvs]
            refine ⟨List.mem_map_of_mem _ hmem0, ?_⟩
            rw [selects_status "removed" (by decide), hst row0 hrow0]
            simp
          obtain ⟨e, he, h1, h2⟩ := hall _ hin
          exact ⟨e, he, by rw [h1, Row.update_id, hrow0], by rw [h2, hst row0 hrow0]⟩
/-- C9. When the lookup yields a record and stop fails with error text `e`, `RemoveEnvironment`
returns an error that carries `e`, the rows of the store are unchanged (no status is set to
`removed`), the driver trace gains no cleanup call, and the one row handed to the log store has
action `remove`, status `error` and message `e`: the audit table gains exactly that row when the
log store accepts the insert and is unchanged otherwise. -/
theorem remove_stop_failure (o : Oracle) (c : EnvironmentConfig) (r : String) (n : Int)
    (w : World) (existing : Environment) (e : String)
    (hfound : (EnvironmentRepository.Get o (CreateEnvironmentID r n) w).1 = Except.ok existing)
    (hstop : (StopEnvironment o (GetEnvironmentDir c (CreateEnvironmentID r n)) w).1
      = Except.error e) :
    (RemoveEnvironment o c r n w).1 = Except.error ("failed to stop environment: " ++ e) ∧
    (RemoveEnvironment o c r n w).2.environments = w.environments ∧
    (∃ evs, (RemoveEnvironment o c r n w).2.trace = w.trace ++ evs ∧
      ∀ d, Event.cleanup d ∉ evs) ∧
    (RemoveEnvironment o c r n w).2.environment_logs = w.environment_logs ++
      (match o.insertLog w.count.insertLog with
        | none => [⟨nextLogID w.environment_logs, CreateEnvironmentID r n, "remove", "error", e,
            o.now w.count.now⟩]
        | some _ => []) :=
  (RemoveEnvironment_found o c r n w existing hfound).1 e hstop

/-- C10. When the lookup yields a record, stop and the store's status update succeed and the
directory cleanup fails, `RemoveEnvironment` still returns a record (no error) with status
`removed`, every stored row of the environment has status `removed` (there is one), and cleanup
was the last driver call, after stop. -/
theorem remove_cleanup_failure (o : Oracle) (c : EnvironmentConfig) (r : String) (n : Int)
    (w : World) (existing : Environment) (e : String)
    (hfound : (EnvironmentRepository.Get o (CreateEnvironmentID r n) w).1 = Except.ok existing)
    (hstop : (StopEnvironment o (GetEnvironmentDir c (CreateEnvironmentID r n)) w).1
      = Except.ok ())
    (hupdate : o.updateEnvironment w.count.updateEnvironment = none)
    (_hcleanup : o.remove w.count.remove = some e) :
    (RemoveEnvironment o c r n w).1
      = Except.ok ⟨CreateEnvironmentID r n, r, "", [], 0, "removed", "", 0, 0⟩ ∧
    (∀ row ∈ (RemoveEnvironment o c r n w).2.environments,
      row.id = CreateEnvironmentID r n → row.status = "removed") ∧
    (∃ row ∈ (RemoveEnvironment o c r n w).2.environments, row.id = CreateEnvironmentID r n) ∧
    (RemoveEnvironment o c r n w).2.trace = w.trace ++
      [Event.stop (GetEnvironmentDir c (CreateEnvironmentID r n)),
        Event.exec ("cd " ++ GetEnvironmentDir c (CreateEnvironmentID r n)
          ++ " && docker compose down -v --remove-orphans"),
        Event.exec "docker system prune -f",
        Event.cleanup (GetEnvironmentDir c (CreateEnvironmentID r n))] := by
  obtain ⟨h1, h2, h3⟩ := ((RemoveEnvironment_found o c r n w existing hfound).2 hstop).2 hupdate
  have hid := Get_ok_ID o _ w existing hfound
  obtain ⟨_, row0, hf, _⟩ := Get_ok_inv o _ w existing hfound
  have hrow0 : row0.id = CreateEnvironmentID r n := by
    have := List.find?_some hf
    simpa using this
  refine ⟨h1, ?_, ?_, h3⟩
  · intro row hr hrid
    rw [h2, List.mem_map] at hr
    obtain ⟨rowa, _, rfl⟩ := hr
    rw [Row.update_id] at hrid
    simp [Row.update, removedEnvironment, hid, hrid]
  · refine ⟨Row.update (removedEnvironment o existing w) row0, ?_, ?_⟩
    · rw [h2]
      exact List.mem_map_of_mem _ (List.mem_of_find?_eq_some hf)
    · rw [Row.update_id, hrow0]
/-! ## The statements on the scenario `widgets-pr-42` -/

/-- C1 on the empty store: creating `widgets-pr-42` when every step succeeds. -/
theorem create_then_get_witness :
    (∀ row ∈ emptyWorld.environments, row.id ≠ CreateEnvironmentID "widgets" 42) ∧
    allSucceed.setup emptyWorld.count.setup = none ∧
    allSucceed.exec emptyWorld.count.exec = none ∧
    allSucceed.insertEnvironment emptyWorld.count.insertEnvironment = none ∧
    ∃ env w1, CreateEnvironment allSucceed exampleConfig 0 "widgets" 42 apiV1 emptyWorld
        = some (Except.ok env, w1) ∧
      env.ID = "widgets" ++ "-pr-" ++ toString (42 : Int) ∧ env.RepositoryName = "widgets" ∧
      env.PRNumber = 42 ∧ env.Services = apiV1 ∧ env.Status = "running" ∧
      env.URL = "https://" ++ ("widgets" ++ "-pr-" ++ toString (42 : Int)) ++ "."
        ++ exampleConfig.TailscaleDomain ∧
      w1.environments = emptyWorld.environments ++ [env.toRow] ∧
      (allSucceed.queryRow w1.count.queryRow = none →
        ∃ got, (EnvironmentRepository.Get allSucceed (CreateEnvironmentID "widgets" 42) w1).1
            = Except.ok got ∧
          got.ID = env.ID ∧ got.RepositoryName = env.RepositoryName ∧
          got.PRNumber = env.PRNumber ∧ got.Services = env.Services ∧
          got.Status = env.Status ∧ got.URL = env.URL) :=
  ⟨by decide, rfl, rfl, rfl,
    create_then_get allSucceed exampleConfig 0 "widgets" 42 apiV1 emptyWorld (by decide) rfl rfl
      rfl⟩

/-- C2 on a store holding `widgets-pr-42`: creating it again with `img:v2`. -/
theorem create_on_existing_is_update_witness :
    (EnvironmentRepository.Get allSucceed (CreateEnvironmentID "widgets" 42) widgetsWorld).1
      = Except.ok widgetsEnvironment ∧
    (∀ fuel, CreateEnvironment allSucceed exampleConfig (fuel + 1) "widgets" 42 apiV2 widgetsWorld
      = UpdateEnvironment allSucceed exampleConfig fuel "widgets" 42 apiV2
          (EnvironmentRepository.Get allSucceed (CreateEnvironmentID "widgets" 42) widgetsWorld).2) ∧
    ((EnvironmentRepository.Get allSucceed (CreateEnvironmentID "widgets" 42)
        (EnvironmentRepository.Get allSucceed (CreateEnvironmentID "widgets" 42) widgetsWorld).2).1
        = Except.ok widgetsEnvironment →
      ∀ fuel, ∃ res w1 w2,
        CreateEnvironment allSucceed exampleConfig (fuel + 1) "widgets" 42 apiV2 widgetsWorld
          = some (res, w1) ∧
        UpdateEnvironment allSucceed exampleConfig fuel "widgets" 42 apiV2 widgetsWorld
          = some (res, w2) ∧
        w1.environments = w2.environments ∧ w1.environment_logs = w2.environment_logs ∧
        w1.trace = w2.trace ∧
        ∀ env, res = Except.ok env → env.Services = apiV2 ∧
          ∀ row ∈ w1.environments, row.id = CreateEnvironmentID "widgets" 42 →
            row.services_data = String.mk (jsonMarshalServices apiV2) ∧
            jsonUnmarshalServices row.services_data.data = Except.ok apiV2) :=
  ⟨by decide,
    create_on_existing_is_update allSucceed exampleConfig "widgets" 42 apiV2 widgetsWorld
      widgetsEnvironment (by decide)⟩

/-- C3 on the empty store: updating `widgets-pr-42`, which does not exist. -/
theorem update_on_absent_is_create_witness :
    (EnvironmentRepository.Get allSucceed (CreateEnvironmentID "widgets" 42) emptyWorld).1
      = Except.error "environment widgets-pr-42 not found" ∧
    (∀ fuel, UpdateEnvironment allSucceed exampleConfig (fuel + 1) "widgets" 42 apiV1 emptyWorld
      = CreateEnvironment allSucceed exampleConfig fuel "widgets" 42 apiV1
          (EnvironmentRepository.Get allSucceed (CreateEnvironmentID "widgets" 42) emptyWorld).2) ∧
    (∀ e1, (EnvironmentRepository.Get allSucceed (CreateEnvironmentID "widgets" 42)
        (EnvironmentRepository.Get allSucceed (CreateEnvironmentID "widgets" 42) emptyWorld).2).1
        = Except.error e1 →
      ∀ fuel, ∃ res w1 w2,
        UpdateEnvironment allSucceed exampleConfig (fuel + 1) "widgets" 42 apiV1 emptyWorld
          = some (res, w1) ∧
        CreateEnvironment allSucceed exampleConfig fuel "widgets" 42 apiV1 emptyWorld
          = some (res, w2) ∧
        w1.environments = w2.environments ∧ w1.environment_logs = w2.environment_logs ∧
        w1.trace = w2.trace) :=
  ⟨by decide,
    update_on_absent_is_create allSucceed exampleConfig "widgets" 42 apiV1 emptyWorld
      "environment widgets-pr-42 not found" (by decide)⟩

/-- C4 on a store holding `widgets-pr-42`: updating it to `img:v2` when every step succeeds. -/
theorem update_success_witness :
    (EnvironmentRepository.Get allSucceed (CreateEnvironmentID "widgets" 42) widgetsWorld).1
      = Except.ok widgetsEnvironment ∧
    allSucceed.setup widgetsWorld.count.setup = none ∧
    allSucceed.exec widgetsWorld.count.exec = none ∧
    allSucceed.updateEnvironment widgetsWorld.count.updateEnvironment = none ∧
    ∃ env w1, UpdateEnvironment allSucceed exampleConfig 0 "widgets" 42 apiV2 widgetsWorld
        = some (Except.ok env, w1) ∧
      env.Services = apiV2 ∧ env.Status = "running" ∧
      env.URL = CreateEnvironmentURL exampleConfig (CreateEnvironmentID "widgets" 42) ∧
      env.ID = widgetsEnvironment.ID ∧ env.PRNumber = widgetsEnvironment.PRNumber ∧
      env.CreatedAt = widgetsEnvironment.CreatedAt ∧
      w1.environments = widgetsWorld.environments.map (fun row =>
        if row.id = CreateEnvironmentID "widgets" 42 then
          { row with repository_name := "widgets",
                     services_data := String.mk (jsonMarshalServices apiV2),
                     status := "running",
                     url := CreateEnvironmentURL exampleConfig (CreateEnvironmentID "widgets" 42),
                     updated_at := allSucceed.now widgetsWorld.count.now }
        else row) ∧
      jsonUnmarshalServices (String.mk (jsonMarshalServices apiV2)).data = Except.ok apiV2 ∧
      (allSucceed.queryRow w1.count.queryRow = none →
        ∃ got, (EnvironmentRepository.Get allSucceed (CreateEnvironmentID "widgets" 42) w1).1
            = Except.ok got ∧
          got.ID = env.ID ∧ got.RepositoryName = env.RepositoryName ∧
          got.PRNumber = env.PRNumber ∧ got.Services = env.Services ∧
          got.Status = env.Status ∧ got.URL = env.URL) :=
  ⟨by decide, rfl, rfl, rfl,
    update_success allSucceed exampleConfig 0 "widgets" 42 apiV2 widgetsWorld widgetsEnvironment
      (by decide) rfl rfl rfl⟩

/-- C5 on a store holding `widgets-pr-42`: updating it when provision fails. -/
theorem update_failure_keeps_store_witness :
    (EnvironmentRepository.Get setupFails (CreateEnvironmentID "widgets" 42) widgetsWorld).1
      = Except.ok widgetsEnvironment ∧
    (setupFails.setup widgetsWorld.count.setup ≠ none ∨
      setupFails.exec widgetsWorld.count.exec ≠ none ∨
      setupFails.updateEnvironment widgetsWorld.count.updateEnvironment ≠ none) ∧
    ∃ e w1, UpdateEnvironment setupFails exampleConfig 0 "widgets" 42 apiV2 widgetsWorld
        = some (Except.error e, w1) ∧
      w1.environments = widgetsWorld.environments :=
  ⟨by decide, Or.inl (by decide),
    update_failure_keeps_store setupFails exampleConfig 0 "widgets" 42 apiV2 widgetsWorld
      widgetsEnvironment (by decide) (Or.inl (by decide))⟩

/-- C6 on the empty store: creating `widgets-pr-42` when provision fails. -/
theorem create_failure_writes_no_row_witness :
    (∀ row ∈ emptyWorld.environments, row.id ≠ CreateEnvironmentID "widgets" 42) ∧
    (setupFails.setup emptyWorld.count.setup ≠ none ∨
      setupFails.exec emptyWorld.count.exec ≠ none) ∧
    ∃ e msg w1,
      (setupFails.setup emptyWorld.count.setup = some e ∨
        (setupFails.setup emptyWorld.count.setup = none ∧
          setupFails.exec emptyWorld.count.exec = some e)) ∧
      CreateEnvironment setupFails exampleConfig 0 "widgets" 42 apiV1 emptyWorld
        = some (Except.error msg, w1) ∧
      (setupFails.setup emptyWorld.count.setup = some e →
        msg = "failed to set up PR environment: " ++ e) ∧
      (setupFails.setup emptyWorld.count.setup = none →
        msg = "failed to start environment: " ++ e) ∧
      w1.environments = emptyWorld.environments ∧
      (setupFails.setup emptyWorld.count.setup = some e →
        w1.trace = emptyWorld.trace ++ [Event.setup "widgets" 42 apiV1]) ∧
      w1.environment_logs = emptyWorld.environment_logs ++
        (match setupFails.insertLog emptyWorld.count.insertLog with
          | none => [⟨nextLogID emptyWorld.environment_logs, CreateEnvironmentID "widgets" 42,
              "create", "error", e, setupFails.now emptyWorld.count.now⟩]
          | some _ => []) :=
  ⟨by decide, Or.inl (by decide),
    create_failure_writes_no_row setupFails exampleConfig 0 "widgets" 42 apiV1 emptyWorld
      (by decide) (Or.inl (by decide))⟩

/-- C7 on the empty store: removing `widgets-pr-42`, which does not exist. -/
theorem remove_unknown_not_found_witness :
    (∀ row ∈ emptyWorld.environments, row.id ≠ CreateEnvironmentID "widgets" 42) ∧
    (RemoveEnvironment allSucceed exampleConfig "widgets" 42 emptyWorld).1
        = Except.error ("environment " ++ CreateEnvironmentID "widgets" 42 ++ " not found") ∧
      (RemoveEnvironment allSucceed exampleConfig "widgets" 42 emptyWorld).2.environments
        = emptyWorld.environments ∧
      (RemoveEnvironment allSucceed exampleConfig "widgets" 42 emptyWorld).2.environment_logs
        = emptyWorld.environment_logs ∧
      (RemoveEnvironment allSucceed exampleConfig "widgets" 42 emptyWorld).2.trace
        = emptyWorld.trace :=
  ⟨by decide,
    remove_unknown_not_found allSucceed exampleConfig "widgets" 42 emptyWorld (by decide)⟩
/-- C8 on a store holding `widgets-pr-42`: removing it when every step succeeds. -/
theorem remove_then_get_and_list_witness :
    (RemoveEnvironment allSucceed exampleConfig "widgets" 42 widgetsWorld).1
      = Except.ok removedWidgets ∧
    (allSucceed.queryRow
        (RemoveEnvironment allSucceed exampleConfig "widgets" 42 widgetsWorld).2.count.queryRow
        = none →
      ∃ got, (EnvironmentRepository.Get allSucceed (CreateEnvironmentID "widgets" 42)
          (RemoveEnvironment allSucceed exampleConfig "widgets" 42 widgetsWorld).2).1
          = Except.ok got ∧
        got.ID = CreateEnvironmentID "widgets" 42 ∧ got.Status = "removed") ∧
    (∀ envs, (EnvironmentRepository.List allSucceed ⟨some "running", none, none⟩
        (RemoveEnvironment allSucceed exampleConfig "widgets" 42 widgetsWorld).2).1
        = Except.ok envs →
      ∀ e ∈ envs, e.ID ≠ CreateEnvironmentID "widgets" 42) ∧
    (allSucceed.query
        (RemoveEnvironment allSucceed exampleConfig "widgets" 42 widgetsWorld).2.count.query
        = none →
      (∀ row ∈ widgetsWorld.environments, ∃ e, (row.scan).UnmarshalServices = Except.ok e) →
      ∃ envs, (EnvironmentRepository.List allSucceed ⟨some "removed", none, none⟩
          (RemoveEnvironment allSucceed exampleConfig "widgets" 42 widgetsWorld).2).1
          = Except.ok envs ∧
        ∃ e ∈ envs, e.ID = CreateEnvironmentID "widgets" 42 ∧ e.Status = "removed") :=
  ⟨by decide,
    remove_then_get_and_list allSucceed exampleConfig "widgets" 42 widgetsWorld removedWidgets
      (by decide)⟩

/-- C9 on a store holding `widgets-pr-42`: removing it when the shell commands fail. -/
theorem remove_stop_failure_witness :
    (EnvironmentRepository.Get execFails (CreateEnvironmentID "widgets" 42) widgetsWorld).1
      = Except.ok widgetsEnvironment ∧
    (StopEnvironment execFails (GetEnvironmentDir exampleConfig (CreateEnvironmentID "widgets" 42))
      widgetsWorld).1 = Except.error "exit status 1" ∧
    (RemoveEnvironment execFails exampleConfig "widgets" 42 widgetsWorld).1
      = Except.error ("failed to stop environment: " ++ "exit status 1") ∧
    (RemoveEnvironment execFails exampleConfig "widgets" 42 widgetsWorld).2.environments
      = widgetsWorld.environments ∧
    (∃ evs, (RemoveEnvironment execFails exampleConfig "widgets" 42 widgetsWorld).2.trace
        = widgetsWorld.trace ++ evs ∧
      ∀ d, Event.cleanup d ∉ evs) ∧
    (RemoveEnvironment execFails exampleConfig "widgets" 42 widgetsWorld).2.environment_logs
      = widgetsWorld.environment_logs ++
      (match execFails.insertLog widgetsWorld.count.insertLog with
        | none => [⟨nextLogID widgetsWorld.environment_logs, CreateEnvironmentID "widgets" 42,
            "remove", "error", "exit status 1", execFails.now widgetsWorld.count.now⟩]
        | some _ => []) :=
  ⟨by decide, by decide,
    remove_stop_failure execFails exampleConfig "widgets" 42 widgetsWorld widgetsEnvironment
      "exit status 1" (by decide) (by decide)⟩

/-- C10 on a store holding `widgets-pr-42`: removing it when the directory removal fails. -/
theorem remove_cleanup_failure_witness :
    (EnvironmentRepository.Get removeFails (CreateEnvironmentID "widgets" 42) widgetsWorld).1
      = Except.ok widgetsEnvironment ∧
    (StopEnvironment removeFails
      (GetEnvironmentDir exampleConfig (CreateEnvironmentID "widgets" 42)) widgetsWorld).1
      = Except.ok () ∧
    removeFails.updateEnvironment widgetsWorld.count.updateEnvironment = none ∧
    removeFails.remove widgetsWorld.count.remove = some "permission denied" ∧
    (RemoveEnvironment removeFails exampleConfig "widgets" 42 widgetsWorld).1
      = Except.ok ⟨CreateEnvironmentID "widgets" 42, "widgets", "", [], 0, "removed", "", 0, 0⟩ ∧
    (∀ row ∈ (RemoveEnvironment removeFails exampleConfig "widgets" 42 widgetsWorld).2.environments,
      row.id = CreateEnvironmentID "widgets" 42 → row.status = "removed") ∧
    (∃ row ∈ (RemoveEnvironment removeFails exampleConfig "widgets" 42 widgetsWorld).2.environments,
      row.id = CreateEnvironmentID "widgets" 42) ∧
    (RemoveEnvironment removeFails exampleConfig "widgets" 42 widgetsWorld).2.trace
      = widgetsWorld.trace ++
      [Event.stop (GetEnvironmentDir exampleConfig (CreateEnvironmentID "widgets" 42)),
        Event.exec ("cd " ++ GetEnvironmentDir exampleConfig (CreateEnvironmentID "widgets" 42)
          ++ " && docker compose down -v --remove-orphans"),
        Event.exec "docker system prune -f",
        Event.cleanup (GetEnvironmentDir exampleConfig (CreateEnvironmentID "widgets" 42))] :=
  ⟨by decide, by decide, rfl, rfl,
    remove_cleanup_failure removeFails exampleConfig "widgets" 42 widgetsWorld widgetsEnvironment
      "permission denied" (by decide) (by decide) rfl rfl⟩

/-! ## Lemmas: the routing between create and update -/

@[simp] theorem lookups_environments (k : Nat) (w : World) :
    (lookups k w).environments = w.environments := rfl

@[simp] theorem lookups_environment_logs (k : Nat) (w : World) :
    (lookups k w).environment_logs = w.environment_logs := rfl

@[simp] theorem lookups_trace (k : Nat) (w : World) : (lookups k w).trace = w.trace := rfl

theorem afterLookup_lookups (k : Nat) (w : World) :
    afterLookup (lookups k w) = lookups (k + 1) w := rfl

theorem lookups_afterLookup (k : Nat) (w : World) :
    lookups k (afterLookup w) = lookups (k + 1) w := by
  simp only [lookups, afterLookup]
  congr 2
  omega

theorem afterLookup_eq_lookups (w : World) : afterLookup w = lookups 1 w := rfl

theorem lookups_zero (w : World) : lookups 0 w = w := rfl

theorem CreateEnvironment_zero_of_ok (o : Oracle) (c : EnvironmentConfig) (r : String)
    (n : Int) (s : List Service) (w : World) (ex : Environment)
    (h : (EnvironmentRepository.Get o (CreateEnvironmentID r n) w).1 = Except.ok ex) :
    CreateEnvironment o c 0 r n s w = none := by
  rw [CreateEnvironment, Get_fst_snd, h]

theorem UpdateEnvironment_zero_of_error (o : Oracle) (c : EnvironmentConfig) (r : String)
    (n : Int) (s : List Service) (w : World) (e : String)
    (h : (EnvironmentRepository.Get o (CreateEnvironmentID r n) w).1 = Except.error e) :
    UpdateEnvironment o c 0 r n s w = none := by
  rw [UpdateEnvironment, Get_fst_snd, h]

/-- Whatever `CreateEnvironment` or `UpdateEnvironment` returns is what the fresh-create body or
the update body does in the starting state, up to the number of lookups issued before it. -/
theorem route_result (o : Oracle) (c : EnvironmentConfig) (r : String) (n : Int)
    (s : List Service) : ∀ (fuel : Nat) (w : World) (out : Except String Environment × World),
    (CreateEnvironment o c fuel r n s w = some out ∨
      UpdateEnvironment o c fuel r n s w = some out) →
    ∃ k, ((∃ e, (EnvironmentRepository.Get o (CreateEnvironmentID r n) (lookups k w)).1
            = Except.error e) ∧
          out = ((createFresh o c r n s w).1, lookups (k + 1) (createFresh o c r n s w).2)) ∨
        (∃ ex, (EnvironmentRepository.Get o (CreateEnvironmentID r n) (lookups k w)).1
            = Except.ok ex ∧
          out = ((updateExisting o c ex r n s w).1,
            lookups (k + 1) (updateExisting o c ex r n s w).2)) := by
  have hfresh : ∀ w e, (EnvironmentRepository.Get o (CreateEnvironmentID r n) w).1
      = Except.error e → ∀ out, some (createFresh o c r n s (afterLookup w)) = some out →
      ∃ k, ((∃ e, (EnvironmentRepository.Get o (CreateEnvironmentID r n) (lookups k w)).1
            = Except.error e) ∧
          out = ((createFresh o c r n s w).1, lookups (k + 1) (createFresh o c r n s w).2)) ∨
        (∃ ex, (EnvironmentRepository.Get o (CreateEnvironmentID r n) (lookups k w)).1
            = Except.ok ex ∧
          out = ((updateExisting o c ex r n s w).1,
            lookups (k + 1) (updateExisting o c ex r n s w).2)) := by
    intro w e he out hout
    refine ⟨0, Or.inl ⟨⟨e, he⟩, ?_⟩⟩
    rw [createFresh_afterLookup] at hout
    exact (Option.some.inj hout).symm
  have hupd : ∀ w ex, (EnvironmentRepository.Get o (CreateEnvironmentID r n) w).1
      = Except.ok ex → ∀ out, some (updateExisting o c ex r n s (afterLookup w)) = some out →
      ∃ k, ((∃ e, (EnvironmentRepository.Get o (CreateEnvironmentID r n) (lookups k w)).1
            = Except.error e) ∧
          out = ((createFresh o c r n s w).1, lookups (k + 1) (createFresh o c r n s w).2)) ∨
        (∃ ex, (EnvironmentRepository.Get o (CreateEnvironmentID r n) (lookups k w)).1
            = Except.ok ex ∧
          out = ((updateExisting o c ex r n s w).1,
            lookups (k + 1) (updateExisting o c ex r n s w).2)) := by
    intro w ex he out hout
    refine ⟨0, Or.inr ⟨ex, he, ?_⟩⟩
    rw [updateExisting_afterLookup] at hout
    exact (Option.some.inj hout).symm
  have hshift : ∀ w out,
      (∃ k, ((∃ e, (EnvironmentRepository.Get o (CreateEnvironmentID r n)
              (lookups k (afterLookup w))).1 = Except.error e) ∧
          out = ((createFresh o c r n s (afterLookup w)).1,
            lookups (k + 1) (createFresh o c r n s (afterLookup w)).2)) ∨
        (∃ ex, (EnvironmentRepository.Get o (CreateEnvironmentID r n)
              (lookups k (afterLookup w))).1 = Except.ok ex ∧
          out = ((updateExisting o c ex r n s (afterLookup w)).1,
            lookups (k + 1) (updateExisting o c ex r n s (afterLookup w)).2))) →
      ∃ k, ((∃ e, (EnvironmentRepository.Get o (CreateEnvironmentID r n) (lookups k w)).1
            = Except.error e) ∧
          out = ((createFresh o c r n s w).1, lookups (k + 1) (createFresh o c r n s w).2)) ∨
        (∃ ex, (EnvironmentRepository.Get o (CreateEnvironmentID r n) (lookups k w)).1
            = Except.ok ex ∧
          out = ((updateExisting o c ex r n s w).1,
            lookups (k + 1) (updateExisting o c ex r n s w).2)) := by
    rintro w out ⟨k, h⟩
    refine ⟨k + 1, ?_⟩
    rw [lookups_afterLookup] at h
    rcases h with ⟨he, hout⟩ | ⟨ex, he, hout⟩
    · left
      refine ⟨he, ?_⟩
      rw [hout, createFresh_afterLookup, lookups_afterLookup]
    · right
      refine ⟨ex, he, ?_⟩
      rw [hout, updateExisting_afterLookup, lookups_afterLookup]
  intro fuel
  induction fuel with
  | zero =>
    intro w out h
    cases hg : (EnvironmentRepository.Get o (CreateEnvironmentID r n) w).1 with
    | error e =>
      rcases h with h | h
      · rw [CreateEnvironment_of_error o c 0 r n s w e hg] at h
        exact hfresh w e hg out h
      · rw [UpdateEnvironment_zero_of_error o c r n s w e hg] at h
        cases h
    | ok ex =>
      rcases h with h | h
      · rw [CreateEnvironment_zero_of_ok o c r n s w ex hg] at h
        cases h
      · rw [UpdateEnvironment_of_ok o c 0 r n s w ex hg] at h
        exact hupd w ex hg out h
  | succ f ih =>
    intro w out h
    cases hg : (EnvironmentRepository.Get o (CreateEnvironmentID r n) w).1 with
    | error e =>
      rcases h with h | h
      · rw [CreateEnvironment_of_error o c (f + 1) r n s w e hg] at h
        exact hfresh w e hg out h
      · rw [UpdateEnvironment_of_error o c f r n s w e hg] at h
        exact hshift w out (ih (afterLookup w) out (Or.inl h))
    | ok ex =>
      rcases h with h | h
      · rw [CreateEnvironment_of_ok o c f r n s w ex hg] at h
        exact hshift w out (ih (afterLookup w) out (Or.inr h))
      · rw [UpdateEnvironment_of_ok o c (f + 1) r n s w ex hg] at h
        exact hupd w ex hg out h

/-! ## Lemmas: what one call appends -/

@[simp] theorem newAuditRows_lookups (k : Nat) (w w1 : World) :
    newAuditRows w (lookups k w1) = newAuditRows w w1 := rfl

@[simp] theorem newEvents_lookups (k : Nat) (w w1 : World) :
    newEvents w (lookups k w1) = newEvents w w1 := rfl

theorem createFresh_audit (o : Oracle) (c : EnvironmentConfig) (r : String) (n : Int)
    (s : List Service) (w : World) :
    (createFresh o c r n s w).2.environment_logs
      = w.environment_logs ++ newAuditRows w (createFresh o c r n s w).2 ∧
    (newAuditRows w (createFresh o c r n s w).2).length
      = (if o.insertLog w.count.insertLog = none then 1 else 0) ∧
    ∀ row ∈ newAuditRows w (createFresh o c r n s w).2,
      row.EnvironmentID = CreateEnvironmentID r n ∧ row.Action = "create" ∧
      ((row.Status = "success" ∧ ∃ env, (createFresh o c r n s w).1 = Except.ok env) ∨
        (row.Status = "error" ∧ ∃ e, (createFresh o c r n s w).1 = Except.error e)) := by
  cases h1 : o.setup w.count.setup <;> cases h2 : o.exec w.count.exec <;>
    cases h3 : o.insertEnvironment w.count.insertEnvironment <;>
    cases h4 : o.insertLog w.count.insertLog <;>
    cases h5 : (w.environments.any fun r1 => decide (r1.id = CreateEnvironmentID r n)) <;>
    simp [createFresh, SetupPrEnvironment, StartEnvironment, Execute,
      EnvironmentRepository.Create, Environment.MarshalServices, timeNow, h1, h2, h3, h4, h5,
      logEnvironmentAction, EnvironmentLogRepository.Create, newAuditRows]

theorem updateExisting_audit (o : Oracle) (c : EnvironmentConfig) (ex : Environment)
    (r : String) (n : Int) (s : List Service) (w : World) :
    (updateExisting o c ex r n s w).2.environment_logs
      = w.environment_logs ++ newAuditRows w (updateExisting o c ex r n s w).2 ∧
    (newAuditRows w (updateExisting o c ex r n s w).2).length
      = (if o.insertLog w.count.insertLog = none then 1 else 0) ∧
    ∀ row ∈ newAuditRows w (updateExisting o c ex r n s w).2,
      row.EnvironmentID = CreateEnvironmentID r n ∧ row.Action = "update" ∧
      ((row.Status = "success" ∧ ∃ env, (updateExisting o c ex r n s w).1 = Except.ok env) ∨
        (row.Status = "error" ∧ ∃ e, (updateExisting o c ex r n s w).1 = Except.error e)) := by
  cases h1 : o.setup w.count.setup <;> cases h2 : o.exec w.count.exec <;>
    cases h3 : o.updateEnvironment w.count.updateEnvironment <;>
    cases h4 : o.insertLog w.count.insertLog <;>
    simp [updateExisting, SetupPrEnvironment, StartEnvironment, Execute,
      EnvironmentRepository.Update, Environment.MarshalServices, timeNow, h1, h2, h3, h4,
      logEnvironmentAction, EnvironmentLogRepository.Create, newAuditRows]

theorem RemoveEnvironment_audit (o : Oracle) (c : EnvironmentConfig) (r : String) (n : Int)
    (w : World) (existing : Environment)
    (hfound : (EnvironmentRepository.Get o (CreateEnvironmentID r n) w).1 = Except.ok existing) :
    (RemoveEnvironment o c r n w).2.environment_logs
      = w.environment_logs ++ newAuditRows w (RemoveEnvironment o c r n w).2 ∧
    (newAuditRows w (RemoveEnvironment o c r n w).2).length
      = (if o.insertLog w.count.insertLog = none then 1 else 0) ∧
    ∀ row ∈ newAuditRows w (RemoveEnvironment o c r n w).2,
      row.EnvironmentID = CreateEnvironmentID r n ∧ row.Action = "remove" ∧
      ((row.Status = "success" ∧ ∃ env, (RemoveEnvironment o c r n w).1 = Except.ok env) ∨
        (row.Status = "error" ∧ ∃ e, (RemoveEnvironment o c r n w).1 = Except.error e)) := by
  have hg : EnvironmentRepository.Get o (CreateEnvironmentID r n) w
      = (Except.ok existing, afterLookup w) := by rw [Get_fst_snd, hfound]
  simp only [RemoveEnvironment, hg]
  cases h1 : o.exec w.count.exec <;> cases h2 : o.exec (w.count.exec + 1) <;>
    cases h3 : o.updateEnvironment w.count.updateEnvironment <;>
    cases h4 : o.insertLog w.count.insertLog <;>
    cases h5 : o.remove w.count.remove <;>
    simp [StopEnvironment, Execute, EnvironmentRepository.Update, Environment.MarshalServices,
      timeNow, h1, h2, h3, h4, h5, logEnvironmentAction, EnvironmentLogRepository.Create,
      CleanupEnvironment, afterLookup, newAuditRows]

theorem RemoveEnvironment_absent (o : Oracle) (c : EnvironmentConfig) (r : String) (n : Int)
    (w : World) (e : String)
    (h : (EnvironmentRepository.Get o (CreateEnvironmentID r n) w).1 = Except.error e) :
    RemoveEnvironment o c r n w
      = (Except.error ("environment " ++ CreateEnvironmentID r n ++ " not found"),
          afterLookup w) := by
  have hg : EnvironmentRepository.Get o (CreateEnvironmentID r n) w
      = (Except.error e, afterLookup w) := by rw [Get_fst_snd, h]
  simp only [RemoveEnvironment, hg]

theorem createFresh_trace (o : Oracle) (c : EnvironmentConfig) (r : String) (n : Int)
    (s : List Service) (w : World) :
    (createFresh o c r n s w).2.trace = w.trace ++ newEvents w (createFresh o c r n s w).2 ∧
    ∀ d, Event.cleanup d ∉ newEvents w (createFresh o c r n s w).2 := by
  cases h1 : o.setup w.count.setup <;> cases h2 : o.exec w.count.exec <;>
    cases h3 : o.insertEnvironment w.count.insertEnvironment <;>
    cases h4 : o.insertLog w.count.insertLog <;>
    cases h5 : (w.environments.any fun r1 => decide (r1.id = CreateEnvironmentID r n)) <;>
    simp [createFresh, SetupPrEnvironment, StartEnvironment, Execute,
      EnvironmentRepository.Create, Environment.MarshalServices, timeNow, h1, h2, h3, h4, h5,
      logEnvironmentAction, EnvironmentLogRepository.Create, newEvents]

theorem updateExisting_trace (o : Oracle) (c : EnvironmentConfig) (ex : Environment)
    (r : String) (n : Int) (s : List Service) (w : World) :
    (updateExisting o c ex r n s w).2.trace
      = w.trace ++ newEvents w (updateExisting o c ex r n s w).2 ∧
    ∀ d, Event.cleanup d ∉ newEvents w (updateExisting o c ex r n s w).2 := by
  cases h1 : o.setup w.count.setup <;> cases h2 : o.exec w.count.exec <;>
    cases h3 : o.updateEnvironment w.count.updateEnvironment <;>
    cases h4 : o.insertLog w.count.insertLog <;>
    simp [updateExisting, SetupPrEnvironment, StartEnvironment, Execute,
      EnvironmentRepository.Update, Environment.MarshalServices, timeNow, h1, h2, h3, h4,
      logEnvironmentAction, EnvironmentLogRepository.Create, newEvents]

theorem RemoveEnvironment_trace (o : Oracle) (c : EnvironmentConfig) (r : String) (n : Int)
    (w : World) :
    (RemoveEnvironment o c r n w).2.trace = w.trace ++ newEvents w (RemoveEnvironment o c r n w).2 ∧
    ∀ d, Event.cleanup d ∈ newEvents w (RemoveEnvironment o c r n w).2 →
      d = GetEnvironmentDir c (CreateEnvironmentID r n) ∧
      (StopEnvironment o d w).1 = Except.ok () ∧
      newEvents w (RemoveEnvironment o c r n w).2
        = [Event.stop d,
            Event.exec ("cd " ++ d ++ " && docker compose down -v --remove-orphans"),
            Event.exec "docker system prune -f",
            Event.cleanup d] := by
  cases hget : (EnvironmentRepository.Get o (CreateEnvironmentID r n) w).1 with
  | error e =>
    rw [RemoveEnvironment_absent o c r n w e hget]
    simp [newEvents]
  | ok existing =>
    have hg : EnvironmentRepository.Get o (CreateEnvironmentID r n) w
        = (Except.ok existing, afterLookup w) := by rw [Get_fst_snd, hget]
    simp only [RemoveEnvironment, hg]
    cases h1 : o.exec w.count.exec <;> cases h2 : o.exec (w.count.exec + 1) <;>
      cases h3 : o.updateEnvironment w.count.updateEnvironment <;>
      cases h4 : o.insertLog w.count.insertLog <;>
      cases h5 : o.remove w.count.remove <;>
      simp [StopEnvironment, Execute, EnvironmentRepository.Update, Environment.MarshalServices,
        timeNow, h1, h2, h3, h4, h5, logEnvironmentAction, EnvironmentLogRepository.Create,
        CleanupEnvironment, afterLookup, newEvents]

theorem Get_fst_stable (o : Oracle) (id : String) (w : World)
    (h0 : o.queryRow w.count.queryRow = none)
    (h1 : o.queryRow (w.count.queryRow + 1) = none) :
    (EnvironmentRepository.Get o id (afterLookup w)).1 = (EnvironmentRepository.Get o id w).1 := by
  simp only [EnvironmentRepository.Get, afterLookup, h0, h1]
  cases w.environments.find? (fun r => decide (r.id = id)) <;> rfl

/-- When the database answers the first two lookups, one unit of fuel is enough for
`CreateEnvironment` and `UpdateEnvironment` to return. -/
theorem delegation_returns (o : Oracle) (c : EnvironmentConfig) (fuel : Nat) (r : String)
    (n : Int) (s : List Service) (w : World)
    (h0 : o.queryRow w.count.queryRow = none)
    (h1 : o.queryRow (w.count.queryRow + 1) = none) :
    (∃ out, CreateEnvironment o c (fuel + 1) r n s w = some out) ∧
    (∃ out, UpdateEnvironment o c (fuel + 1) r n s w = some out) := by
  have hst := Get_fst_stable o (CreateEnvironmentID r n) w h0 h1
  cases hg : (EnvironmentRepository.Get o (CreateEnvironmentID r n) w).1 with
  | error e =>
    rw [hg] at hst
    exact ⟨⟨_, CreateEnvironment_of_error o c _ r n s w e hg⟩,
      ⟨_, by rw [UpdateEnvironment_of_error o c fuel r n s w e hg,
        CreateEnvironment_of_error o c _ r n s _ e hst]⟩⟩
  | ok ex =>
    rw [hg] at hst
    exact ⟨⟨_, by rw [CreateEnvironment_of_ok o c fuel r n s w ex hg,
        UpdateEnvironment_of_ok o c _ r n s _ ex hst]⟩,
      ⟨_, UpdateEnvironment_of_ok o c _ r n s w ex hg⟩⟩

/-! ## The audit log and the driver trace -/

/-- C11, as amended. A `CreateEnvironment` or `UpdateEnvironment` call that returns hands exactly
one audit row to the log store, and so does a `RemoveEnvironment` call whose lookup yields a
record: the row is appended when the log insert succeeds and dropped otherwise. The row carries
the environment id; its action is the body that ran (`create` when the deciding lookup found no
record, `update` when it found one, `remove` for a removal), whichever operation was requested;
its status is `success` when the call returned no error and `error` otherwise. A
`RemoveEnvironment` call whose lookup yields no record appends no audit row. With the database
answering the first two lookups, create and update do return. -/
theorem audit_row_per_call (o : Oracle) (c : EnvironmentConfig) (fuel : Nat) (r : String)
    (n : Int) (s : List Service) (w : World) :
    (∀ out, (CreateEnvironment o c fuel r n s w = some out ∨
        UpdateEnvironment o c fuel r n s w = some out) →
      out.2.environment_logs = w.environment_logs ++ newAuditRows w out.2 ∧
      (newAuditRows w out.2).length = (if o.insertLog w.count.insertLog = none then 1 else 0) ∧
      ∃ k, ∀ row ∈ newAuditRows w out.2,
        row.EnvironmentID = CreateEnvironmentID r n ∧
        ((row.Action = "create" ∧
            ∃ e, (EnvironmentRepository.Get o (CreateEnvironmentID r n) (lookups k w)).1
              = Except.error e) ∨
          (row.Action = "update" ∧
            ∃ ex, (EnvironmentRepository.Get o (CreateEnvironmentID r n) (lookups k w)).1
              = Except.ok ex)) ∧
        ((row.Status = "success" ∧ ∃ env, out.1 = Except.ok env) ∨
          (row.Status = "error" ∧ ∃ e, out.1 = Except.error e))) ∧
    (o.queryRow w.count.queryRow = none → o.queryRow (w.count.queryRow + 1) = none →
      (∃ out, CreateEnvironment o c (fuel + 1) r n s w = some out) ∧
      (∃ out, UpdateEnvironment o c (fuel + 1) r n s w = some out)) ∧
    (∀ existing,
      (EnvironmentRepository.Get o (CreateEnvironmentID r n) w).1 = Except.ok existing →
      (RemoveEnvironment o c r n w).2.environment_logs
        = w.environment_logs ++ newAuditRows w (RemoveEnvironment o c r n w).2 ∧
      (newAuditRows w (RemoveEnvironment o c r n w).2).length
        = (if o.insertLog w.count.insertLog = none then 1 else 0) ∧
      ∀ row ∈ newAuditRows w (RemoveEnvironment o c r n w).2,
        row.EnvironmentID = CreateEnvironmentID r n ∧ row.Action = "remove" ∧
        ((row.Status = "success" ∧ ∃ env, (RemoveEnvironment o c r n w).1 = Except.ok env) ∨
          (row.Status = "error" ∧ ∃ e, (RemoveEnvironment o c r n w).1 = Except.error e))) ∧
    (∀ e, (EnvironmentRepository.Get o (CreateEnvironmentID r n) w).1 = Except.error e →
      (RemoveEnvironment o c r n w).2.environment_logs = w.environment_logs ∧
      ∃ e1, (RemoveEnvironment o c r n w).1 = Except.error e1) := by
  refine ⟨?_, delegation_returns o c fuel r n s w, RemoveEnvironment_audit o c r n w, ?_⟩
  · intro out hout
    obtain ⟨k, ⟨he, rfl⟩ | ⟨ex, he, rfl⟩⟩ := route_result o c r n s fuel w out hout
    · obtain ⟨h1, h2, h3⟩ := createFresh_audit o c r n s w
      refine ⟨by simpa using h1, by simpa using h2, k, ?_⟩
      intro row hrow
      obtain ⟨a, b, d⟩ := h3 row (by simpa using hrow)
      exact ⟨a, Or.inl ⟨b, he⟩, d⟩
    · obtain ⟨h1, h2, h3⟩ := updateExisting_audit o c ex r n s w
      refine ⟨by simpa using h1, by simpa using h2, k, ?_⟩
      intro row hrow
      obtain ⟨a, b, d⟩ := h3 row (by simpa using hrow)
      exact ⟨a, Or.inr ⟨b, ex, he⟩, d⟩
  · intro e he
    rw [RemoveEnvironment_absent o c r n w e he]
    exact ⟨rfl, _, rfl⟩

/-- C11, refuted as stated: removing `widgets-pr-42` from the empty store, with every external
call succeeding, returns the not-found error and leaves the audit log empty; a create of
`widgets-pr-42` on the store that holds it appends an audit row whose action is `update`; and a
create that succeeds while the log store fails appends no audit row. -/
theorem audit_row_missing_or_relabelled :
    (RemoveEnvironment allSucceed exampleConfig "widgets" 42 emptyWorld).1
      = Except.error "environment widgets-pr-42 not found" ∧
    (RemoveEnvironment allSucceed exampleConfig "widgets" 42 emptyWorld).2.environment_logs = [] ∧
    emptyWorld.environment_logs = [] ∧
    (CreateEnvironment allSucceed exampleConfig 1 "widgets" 42 apiV2 widgetsWorld).map
        (fun out => out.2.environment_logs.map (fun l => (l.Action, l.Status)))
      = some [("update", "success")] ∧
    (CreateEnvironment logFails exampleConfig 1 "widgets" 42 apiV1 emptyWorld).map
        (fun out => (out.1.toOption.map (fun env => env.ID), out.2.environment_logs))
      = some (some "widgets-pr-42", []) := by
  decide

theorem StopEnvironment_afterLookup (o : Oracle) (d : String) (r : String) (n : Int) (w : World) :
    (StopEnvironment o d (EnvironmentRepository.Get o (CreateEnvironmentID r n) w).2).1
      = (StopEnvironment o d w).1 := by
  rw [Get_snd]
  cases h1 : o.exec w.count.exec <;> cases h2 : o.exec (w.count.exec + 1) <;>
    simp [StopEnvironment, Execute, afterLookup, h1, h2]

/-- C17. The driver events a `CreateEnvironment` or `UpdateEnvironment` call records contain no
`CleanupEnvironment`. When the events a `RemoveEnvironment` call records contain a
`CleanupEnvironment` of a directory, that directory is the one of the environment,
`StopEnvironment` on it, invoked in the state the lookup of the call left, returned success, and
the events of the call are the stop of that directory, its two commands, and then the
cleanup. -/
theorem cleanup_only_after_stop (o : Oracle) (c : EnvironmentConfig) (fuel : Nat) (r : String)
    (n : Int) (s : List Service) (w : World) :
    (∀ out, (CreateEnvironment o c fuel r n s w = some out ∨
        UpdateEnvironment o c fuel r n s w = some out) →
      out.2.trace = w.trace ++ newEvents w out.2 ∧
      ∀ d, Event.cleanup d ∉ newEvents w out.2) ∧
    (RemoveEnvironment o c r n w).2.trace
      = w.trace ++ newEvents w (RemoveEnvironment o c r n w).2 ∧
    (∀ d, Event.cleanup d ∈ newEvents w (RemoveEnvironment o c r n w).2 →
      d = GetEnvironmentDir c (CreateEnvironmentID r n) ∧
      (StopEnvironment o d (EnvironmentRepository.Get o (CreateEnvironmentID r n) w).2).1
        = Except.ok () ∧
      newEvents w (RemoveEnvironment o c r n w).2
        = [Event.stop d,
            Event.exec ("cd " ++ d ++ " && docker compose down -v --remove-orphans"),
            Event.exec "docker system prune -f",
            Event.cleanup d]) := by
  refine ⟨?_, (RemoveEnvironment_trace o c r n w).1, ?_⟩
  · intro out hout
    obtain ⟨k, ⟨_, rfl⟩ | ⟨ex, _, rfl⟩⟩ := route_result o c r n s fuel w out hout
    · simpa using createFresh_trace o c r n s w
    · simpa using updateExisting_trace o c ex r n s w
  · intro d hd
    obtain ⟨h1, h2, h3⟩ := (RemoveEnvironment_trace o c r n w).2 d hd
    exact ⟨h1, by rw [StopEnvironment_afterLookup]; exact h2, h3⟩

/-! ## The audit log and the driver trace, on the scenario -/

theorem audit_row_per_call_witness :
    (∃ out, CreateEnvironment allSucceed exampleConfig 1 "widgets" 42 apiV2 widgetsWorld
        = some out ∧
      (newAuditRows widgetsWorld out.2).length = 1 ∧
      ∃ k, ∀ row ∈ newAuditRows widgetsWorld out.2,
        row.EnvironmentID = CreateEnvironmentID "widgets" 42 ∧
        ((row.Action = "create" ∧
            ∃ e, (EnvironmentRepository.Get allSucceed (CreateEnvironmentID "widgets" 42)
              (lookups k widgetsWorld)).1 = Except.error e) ∨
          (row.Action = "update" ∧
            ∃ ex, (EnvironmentRepository.Get allSucceed (CreateEnvironmentID "widgets" 42)
              (lookups k widgetsWorld)).1 = Except.ok ex)) ∧
        ((row.Status = "success" ∧ ∃ env, out.1 = Except.ok env) ∨
          (row.Status = "error" ∧ ∃ e, out.1 = Except.error e))) ∧
    (newAuditRows widgetsWorld
      (RemoveEnvironment allSucceed exampleConfig "widgets" 42 widgetsWorld).2).length = 1 :=
  ⟨⟨_, rfl,
      ((audit_row_per_call allSucceed exampleConfig 1 "widgets" 42 apiV2 widgetsWorld).1 _
        (Or.inl rfl)).2⟩,
    ((audit_row_per_call allSucceed exampleConfig 1 "widgets" 42 apiV2 widgetsWorld).2.2.1
      widgetsEnvironment (by decide)).2.1⟩

theorem cleanup_only_after_stop_witness :
    Event.cleanup "data/environments/widgets-pr-42"
      ∈ newEvents widgetsWorld (RemoveEnvironment allSucceed exampleConfig "widgets" 42 widgetsWorld).2 ∧
    (StopEnvironment allSucceed "data/environments/widgets-pr-42"
      (EnvironmentRepository.Get allSucceed (CreateEnvironmentID "widgets" 42) widgetsWorld).2).1
      = Except.ok () ∧
    (∃ out, CreateEnvironment allSucceed exampleConfig 1 "widgets" 42 apiV1 emptyWorld = some out ∧
      ∀ d, Event.cleanup d ∉ newEvents emptyWorld out.2) :=
  ⟨by decide,
    ((cleanup_only_after_stop allSucceed exampleConfig 1 "widgets" 42 apiV1 widgetsWorld).2.2
      "data/environments/widgets-pr-42" (by decide)).2.1,
    ⟨_, rfl,
      ((cleanup_only_after_stop allSucceed exampleConfig 1 "widgets" 42 apiV1 emptyWorld).1 _
        (Or.inl rfl)).2⟩⟩

/-! ## Lemmas: what one call does to the environments table -/

theorem Get_ok_row (o : Oracle) (id : String) (w : World) (env : Environment)
    (h : (EnvironmentRepository.Get o id w).1 = Except.ok env) :
    ∃ row ∈ w.environments, row.id = id ∧ env = { row.scan with Services := env.Services } := by
  obtain ⟨_, row, hf, hu⟩ := Get_ok_inv o id w env h
  have h2 := List.find?_some hf
  simp only [decide_eq_true_eq] at h2
  exact ⟨row, List.mem_of_find?_eq_some hf, h2, UnmarshalServices_ok_inv _ _ hu⟩

theorem createFresh_environments (o : Oracle) (c : EnvironmentConfig) (r : String) (n : Int)
    (s : List Service) (w : World) :
    (createFresh o c r n s w).2.environments = w.environments ∨
    ((∀ row ∈ w.environments, row.id ≠ CreateEnvironmentID r n) ∧
      (createFresh o c r n s w).1 = Except.ok (createdEnvironment o c r n s w) ∧
      (createFresh o c r n s w).2.environments
        = w.environments ++ [(createdEnvironment o c r n s w).toRow]) := by
  by_cases hok : o.setup w.count.setup = none ∧ o.exec w.count.exec = none ∧
      o.insertEnvironment w.count.insertEnvironment = none ∧
      ∀ row ∈ w.environments, row.id ≠ CreateEnvironmentID r n
  · obtain ⟨h1, h2, h3, h4⟩ := hok
    obtain ⟨a, b, _⟩ := createFresh_ok o c r n s w h4 h1 h2 h3
    exact Or.inr ⟨h4, a, b⟩
  · left
    cases h1 : o.setup w.count.setup <;> cases h2 : o.exec w.count.exec <;>
      cases h3 : o.insertEnvironment w.count.insertEnvironment <;>
      cases h4 : o.insertLog w.count.insertLog <;>
      cases h5 : (w.environments.any fun r1 => decide (r1.id = CreateEnvironmentID r n)) <;>
      simp [createFresh, SetupPrEnvironment, StartEnvironment, Execute,
        EnvironmentRepository.Create, Environment.MarshalServices, timeNow, h1, h2, h3, h4, h5,
        logEnvironmentAction, EnvironmentLogRepository.Create]
    all_goals
      exfalso
      apply hok
      refine ⟨h1, h2, h3, ?_⟩
      simpa using h5

theorem RemoveEnvironment_environments (o : Oracle) (c : EnvironmentConfig) (r : String)
    (n : Int) (w : World) :
    (RemoveEnvironment o c r n w).2.environments = w.environments ∨
    ∃ ex, (EnvironmentRepository.Get o (CreateEnvironmentID r n) w).1 = Except.ok ex ∧
      (RemoveEnvironment o c r n w).2.environments
        = w.environments.map (Row.update (removedEnvironment o ex w)) := by
  cases hget : (EnvironmentRepository.Get o (CreateEnvironmentID r n) w).1 with
  | error e =>
    rw [RemoveEnvironment_absent o c r n w e hget]
    exact Or.inl rfl
  | ok existing =>
    obtain ⟨hfail, hok⟩ := RemoveEnvironment_found o c r n w existing hget
    cases hs : (StopEnvironment o (GetEnvironmentDir c (CreateEnvironmentID r n)) w).1 with
    | error e => exact Or.inl (hfail e hs).2.1
    | ok u =>
      cases hu : o.updateEnvironment w.count.updateEnvironment with
      | some e => exact Or.inl (((hok hs).1 e hu).2)
      | none => exact Or.inr ⟨existing, rfl, ((hok hs).2 hu).2.1⟩

/-- The environments table after one call: unchanged, or one row appended by the create body,
or the rows of the looked-up id rewritten by the update body or by the removal. -/
theorem runCall_environments (o : Oracle) (c : EnvironmentConfig) (fuel : Nat) (call : Call)
    (w w1 : World) (h : runCall o c fuel call w = some w1) :
    w1.environments = w.environments ∨
    (∃ r n s, (∀ row ∈ w.environments, row.id ≠ CreateEnvironmentID r n) ∧
      w1.environments = w.environments ++ [(createdEnvironment o c r n s w).toRow]) ∨
    (∃ r n s ex, (∃ row ∈ w.environments, row.id = CreateEnvironmentID r n ∧
        ex = { row.scan with Services := ex.Services }) ∧
      w1.environments = w.environments.map (Row.update (updatedEnvironment o c ex r n s w))) ∨
    (∃ r n ex, (∃ row ∈ w.environments, row.id = CreateEnvironmentID r n ∧
        ex = { row.scan with Services := ex.Services }) ∧
      w1.environments = w.environments.map (Row.update (removedEnvironment o ex w))) := by
  have hroute : ∀ r n s out, (CreateEnvironment o c fuel r n s w = some out ∨
      UpdateEnvironment o c fuel r n s w = some out) →
      out.2.environments = w.environments ∨
      (∃ r n s, (∀ row ∈ w.environments, row.id ≠ CreateEnvironmentID r n) ∧
        out.2.environments = w.environments ++ [(createdEnvironment o c r n s w).toRow]) ∨
      (∃ r n s ex, (∃ row ∈ w.environments, row.id = CreateEnvironmentID r n ∧
          ex = { row.scan with Services := ex.Services }) ∧
        out.2.environments
          = w.environments.map (Row.update (updatedEnvironment o c ex r n s w))) ∨
      (∃ r n ex, (∃ row ∈ w.environments, row.id = CreateEnvironmentID r n ∧
          ex = { row.scan with Services := ex.Services }) ∧
        out.2.environments = w.environments.map (Row.update (removedEnvironment o ex w))) := by
    intro r n s out hout
    obtain ⟨k, ⟨_, rfl⟩ | ⟨ex, he, rfl⟩⟩ := route_result o c r n s fuel w out hout
    · rcases createFresh_environments o c r n s w with h1 | ⟨h1, _, h2⟩
      · exact Or.inl h1
      · exact Or.inr (Or.inl ⟨r, n, s, h1, h2⟩)
    · rcases updateExisting_cases o c ex r n s w with ⟨_, _, _, _, h2⟩ | ⟨_, _, h2⟩
      · exact Or.inr (Or.inr (Or.inl ⟨r, n, s, ex, Get_ok_row o _ (lookups k w) ex he, h2⟩))
      · exact Or.inl h2
  cases call with
  | create r n s =>
    simp only [runCall, Option.map_eq_some'] at h
    obtain ⟨out, hout, rfl⟩ := h
    exact hroute r n s out (Or.inl hout)
  | update r n s =>
    simp only [runCall, Option.map_eq_some'] at h
    obtain ⟨out, hout, rfl⟩ := h
    exact hroute r n s out (Or.inr hout)
  | remove r n =>
    simp only [runCall, Option.some.injEq] at h
    subst h
    rcases RemoveEnvironment_environments o c r n w with h1 | ⟨ex, he, h1⟩
    · exact Or.inl h1
    · exact Or.inr (Or.inr (Or.inr ⟨r, n, ex, Get_ok_row o _ _ ex he, h1⟩))

/-- A property of rows that the three kinds of change keep is kept by every sequence of
calls. -/
theorem runCalls_invariant (o : Oracle) (c : EnvironmentConfig) (fuel : Nat) (P : Row → Prop)
    (hcreate : ∀ r n s w, P (createdEnvironment o c r n s w).toRow)
    (hupdate : ∀ r n s w ex (rows : List Row) row, (∀ x ∈ rows, P x) → row ∈ rows →
      (∃ row0 ∈ rows, row0.id = CreateEnvironmentID r n ∧
        ex = { row0.scan with Services := ex.Services }) →
      P (Row.update (updatedEnvironment o c ex r n s w) row))
    (hremove : ∀ r n w ex (rows : List Row) row, (∀ x ∈ rows, P x) → row ∈ rows →
      (∃ row0 ∈ rows, row0.id = CreateEnvironmentID r n ∧
        ex = { row0.scan with Services := ex.Services }) →
      P (Row.update (removedEnvironment o ex w) row)) :
    ∀ (calls : List Call) (w w1 : World), (∀ row ∈ w.environments, P row) →
      runCalls o c fuel calls w = some w1 → ∀ row ∈ w1.environments, P row := by
  intro calls
  induction calls with
  | nil =>
    intro w w1 hP h
    simp only [runCalls, Option.some.injEq] at h
    subst h
    exact hP
  | cons call rest ih =>
    intro w w1 hP h
    unfold runCalls at h
    cases hc : runCall o c fuel call w with
    | none => simp [hc] at h
    | some w2 =>
      simp only [hc] at h
      refine ih w2 w1 ?_ h
      rcases runCall_environments o c fuel call w w2 hc with
        h1 | ⟨r, n, s, _, h1⟩ | ⟨r, n, s, ex, hex, h1⟩ | ⟨r, n, ex, hex, h1⟩
      · rw [h1]; exact hP
      · rw [h1]
        intro row hrow
        rcases List.mem_append.mp hrow with h2 | h2
        · exact hP row h2
        · rw [List.mem_singleton.mp h2]
          exact hcreate r n s w
      · rw [h1]
        intro row hrow
        obtain ⟨row1, hr1, rfl⟩ := List.mem_map.mp hrow
        exact hupdate r n s w ex _ row1 hP hr1 hex
      · rw [h1]
        intro row hrow
        obtain ⟨row1, hr1, rfl⟩ := List.mem_map.mp hrow
        exact hremove r n w ex _ row1 hP hr1 hex

theorem createFresh_error_environments (o : Oracle) (c : EnvironmentConfig) (r : String)
    (n : Int) (s : List Service) (w : World) :
    ((∃ e, (createFresh o c r n s w).1 = Except.error e) ∧
      (createFresh o c r n s w).2.environments = w.environments) ∨
    ((∀ row ∈ w.environments, row.id ≠ CreateEnvironmentID r n) ∧
      (createFresh o c r n s w).1 = Except.ok (createdEnvironment o c r n s w) ∧
      (createFresh o c r n s w).2.environments
        = w.environments ++ [(createdEnvironment o c r n s w).toRow]) := by
  by_cases hok : o.setup w.count.setup = none ∧ o.exec w.count.exec = none ∧
      o.insertEnvironment w.count.insertEnvironment = none ∧
      ∀ row ∈ w.environments, row.id ≠ CreateEnvironmentID r n
  · obtain ⟨h1, h2, h3, h4⟩ := hok
    obtain ⟨a, b, _⟩ := createFresh_ok o c r n s w h4 h1 h2 h3
    exact Or.inr ⟨h4, a, b⟩
  · left
    cases h1 : o.setup w.count.setup <;> cases h2 : o.exec w.count.exec <;>
      cases h3 : o.insertEnvironment w.count.insertEnvironment <;>
      cases h4 : o.insertLog w.count.insertLog <;>
      cases h5 : (w.environments.any fun r1 => decide (r1.id = CreateEnvironmentID r n)) <;>
      simp [createFresh, SetupPrEnvironment, StartEnvironment, Execute,
        EnvironmentRepository.Create, Environment.MarshalServices, timeNow, h1, h2, h3, h4, h5,
        logEnvironmentAction, EnvironmentLogRepository.Create]
    all_goals
      exfalso
      apply hok
      refine ⟨h1, h2, h3, ?_⟩
      simpa using h5

/-! ## Invariants of the environments table -/

/-- C12. Starting from a store in which every row has status `running` or `removed`, after any
sequence of create, update and remove calls, under any pattern of failures of the external
steps, every row of the store has status `running` or `removed`. -/
theorem status_invariant (o : Oracle) (c : EnvironmentConfig) (fuel : Nat) (calls : List Call)
    (w w1 : World)
    (hinit : ∀ row ∈ w.environments, row.status = "running" ∨ row.status = "removed")
    (hrun : runCalls o c fuel calls w = some w1) :
    ∀ row ∈ w1.environments, row.status = "running" ∨ row.status = "removed" := by
  refine runCalls_invariant o c fuel (fun row => row.status = "running" ∨ row.status = "removed")
    ?_ ?_ ?_ calls w w1 hinit hrun
  · intro r n s w
    exact Or.inl rfl
  · intro r n s w ex rows row hP hrow _
    unfold Row.update
    split_ifs
    · exact Or.inl rfl
    · exact hP row hrow
  · intro r n w ex rows row hP hrow _
    unfold Row.update
    split_ifs
    · exact Or.inr rfl
    · exact hP row hrow

/-- C13. Under a fixed configured domain, every successful create or update returns a record
whose url is `https://<id>.<domain>` and leaves every row of that id with this url; and when
every row of the store has url `https://<id>.<domain>`, so does every row after any sequence of
create, update and remove calls. -/
theorem url_invariant (o : Oracle) (c : EnvironmentConfig) (fuel : Nat) (w : World) :
    (∀ r n s out env, (CreateEnvironment o c fuel r n s w = some out ∨
        UpdateEnvironment o c fuel r n s w = some out) → out.1 = Except.ok env →
      env.ID = CreateEnvironmentID r n ∧
      env.URL = "https://" ++ env.ID ++ "." ++ c.TailscaleDomain ∧
      ∀ row ∈ out.2.environments, row.id = env.ID →
        row.url = "https://" ++ row.id ++ "." ++ c.TailscaleDomain) ∧
    (∀ calls w1,
      (∀ row ∈ w.environments, row.url = "https://" ++ row.id ++ "." ++ c.TailscaleDomain) →
      runCalls o c fuel calls w = some w1 →
      ∀ row ∈ w1.environments, row.url = "https://" ++ row.id ++ "." ++ c.TailscaleDomain) := by
  constructor
  · intro r n s out env hout henv
    obtain ⟨k, ⟨_, rfl⟩ | ⟨ex, he, rfl⟩⟩ := route_result o c r n s fuel w out hout
    · rcases createFresh_error_environments o c r n s w with ⟨⟨e, h1⟩, _⟩ | ⟨habs, h1, h2⟩
      · simp only [h1] at henv
        cases henv
      · simp only [h1, Except.ok.injEq] at henv
        subst henv
        refine ⟨rfl, rfl, ?_⟩
        intro row hrow hid
        simp only [lookups_environments, h2, List.mem_append, List.mem_singleton] at hrow
        rcases hrow with h3 | h3
        · exact absurd hid (habs row h3)
        · rw [h3]; rfl
    · have hexid := Get_ok_ID o _ _ ex he
      rcases updateExisting_cases o c ex r n s w with ⟨_, _, _, h1, h2⟩ | ⟨_, ⟨e, h1⟩, _⟩
      · simp only [h1, Except.ok.injEq] at henv
        subst henv
        refine ⟨hexid, ?_, ?_⟩
        · show CreateEnvironmentURL c (CreateEnvironmentID r n) = _
          rw [← hexid]; rfl
        · intro row hrow hid
          simp only [lookups_environments, h2, List.mem_map] at hrow
          obtain ⟨row0, _, rfl⟩ := hrow
          rw [Row.update_id] at hid ⊢
          have hu : (Row.update (updatedEnvironment o c ex r n s w) row0).url
              = CreateEnvironmentURL c (CreateEnvironmentID r n) := by
            simp [Row.update, hid, updatedEnvironment]
          rw [hu, hid]
          show _ = "https://" ++ ex.ID ++ "." ++ c.TailscaleDomain
          rw [hexid]; rfl
      · simp only [h1] at henv
        cases henv
  · intro calls w1 hinit hrun
    refine runCalls_invariant o c fuel
      (fun row => row.url = "https://" ++ row.id ++ "." ++ c.TailscaleDomain)
      ?_ ?_ ?_ calls w w1 hinit hrun
    · intro r n s w
      rfl
    · intro r n s w ex rows row hP hrow hex
      obtain ⟨row0, _, hid0, hex0⟩ := hex
      have hexid : ex.ID = CreateEnvironmentID r n := by rw [hex0]; exact hid0
      show (Row.update _ row).url = "https://" ++ (Row.update _ row).id ++ "." ++ c.TailscaleDomain
      rw [Row.update_id]
      by_cases hid : row.id = ex.ID
      · have hu : (Row.update (updatedEnvironment o c ex r n s w) row).url
            = CreateEnvironmentURL c (CreateEnvironmentID r n) := by
          simp [Row.update, hid, updatedEnvironment]
        rw [hu, hid, hexid]; rfl
      · have hu : Row.update (updatedEnvironment o c ex r n s w) row = row := by
          simp [Row.update, hid, updatedEnvironment]
        rw [hu]
        exact hP row hrow
    · intro r n w ex rows row hP hrow hex
      obtain ⟨row0, hrow0, hid0, hex0⟩ := hex
      have hexid : ex.ID = row0.id := by rw [hex0]; rfl
      have hexurl : ex.URL = row0.url := by rw [hex0]; rfl
      show (Row.update _ row).url = "https://" ++ (Row.update _ row).id ++ "." ++ c.TailscaleDomain
      rw [Row.update_id]
      by_cases hid : row.id = ex.ID
      · have hu : (Row.update (removedEnvironment o ex w) row).url = ex.URL := by
          simp [Row.update, hid, removedEnvironment]
        rw [hu, hexurl, hid, hexid]
        exact hP row0 hrow0
      · have hu : Row.update (removedEnvironment o ex w) row = row := by
          simp [Row.update, hid, removedEnvironment]
        rw [hu]
        exact hP row hrow

/-! ## The invariants on the scenario -/

theorem status_invariant_witness :
    ∃ w1, runCalls allSucceed exampleConfig 1
        [Call.update "widgets" 42 apiV2, Call.remove "widgets" 42, Call.create "gadgets" 7 apiV1]
        widgetsWorld = some w1 ∧
      w1.environments ≠ [] ∧
      ∀ row ∈ w1.environments, row.status = "running" ∨ row.status = "removed" :=
  ⟨_, rfl, by decide,
    status_invariant allSucceed exampleConfig 1
      [Call.update "widgets" 42 apiV2, Call.remove "widgets" 42, Call.create "gadgets" 7 apiV1]
      widgetsWorld _ (by decide) rfl⟩

theorem url_invariant_witness :
    (∃ out env, CreateEnvironment allSucceed exampleConfig 1 "widgets" 42 apiV2 widgetsWorld
        = some out ∧ out.1 = Except.ok env ∧
      env.URL = "https://" ++ env.ID ++ "." ++ exampleConfig.TailscaleDomain) ∧
    ∃ w1, runCalls allSucceed exampleConfig 1
        [Call.create "gadgets" 7 apiV1, Call.update "widgets" 42 apiV2, Call.remove "gadgets" 7]
        widgetsWorld = some w1 ∧
      w1.environments.length = 2 ∧
      ∀ row ∈ w1.environments,
        row.url = "https://" ++ row.id ++ "." ++ exampleConfig.TailscaleDomain :=
  ⟨⟨_, _, rfl, rfl,
      ((url_invariant allSucceed exampleConfig 1 widgetsWorld).1 "widgets" 42 apiV2 _ _
        (Or.inl rfl) rfl).2.1⟩,
    ⟨_, rfl, by decide,
      (url_invariant allSucceed exampleConfig 1 widgetsWorld).2
        [Call.create "gadgets" 7 apiV1, Call.update "widgets" 42 apiV2, Call.remove "gadgets" 7]
        _ (by decide) rfl⟩⟩

/-! ## Creating an environment that was removed -/

theorem Row.update_created_at (env : Environment) (row : Row) :
    (Row.update env row).created_at = row.created_at := by
  unfold Row.update
  split_ifs <;> rfl

/-- C16. When the lookup of `(r, n)` yields a record with status `removed` (and the database
answers the lookup of the update path too), a `CreateEnvironment(r, n, s)` whose provision,
start and store update succeed returns through the update path: no row is added and every row
keeps its id and creation time, the returned record has the id and creation time of the
existing one, status `running` and services `s`, the row of that id ends with status `running`
and services data that decodes to `s`, and the audit row appended (when the log insert
succeeds) has action `update` and status `success`. -/
theorem create_after_remove (o : Oracle) (c : EnvironmentConfig) (fuel : Nat) (r : String)
    (n : Int) (s : List Service) (w : World) (existing : Environment)
    (hfound : (EnvironmentRepository.Get o (CreateEnvironmentID r n) w).1 = Except.ok existing)
    (hremoved : existing.Status = "removed")
    (hagain : o.queryRow (w.count.queryRow + 1) = none)
    (hsetup : o.setup w.count.setup = none)
    (hstart : o.exec w.count.exec = none)
    (hupdate : o.updateEnvironment w.count.updateEnvironment = none) :
    ∃ env w1, CreateEnvironment o c (fuel + 1) r n s w = some (Except.ok env, w1) ∧
      env.ID = existing.ID ∧ env.ID = CreateEnvironmentID r n ∧
      env.CreatedAt = existing.CreatedAt ∧ env.Status = "running" ∧ env.Services = s ∧
      w1.environments.map (fun row => (row.id, row.created_at))
        = w.environments.map (fun row => (row.id, row.created_at)) ∧
      (∃ row ∈ w.environments, row.id = CreateEnvironmentID r n ∧ row.status = "removed") ∧
      (∃ row ∈ w1.environments, row.id = CreateEnvironmentID r n) ∧
      (∀ row ∈ w1.environments, row.id = CreateEnvironmentID r n →
        row.status = "running" ∧ jsonUnmarshalServices row.services_data.data = Except.ok s) ∧
      w1.environment_logs = w.environment_logs ++ newAuditRows w w1 ∧
      (newAuditRows w w1).length = (if o.insertLog w.count.insertLog = none then 1 else 0) ∧
      ∀ row ∈ newAuditRows w w1, row.EnvironmentID = CreateEnvironmentID r n ∧
        row.Action = "update" ∧ row.Status = "success" := by
  have hq0 := (Get_ok_inv o _ w existing hfound).1
  have hsecond : (EnvironmentRepository.Get o (CreateEnvironmentID r n) (afterLookup w)).1
      = Except.ok existing := by
    rw [Get_fst_stable o _ w hq0 hagain, hfound]
  have hexid := Get_ok_ID o _ w existing hfound
  obtain ⟨row0, hrow0, hid0, hex0⟩ := Get_ok_row o _ w existing hfound
  have hst0 : row0.status = "removed" := by
    rw [← hremoved, hex0]; rfl
  rcases updateExisting_cases o c existing r n s w with ⟨_, _, _, h1, h2⟩ | ⟨hno, _, _⟩
  swap
  · exact absurd ⟨hsetup, hstart, hupdate⟩ hno
  obtain ⟨a1, a2, a3⟩ := updateExisting_audit o c existing r n s w
  refine ⟨updatedEnvironment o c existing r n s w,
    afterLookup (afterLookup (updateExisting o c existing r n s w).2), ?_, rfl, hexid, rfl, rfl,
    rfl, ?_, ⟨row0, hrow0, hid0, hst0⟩, ?_, ?_, a1, a2, ?_⟩
  · rw [CreateEnvironment_of_ok o c fuel r n s w existing hfound,
      UpdateEnvironment_of_ok o c fuel r n s _ existing hsecond,
      updateExisting_afterLookup, updateExisting_afterLookup, h1]
  · simp only [afterLookup_environments, h2, List.map_map]
    apply List.map_congr_left
    intro row _
    simp [Row.update_id, Row.update_created_at]
  · refine ⟨Row.update (updatedEnvironment o c existing r n s w) row0, ?_, ?_⟩
    · simp only [afterLookup_environments, h2]
      exact List.mem_map_of_mem _ hrow0
    · rw [Row.update_id]; exact hid0
  · intro row hrow hid
    simp only [afterLookup_environments, h2, List.mem_map] at hrow
    obtain ⟨row1, _, rfl⟩ := hrow
    rw [Row.update_id] at hid
    have hid1 : row1.id = (updatedEnvironment o c existing r n s w).ID := by
      rw [hid]; exact hexid.symm
    have hsd : (Row.update (updatedEnvironment o c existing r n s w) row1).services_data
        = String.mk (jsonMarshalServices s) := by
      simp [Row.update, hid1, updatedEnvironment]
    have hstat : (Row.update (updatedEnvironment o c existing r n s w) row1).status
        = "running" := by
      simp [Row.update, hid1, updatedEnvironment]
    exact ⟨hstat, by rw [hsd]; exact jsonUnmarshal_jsonMarshal s⟩
  · intro row hrow
    obtain ⟨b1, b2, b3⟩ := a3 row hrow
    refine ⟨b1, b2, ?_⟩
    rcases b3 with ⟨b4, _⟩ | ⟨_, e, b5⟩
    · exact b4
    · rw [h1] at b5
      cases b5

theorem create_after_remove_witness :
    ∃ env w1, CreateEnvironment allSucceed exampleConfig 1 "widgets" 42 apiV2
        ⟨[{ widgetsRow with status := "removed" }], [], [], zeroCounters⟩ = some (Except.ok env, w1) ∧
      env.ID = "widgets-pr-42" ∧ env.CreatedAt = 100 ∧ env.Status = "running" ∧
      env.Services = apiV2 ∧ w1.environments.length = 1 ∧
      (newAuditRows ⟨[{ widgetsRow with status := "removed" }], [], [], zeroCounters⟩ w1).length = 1 ∧
      ∀ row ∈ newAuditRows ⟨[{ widgetsRow with status := "removed" }], [], [], zeroCounters⟩ w1,
        row.Action = "update" ∧ row.Status = "success" := by
  obtain ⟨env, w1, h1, h2, _, h4, h5, h6, h7, _, _, _, _, h12, h13⟩ :=
    create_after_remove allSucceed exampleConfig 0 "widgets" 42 apiV2
      ⟨[{ widgetsRow with status := "removed" }], [], [], zeroCounters⟩
      { widgetsEnvironment with Status := "removed" } (by decide) rfl rfl rfl rfl rfl
  refine ⟨env, w1, h1, ?_, ?_, h5, h6, ?_, h12, fun row hrow => (h13 row hrow).2⟩
  · exact h2.trans rfl
  · exact h4.trans rfl
  · have := congrArg List.length h7
    simpa using this

/-! ## The placeholder substitution -/

theorem replaceFrom_fuel (old new : List Char) (hold : old ≠ []) :
    ∀ (f1 f2 : Nat) (s : List Char), s.length < f1 → s.length < f2 →
      replaceFrom old new f1 s = replaceFrom old new f2 s := by
  intro f1
  induction f1 with
  | zero => intro f2 s h1; omega
  | succ f ih =>
    intro f2 s h1 h2
    cases f2 with
    | zero => omega
    | succ g =>
      unfold replaceFrom
      by_cases hp : old.isPrefixOf s = true
      · simp only [hp, if_true]
        have hlen : old.length ≤ s.length := (List.isPrefixOf_iff_prefix.mp hp).length_le
        have hpos : 0 < old.length := List.length_pos.mpr hold
        have hd : (s.drop old.length).length < s.length := by
          rw [List.length_drop]; omega
        rw [ih g (s.drop old.length) (by omega) (by omega)]
      · simp only [hp]
        cases s with
        | nil => rfl
        | cons ch rest =>
          simp only [List.length_cons] at h1 h2
          simp only [Bool.false_eq_true, if_false]
          rw [ih g rest (by omega) (by omega)]

theorem replaceFrom_absent (old new : List Char) :
    ∀ (fuel : Nat) (s : List Char), containsChars old s = false →
      replaceFrom old new fuel s = s := by
  intro fuel
  induction fuel with
  | zero => intro s _; rfl
  | succ f ih =>
    intro s h
    cases s with
    | nil =>
      simp only [containsChars] at h
      simp [replaceFrom, h]
    | cons ch rest =>
      simp only [containsChars, Bool.or_eq_false_iff] at h
      simp [replaceFrom, h.1, ih rest h.2]

/-- C20, as amended. When the substituted text contains no occurrence of the placeholder
`tailscale-subdomain`, substituting it again changes nothing; and whatever fuel above the length
of the text the scan is given, it produces the same text. -/
theorem substitute_again_is_noop (t e : String)
    (h : Contains (substituteSubdomain t e) "tailscale-subdomain" = false) :
    substituteSubdomain (substituteSubdomain t e) e = substituteSubdomain t e ∧
    ∀ fuel, t.data.length < fuel →
      String.mk (replaceFrom "tailscale-subdomain".data e.data fuel t.data)
        = substituteSubdomain t e := by
  constructor
  · have hne : "tailscale-subdomain".data ≠ [] := by decide
    unfold Contains at h
    generalize substituteSubdomain t e = u at h
    simp only [substituteSubdomain, ReplaceAll, hne, if_false]
    rw [replaceFrom_absent _ _ _ _ h]
  · intro fuel hf
    have hne : "tailscale-subdomain".data ≠ [] := by decide
    simp only [substituteSubdomain, ReplaceAll, hne, if_false]
    rw [replaceFrom_fuel _ _ hne fuel (t.data.length + 1) t.data hf (by omega)]

theorem substitute_again_is_noop_witness :
    substituteSubdomain "HOST=tailscale-subdomain.example.com" "widgets-pr-42"
      = "HOST=widgets-pr-42.example.com" ∧
    substituteSubdomain
        (substituteSubdomain "HOST=tailscale-subdomain.example.com" "widgets-pr-42")
        "widgets-pr-42"
      = substituteSubdomain "HOST=tailscale-subdomain.example.com" "widgets-pr-42" :=
  ⟨by decide,
    (substitute_again_is_noop "HOST=tailscale-subdomain.example.com" "widgets-pr-42"
      (by decide)).1⟩

/-- C20, refuted as stated: for the repository `subdomain` and PR 7 the substitution turns
`tailscale-tailscale-subdomain` into `tailscale-subdomain-pr-7`, which a second substitution
turns into `subdomain-pr-7-pr-7`. -/
theorem substitute_twice_differs :
    CreateEnvironmentID "subdomain" 7 = "subdomain-pr-7" ∧
    substituteSubdomain "tailscale-tailscale-subdomain" "subdomain-pr-7"
      = "tailscale-subdomain-pr-7" ∧
    substituteSubdomain
        (substituteSubdomain "tailscale-tailscale-subdomain" "subdomain-pr-7") "subdomain-pr-7"
      = "subdomain-pr-7-pr-7" ∧
    substituteSubdomain
        (substituteSubdomain "tailscale-tailscale-subdomain" "subdomain-pr-7") "subdomain-pr-7"
      ≠ substituteSubdomain "tailscale-tailscale-subdomain" "subdomain-pr-7" := by
  decide

/-! ## The HTTP layer: removal and listing -/

/-- C18, on the code. The store holds the row of `widgets-pr-42` and the database fails the
lookup: `RemoveEnvironment` returns its not-found error and the `DELETE` handler answers 404,
where `GetEnvironment` reports the read failure and its handler answers 500. When the row is
read and the stop fails because the shell does not find `docker`, the error is the stop failure
and the `DELETE` handler answers 404 again; with another text of the same failure it answers
500. -/
theorem remove_failures_answered_404 :
    (∃ row ∈ widgetsWorld.environments, row.id = CreateEnvironmentID "widgets" 42) ∧
    (RemoveEnvironment readFails exampleConfig "widgets" 42 widgetsWorld).1
      = Except.error "environment widgets-pr-42 not found" ∧
    (RemoveEnvironmentHandler readFails exampleConfig "widgets-pr-42" widgetsWorld).1 = 404 ∧
    (GetEnvironment readFails "widgets-pr-42" widgetsWorld).1
      = Except.error "failed to get environment: database is locked" ∧
    (GetEnvironmentHandler readFails "widgets-pr-42" widgetsWorld).1 = 500 ∧
    (RemoveEnvironment dockerMissing exampleConfig "widgets" 42 widgetsWorld).1
      = Except.error "failed to stop environment: sh: 1: docker: not found" ∧
    (RemoveEnvironmentHandler dockerMissing exampleConfig "widgets-pr-42" widgetsWorld).1 = 404 ∧
    (RemoveEnvironmentHandler execFails exampleConfig "widgets-pr-42" widgetsWorld).1 = 500 := by
  decide

theorem scanRows_toRow (rows : List Row) : ∀ envs, scanRows rows = Except.ok envs →
    envs.map Environment.toRow = rows ∧
    ∀ e ∈ envs, (e.toRow.scan).UnmarshalServices = Except.ok e := by
  induction rows with
  | nil =>
    intro envs h
    simp only [scanRows, Except.ok.injEq] at h
    subst h
    exact ⟨rfl, by simp⟩
  | cons a t ih =>
    intro envs h
    unfold scanRows at h
    cases hu : (a.scan).UnmarshalServices with
    | error m => simp [hu] at h
    | ok e1 =>
      cases hs : scanRows t with
      | error m => simp [hu, hs] at h
      | ok es =>
        simp only [hu, hs, Except.ok.injEq] at h
        subst h
        have h1 := UnmarshalServices_ok_inv _ _ hu
        have h2 : e1.toRow = a := by rw [h1]; rfl
        obtain ⟨ih1, ih2⟩ := ih es hs
        refine ⟨by simp [h2, ih1], ?_⟩
        intro e he
        rcases List.mem_cons.mp he with h3 | h3
        · subst h3
          rw [h2]; exact hu
        · exact ih2 e h3

theorem selects_iff (f : Filters) (row : Row) :
    f.selects row = true ↔
      (∀ st, f.status = some st → st ≠ "" → row.status = st) ∧
      (∀ n, f.prNumber = some n → 0 < n → row.pr_number = n) ∧
      (∀ rn, f.repositoryName = some rn → rn ≠ "" → row.repository_name = rn) := by
  obtain ⟨fs, fp, fr⟩ := f
  cases fs <;> cases fp <;> cases fr <;>
    simp [Filters.selects, -not_lt] <;> tauto

/-- C19, as amended. When the query and the decoding of the rows do not fail, `List` returns
the records of exactly the rows that equal every filter that applies, combined with AND, newest
creation time first. A status or repository name filter applies when it is given and not empty;
a PR number filter applies when it is given and positive, and a PR number filter of 0 or below
selects nothing out: the rows of every PR number are returned. -/
theorem list_filters_and_order (o : Oracle) (f : Filters) (w : World)
    (hq : o.query w.count.query = none)
    (hdec : ∀ row ∈ w.environments, ∃ e, (row.scan).UnmarshalServices = Except.ok e) :
    ∃ envs, (EnvironmentRepository.List o f w).1 = Except.ok envs ∧
      (ListEnvironments o f w).1 = Except.ok envs ∧
      (envs.map Environment.toRow).Perm (w.environments.filter f.selects) ∧
      envs.Pairwise (fun a b => b.CreatedAt ≤ a.CreatedAt) ∧
      (∀ e ∈ envs, (e.toRow.scan).UnmarshalServices = Except.ok e) ∧
      (∀ row, f.selects row = true ↔
        (∀ st, f.status = some st → st ≠ "" → row.status = st) ∧
        (∀ n, f.prNumber = some n → 0 < n → row.pr_number = n) ∧
        (∀ rn, f.repositoryName = some rn → rn ≠ "" → row.repository_name = rn)) := by
  have hperm := List.perm_insertionSort (fun a b : Row => b.created_at ≤ a.created_at)
    (w.environments.filter f.selects)
  have hdec1 : ∀ row ∈ (w.environments.filter f.selects).insertionSort
      (fun a b => b.created_at ≤ a.created_at),
      ∃ e, (row.scan).UnmarshalServices = Except.ok e := by
    intro row hrow
    rw [hperm.mem_iff, List.mem_filter] at hrow
    exact hdec row hrow.1
  obtain ⟨envs, hs, _⟩ := scanRows_ok _ hdec1
  obtain ⟨hrows, hdecoded⟩ := scanRows_toRow _ envs hs
  have hlist : (EnvironmentRepository.List o f w).1 = Except.ok envs := by
    rw [List_fst o f w hq, hs]
  refine ⟨envs, hlist, ?_, ?_, ?_, ?_, selects_iff f⟩
  · unfold ListEnvironments
    rcases hl : EnvironmentRepository.List o f w with ⟨a, b⟩
    rw [hl] at hlist
    simp only at hlist
    subst hlist
    rfl
  · rw [hrows]; exact hperm
  · haveI : IsTotal Row (fun a b => b.created_at ≤ a.created_at) :=
      ⟨fun a b => Nat.le_total b.created_at a.created_at⟩
    haveI : IsTrans Row (fun a b => b.created_at ≤ a.created_at) :=
      ⟨fun a b c hab hbc => Nat.le_trans hbc hab⟩
    have hsorted := List.sorted_insertionSort (fun a b : Row => b.created_at ≤ a.created_at)
      (w.environments.filter f.selects)
    rw [← hrows] at hsorted
    exact List.pairwise_map.mp hsorted
  · exact hdecoded

theorem list_filters_and_order_witness :
    (∃ envs, (EnvironmentRepository.List allSucceed ⟨some "running", some 42, none⟩
        twoRowsWorld).1 = Except.ok envs ∧
      (envs.map Environment.toRow).Perm [widgetsRow] ∧
      envs.Pairwise (fun a b => b.CreatedAt ≤ a.CreatedAt)) ∧
    (EnvironmentRepository.List allSucceed ⟨some "running", none, none⟩ twoRowsWorld).1
      = Except.ok [gadgetsEnvironment, widgetsEnvironment] := by
  refine ⟨?_, by decide⟩
  obtain ⟨envs, h1, _, h3, h4, _⟩ :=
    list_filters_and_order allSucceed ⟨some "running", some 42, none⟩ twoRowsWorld rfl
      (by
        intro row hrow
        have hrow1 : row = widgetsRow ∨ row = gadgetsRow := by
          simpa [twoRowsWorld] using hrow
        rcases hrow1 with rfl | rfl
        · exact ⟨widgetsEnvironment, by decide⟩
        · exact ⟨gadgetsEnvironment, by decide⟩)
  exact ⟨envs, h1, h3, h4⟩

/-- C19, refuted as stated: the query `pr_number=0` (and `pr_number=-1`) reaches the store as a
PR number filter, and the list returned holds the record of PR 42. -/
theorem list_pr_filter_zero_selects_all :
    listFilters "" "" "0" = ⟨none, some 0, none⟩ ∧
    (ListEnvironmentsHandler allSucceed "" "" "0" widgetsWorld).1 = (200, [widgetsEnvironment]) ∧
    listFilters "" "" "-1" = ⟨none, some (-1), none⟩ ∧
    (ListEnvironmentsHandler allSucceed "" "" "-1" widgetsWorld).1 = (200, [widgetsEnvironment]) ∧
    widgetsEnvironment.PRNumber = 42 := by
  decide

/-! ## Lemmas: the decimal text of an integer -/

theorem digitChar_toNat (m : Nat) (h : m < 10) : (Nat.digitChar m).toNat = 48 + m := by
  interval_cases m <;> rfl

theorem isDigit_digitChar (m : Nat) (h : m < 10) : isDigit (Nat.digitChar m) = true := by
  interval_cases m <;> rfl

theorem digitsValue_append (a : List Char) (ch : Char) :
    digitsValue (a ++ [ch]) = digitsValue a * 10 + (ch.toNat - 48) := by
  simp [digitsValue, List.foldl_append]

theorem toDigitsCore_spec : ∀ (fuel n : Nat) (ds : List Char), n < fuel →
    ∃ pre, Nat.toDigitsCore 10 fuel n ds = pre ++ ds ∧ pre ≠ [] ∧
      (∀ ch ∈ pre, isDigit ch = true) ∧ digitsValue pre = n := by
  intro fuel
  induction fuel with
  | zero => intro n ds h; omega
  | succ f ih =>
    intro n ds h
    have hmod : n % 10 < 10 := Nat.mod_lt _ (by decide)
    unfold Nat.toDigitsCore
    by_cases h0 : n / 10 = 0
    · simp only [h0, if_true]
      refine ⟨[Nat.digitChar (n % 10)], rfl, by simp, ?_, ?_⟩
      · intro ch hch
        rw [List.mem_singleton.mp hch]
        exact isDigit_digitChar _ hmod
      · have hn : n % 10 = n := Nat.mod_eq_of_lt (by omega)
        have hd := digitChar_toNat _ hmod
        simp only [digitsValue, List.foldl_cons, List.foldl_nil, hd]
        omega
    · simp only [h0, if_false]
      obtain ⟨pre, h1, _, h3, h4⟩ := ih (n / 10) (Nat.digitChar (n % 10) :: ds) (by omega)
      refine ⟨pre ++ [Nat.digitChar (n % 10)], by rw [h1]; simp, by simp, ?_, ?_⟩
      · intro ch hch
        rcases List.mem_append.mp hch with h5 | h5
        · exact h3 ch h5
        · rw [List.mem_singleton.mp h5]
          exact isDigit_digitChar _ hmod
      · rw [digitsValue_append, h4, digitChar_toNat _ hmod]
        omega

theorem toDigits_spec (n : Nat) :
    Nat.toDigits 10 n ≠ [] ∧ (∀ ch ∈ Nat.toDigits 10 n, isDigit ch = true) ∧
      digitsValue (Nat.toDigits 10 n) = n := by
  obtain ⟨pre, h1, h2, h3, h4⟩ := toDigitsCore_spec (n + 1) n [] (by omega)
  have h : Nat.toDigits 10 n = pre := by
    unfold Nat.toDigits
    rw [h1, List.append_nil]
  rw [h]
  exact ⟨h2, h3, h4⟩

/-- The text `%d` prints for an integer: an optional minus sign and the decimal digits of the
absolute value. -/
theorem decimal_shape (n : Int) :
    ∃ sign ds, (toString n).data = sign ++ ds ∧
      ((sign = [] ∧ 0 ≤ n) ∨ (sign = ['-'] ∧ n < 0)) ∧
      ds ≠ [] ∧ (∀ ch ∈ ds, isDigit ch = true) ∧ digitsValue ds = n.natAbs := by
  cases n with
  | ofNat m =>
    obtain ⟨h1, h2, h3⟩ := toDigits_spec m
    exact ⟨[], Nat.toDigits 10 m, rfl, Or.inl ⟨rfl, Int.ofNat_nonneg m⟩, h1, h2, h3⟩
  | negSucc m =>
    obtain ⟨h1, h2, h3⟩ := toDigits_spec (m + 1)
    exact ⟨['-'], Nat.toDigits 10 (m + 1), rfl, Or.inr ⟨rfl, Int.negSucc_lt_zero m⟩, h1, h2, h3⟩

theorem isDigit_ne (ch : Char) (h : isDigit ch = true) : ch ≠ '-' ∧ ch ≠ '+' ∧ ch ≠ 'p' := by
  refine ⟨?_, ?_, ?_⟩ <;> (rintro rfl; revert h; decide)

theorem Atoi_toString (n : Int) (hlo : -(2 ^ 63 : Int) ≤ n) (hhi : n < 2 ^ 63) :
    Atoi (toString n) = some n := by
  obtain ⟨sign, ds, hdata, hsign, hne, hdig, hval⟩ := decimal_shape n
  have hall : ds.all isDigit = true := by
    rw [List.all_eq_true]; exact hdig
  rcases hsign with ⟨rfl, hn⟩ | ⟨rfl, hn⟩
  · cases ds with
    | nil => exact absurd rfl hne
    | cons ch rest =>
      have hch := isDigit_ne ch (hdig ch (List.mem_cons_self _ _))
      have hv : (digitsValue (ch :: rest) : Int) = n := by
        rw [hval]; omega
      have hlt : digitsValue (ch :: rest) < 9223372036854775808 := by
        rw [hval]; omega
      simp only [List.nil_append] at hdata
      simp [Atoi, hdata, hch.1, hch.2.1, hall, hlt, hv]
  · have hv : -(digitsValue ds : Int) = n := by
      rw [hval]; omega
    have hle : digitsValue ds ≤ 9223372036854775808 := by
      rw [hval]; omega
    simp only [List.singleton_append] at hdata
    simp [Atoi, hdata, hne, hall, hle, hv]

/-! ## Lemmas: splitting an environment id -/

theorem containsChars_tail (sep : List Char) (ch : Char) (rest : List Char)
    (h : containsChars sep (ch :: rest) = false) : containsChars sep rest = false := by
  simp only [containsChars, Bool.or_eq_false_iff] at h
  exact h.2

theorem containsChars_head (sep : List Char) (s : List Char)
    (h : containsChars sep s = false) : sep.isPrefixOf s = false := by
  cases s with
  | nil => simpa [containsChars] using h
  | cons ch rest =>
    simp only [containsChars, Bool.or_eq_false_iff] at h
    exact h.1

theorem splitFrom_absent (sep : List Char) : ∀ (fuel : Nat) (s cur : List Char),
    containsChars sep s = false → splitFrom sep fuel s cur = [cur ++ s] := by
  intro fuel
  induction fuel with
  | zero => intro s cur _; rfl
  | succ f ih =>
    intro s cur h
    have hp := containsChars_head sep s h
    cases s with
    | nil => simp [splitFrom, hp]
    | cons ch rest =>
      simp [splitFrom, hp, ih rest (cur ++ [ch]) (containsChars_tail sep ch rest h)]

theorem isPrefixOf_pr_inside (a b : List Char) (ha : a ≠ [])
    (h : containsChars ['-', 'p', 'r', '-'] (a ++ ['-']) = false) :
    List.isPrefixOf ['-', 'p', 'r', '-'] (a ++ ['-', 'p', 'r', '-'] ++ b) = false := by
  have hp := containsChars_head _ _ h
  match a, ha, hp with
  | [c1], _, _ =>
    by_cases h1 : c1 = '-' <;> simp [List.isPrefixOf, h1, eq_comm]
  | [c1, c2], _, _ =>
    by_cases h1 : c1 = '-' <;> by_cases h2 : c2 = 'p' <;> simp [List.isPrefixOf, h1, h2, eq_comm]
  | [c1, c2, c3], _, hp =>
    simpa [List.isPrefixOf] using hp
  | c1 :: c2 :: c3 :: c4 :: rest, _, hp =>
    simpa [List.isPrefixOf] using hp

theorem splitFrom_step (sep : List Char) (f : Nat) (ch : Char) (rest cur : List Char)
    (hp : sep.isPrefixOf (ch :: rest) = false) :
    splitFrom sep (f + 1) (ch :: rest) cur = splitFrom sep f rest (cur ++ [ch]) := by
  simp [splitFrom, hp]

theorem splitFrom_at_separator (b : List Char) : ∀ (a cur : List Char) (fuel : Nat),
    a.length < fuel → containsChars ['-', 'p', 'r', '-'] (a ++ ['-']) = false →
    splitFrom ['-', 'p', 'r', '-'] fuel (a ++ ['-', 'p', 'r', '-'] ++ b) cur
      = (cur ++ a) :: splitFrom ['-', 'p', 'r', '-'] (fuel - a.length - 1) b [] := by
  intro a
  induction a with
  | nil =>
    intro cur fuel hf _
    cases fuel with
    | zero => simp at hf
    | succ f => simp [splitFrom, List.isPrefixOf]
  | cons ch rest ih =>
    intro cur fuel hf h
    cases fuel with
    | zero => simp at hf
    | succ f =>
      have hp := isPrefixOf_pr_inside (ch :: rest) b (by simp) h
      have htail := containsChars_tail _ ch (rest ++ ['-']) (by simpa using h)
      simp only [List.length_cons] at hf
      have hfuel : f + 1 - (rest.length + 1) - 1 = f - rest.length - 1 := by omega
      simp only [List.cons_append, List.length_cons] at hp ⊢
      rw [splitFrom_step _ _ _ _ _ (by simpa using hp)]
      rw [ih (cur ++ [ch]) f (by omega) htail, hfuel]
      simp

theorem containsChars_pr_digits (b : List Char) (h : ∀ ch ∈ b, ch ≠ 'p') :
    containsChars ['-', 'p', 'r', '-'] b = false := by
  induction b with
  | nil => rfl
  | cons c1 rest ih =>
    have ih1 := ih (fun ch hch => h ch (List.mem_cons_of_mem _ hch))
    simp only [containsChars, ih1, Bool.or_false]
    cases rest with
    | nil => simp [List.isPrefixOf]
    | cons c2 rest2 =>
      have h2 : ('p' == c2) = false := by
        rw [beq_eq_false_iff_ne]
        exact Ne.symm (h c2 (by simp))
      simp [List.isPrefixOf, h2]

theorem decimal_no_p (n : Int) : ∀ ch ∈ (toString n).data, ch ≠ 'p' := by
  obtain ⟨sign, ds, hdata, hsign, _, hdig, _⟩ := decimal_shape n
  intro ch hch
  rw [hdata] at hch
  rcases List.mem_append.mp hch with h1 | h1
  · rcases hsign with ⟨rfl, _⟩ | ⟨rfl, _⟩
    · simp at h1
    · rw [List.mem_singleton.mp h1]; decide
  · exact (isDigit_ne ch (hdig ch h1)).2.2

theorem CreateEnvironmentID_data (r : String) (n : Int) :
    (CreateEnvironmentID r n).data = r.data ++ ['-', 'p', 'r', '-'] ++ (toString n).data := by
  simp [CreateEnvironmentID, String.data_append]

theorem Split_CreateEnvironmentID (r : String) (n : Int)
    (hr : Contains (r ++ "-") "-pr-" = false) :
    Split (CreateEnvironmentID r n) "-pr-" = [r, toString n] := by
  have hr1 : containsChars ['-', 'p', 'r', '-'] (r.data ++ ['-']) = false := by
    simpa [Contains, String.data_append] using hr
  have hsep : ("-pr-" : String).data = ['-', 'p', 'r', '-'] := rfl
  have hne : ¬ (("-pr-" : String).data = []) := by decide
  simp only [Split, hne, if_false, CreateEnvironmentID_data, hsep]
  rw [splitFrom_at_separator _ _ _ _ (by simp; omega) hr1,
    splitFrom_absent _ _ _ _ (containsChars_pr_digits _ (decimal_no_p n))]
  simp

/-! ## The handlers and the environment id -/

/-- Where the split of the handlers does recover the pair: for every repository name `r` such
that `r` followed by `-` contains no `-pr-` (`r` neither contains `-pr-` nor ends in `-pr`) and
every PR number `n` in the range of `int`, the split the update and remove handlers apply to
`environmentID(r, n)` yields exactly the two parts `r` and the decimal text of `n`, the PR
number read is `n` and the repository name obtained is `r`; the remove handler then removes
`(r, n)`. -/
theorem split_recovers_pair (o : Oracle) (c : EnvironmentConfig) (r : String) (n : Int)
    (w : World)
    (hr : Contains (r ++ "-") "-pr-" = false)
    (hlo : -(2 ^ 63 : Int) ≤ n) (hhi : n < 2 ^ 63) :
    Split (CreateEnvironmentID r n) "-pr-" = [r, toString n] ∧
    Atoi (toString n) = some n ∧
    splitEnvironmentID (CreateEnvironmentID r n) = Except.ok (r, n) ∧
    (RemoveEnvironmentHandler o c (CreateEnvironmentID r n) w).2
      = (RemoveEnvironment o c r n w).2 := by
  have h1 := Split_CreateEnvironmentID r n hr
  have h2 := Atoi_toString n hlo hhi
  have h3 : splitEnvironmentID (CreateEnvironmentID r n) = Except.ok (r, n) := by
    simp only [splitEnvironmentID, h1, h2]
  refine ⟨h1, h2, h3, ?_⟩
  simp only [RemoveEnvironmentHandler, h3]
  rcases RemoveEnvironment o c r n w with ⟨res, w1⟩
  cases res with
  | error e => by_cases hc : Contains e "not found" = true <;> simp [hc]
  | ok env => rfl

theorem split_recovers_pair_witness :
    splitEnvironmentID (CreateEnvironmentID "widgets" 42) = Except.ok ("widgets", 42) ∧
    splitEnvironmentID (CreateEnvironmentID "widgets" (-3)) = Except.ok ("widgets", -3) :=
  ⟨(split_recovers_pair allSucceed exampleConfig "widgets" 42 widgetsWorld (by decide)
      (by decide) (by decide)).2.2.1,
    (split_recovers_pair allSucceed exampleConfig "widgets" (-3) widgetsWorld (by decide)
      (by decide) (by decide)).2.2.1⟩

/-- C15, on the code. The create handler accepts the repository name `my-pr-app`, whose `-pr-`
is followed by `app` and no integer, and creates the environment `my-pr-app-pr-7`; the id
splits into three parts, and the remove handler and the update handler answer 400 for it, the
environment being in the store. The repository name `a-pr` contains no `-pr-` at all; the id of
its PR 5 splits at the leftmost `-pr-` into `a` and `pr-5`, and the handlers answer 400. -/
theorem split_fails_on_pr_in_name :
    Split "my-pr-app" "-pr-" = ["my", "app"] ∧ Atoi "app" = none ∧
    CreateEnvironmentID "my-pr-app" 7 = "my-pr-app-pr-7" ∧
    Split (CreateEnvironmentID "my-pr-app" 7) "-pr-" = ["my", "app", "7"] ∧
    splitEnvironmentID (CreateEnvironmentID "my-pr-app" 7)
      = Except.error (400, "Invalid environment ID format. Expected format: \x7brepository_name\x7d-pr-\x7bpr_number\x7d") ∧
    (CreateEnvironmentHandler (CreateEnvironment allSucceed exampleConfig 1) prAppCreateBody
      emptyWorld).map
        (fun p => (p.1.1, p.1.2.map (fun e => e.ID), p.2.environments.map (fun row => row.id),
          (RemoveEnvironmentHandler allSucceed exampleConfig "my-pr-app-pr-7" p.2).1,
          (UpdateEnvironmentHandler (UpdateEnvironment allSucceed exampleConfig 1)
            "my-pr-app-pr-7" prAppCreateBody p.2).map (fun q => q.1.1)))
      = some (201, some "my-pr-app-pr-7", ["my-pr-app-pr-7"], 400, some 400) ∧
    Contains "a-pr" "-pr-" = false ∧
    Split (CreateEnvironmentID "a-pr" 5) "-pr-" = ["a", "pr-5"] ∧
    Atoi "pr-5" = none ∧
    splitEnvironmentID (CreateEnvironmentID "a-pr" 5)
      = Except.error (400, "Invalid PR number in environment ID") := by
  decide

/-! ## Lemmas: the environment id determines the repository name and the PR number -/

theorem span_digits (ds rest : List Char) (ch : Char) (hds : ∀ d ∈ ds, isDigit d = true)
    (hch : isDigit ch = false) :
    (ds ++ ch :: rest).takeWhile isDigit = ds ∧ (ds ++ ch :: rest).dropWhile isDigit = ch :: rest := by
  induction ds with
  | nil => simp [List.takeWhile, List.dropWhile, hch]
  | cons d t ih =>
    have hd := hds d (List.mem_cons_self _ _)
    obtain ⟨ih1, ih2⟩ := ih (fun x hx => hds x (List.mem_cons_of_mem _ hx))
    simp [List.takeWhile, List.dropWhile, hd, ih1, ih2]

theorem reversed_id (r : List Char) (sign ds : List Char) :
    (r ++ ['-', 'p', 'r', '-'] ++ (sign ++ ds)).reverse
      = ds.reverse ++ (sign.reverse ++ '-' :: 'r' :: 'p' :: '-' :: r.reverse) := by
  simp

theorem CreateEnvironmentID_injective (r1 r2 : String) (n1 n2 : Int)
    (h : CreateEnvironmentID r1 n1 = CreateEnvironmentID r2 n2) : r1 = r2 ∧ n1 = n2 := by
  have hd := congrArg String.data h
  rw [CreateEnvironmentID_data, CreateEnvironmentID_data] at hd
  obtain ⟨s1, d1, hdata1, hsign1, _, hdig1, hval1⟩ := decimal_shape n1
  obtain ⟨s2, d2, hdata2, hsign2, _, hdig2, hval2⟩ := decimal_shape n2
  rw [hdata1, hdata2] at hd
  have hrev := congrArg List.reverse hd
  rw [reversed_id, reversed_id] at hrev
  have hdash : isDigit '-' = false := by decide
  have hdr1 : ∀ d ∈ d1.reverse, isDigit d = true := fun d hd => hdig1 d (List.mem_reverse.mp hd)
  have hdr2 : ∀ d ∈ d2.reverse, isDigit d = true := fun d hd => hdig2 d (List.mem_reverse.mp hd)
  have hfinish : d1 = d2 → (s1 = s2) → r1.data = r2.data → r1 = r2 ∧ n1 = n2 := by
    intro hdd hss hrr
    refine ⟨String.ext hrr, ?_⟩
    have habs : n1.natAbs = n2.natAbs := by rw [← hval1, ← hval2, hdd]
    rcases hsign1 with ⟨e1, p1⟩ | ⟨e1, p1⟩ <;> rcases hsign2 with ⟨e2, p2⟩ | ⟨e2, p2⟩
    · omega
    · rw [e1, e2] at hss; cases hss
    · rw [e1, e2] at hss; cases hss
    · omega
  rcases hsign1 with ⟨e1, p1⟩ | ⟨e1, p1⟩ <;> rcases hsign2 with ⟨e2, p2⟩ | ⟨e2, p2⟩
  all_goals
    subst e1 e2
    simp only [List.reverse_nil, List.nil_append, List.reverse_cons, List.singleton_append]
      at hrev
    have t1 := congrArg (List.takeWhile isDigit) hrev
    have t2 := congrArg (List.dropWhile isDigit) hrev
    rw [(span_digits _ _ _ hdr1 hdash).1, (span_digits _ _ _ hdr2 hdash).1] at t1
    rw [(span_digits _ _ _ hdr1 hdash).2, (span_digits _ _ _ hdr2 hdash).2] at t2
    have hdd : d1 = d2 := List.reverse_injective t1
    simp only [List.cons.injEq, true_and] at t2
  · exact hfinish hdd rfl (List.reverse_injective t2)
  · exact absurd t2.1 (by decide)
  · exact absurd t2.1 (by decide)
  · exact hfinish hdd rfl (List.reverse_injective t2)

theorem Row.update_key (env : Environment) (row : Row)
    (h : row.id = env.ID → row.repository_name = env.RepositoryName) :
    (fun x : Row => (x.id, x.repository_name, x.pr_number)) (Row.update env row)
      = (fun x : Row => (x.id, x.repository_name, x.pr_number)) row := by
  unfold Row.update
  split_ifs with hid
  · simp [h hid]
  · rfl

/-- One call keeps the identity of every row: the ids, repository names and PR numbers of the
rows present before are a prefix of those present afterwards, and every row still has the id of
its repository name and PR number. -/
theorem runCall_identity (o : Oracle) (c : EnvironmentConfig) (fuel : Nat) (call : Call)
    (w w1 : World)
    (hinv : ∀ row ∈ w.environments,
      row.id = CreateEnvironmentID row.repository_name row.pr_number)
    (h : runCall o c fuel call w = some w1) :
    (∀ row ∈ w1.environments,
      row.id = CreateEnvironmentID row.repository_name row.pr_number) ∧
    w.environments.map (fun x => (x.id, x.repository_name, x.pr_number))
      <+: w1.environments.map (fun x => (x.id, x.repository_name, x.pr_number)) := by
  have hmapped : ∀ env : Environment,
      (∀ row ∈ w.environments, row.id = env.ID → row.repository_name = env.RepositoryName) →
      w1.environments = w.environments.map (Row.update env) →
      (∀ row ∈ w1.environments,
        row.id = CreateEnvironmentID row.repository_name row.pr_number) ∧
      w.environments.map (fun x => (x.id, x.repository_name, x.pr_number))
        <+: w1.environments.map (fun x => (x.id, x.repository_name, x.pr_number)) := by
    intro env hname h1
    have hkeys : w1.environments.map (fun x => (x.id, x.repository_name, x.pr_number))
        = w.environments.map (fun x => (x.id, x.repository_name, x.pr_number)) := by
      rw [h1, List.map_map]
      apply List.map_congr_left
      intro row hrow
      exact Row.update_key env row (hname row hrow)
    refine ⟨?_, by rw [hkeys]⟩
    intro row hrow
    rw [h1] at hrow
    obtain ⟨row1, hrow1, rfl⟩ := List.mem_map.mp hrow
    have hk := Row.update_key env row1 (hname row1 hrow1)
    simp only [Prod.mk.injEq] at hk
    rw [hk.1, hk.2.1, hk.2.2]
    exact hinv row1 hrow1
  rcases runCall_environments o c fuel call w w1 h with
    h1 | ⟨r, n, s, _, h1⟩ | ⟨r, n, s, ex, ⟨row0, hrow0, hid0, hex0⟩, h1⟩ |
    ⟨r, n, ex, ⟨row0, hrow0, hid0, hex0⟩, h1⟩
  · rw [h1]
    exact ⟨hinv, List.prefix_refl _⟩
  · rw [h1]
    refine ⟨?_, by rw [List.map_append]; exact List.prefix_append _ _⟩
    intro row hrow
    rcases List.mem_append.mp hrow with h2 | h2
    · exact hinv row h2
    · rw [List.mem_singleton.mp h2]; rfl
  · apply hmapped _ _ h1
    intro row hrow hid
    have hexid : ex.ID = row0.id := by rw [hex0]; rfl
    have hid1 : row.id = CreateEnvironmentID r n := by
      rw [hid]; exact hexid.trans hid0
    rw [hinv row hrow] at hid1
    exact (CreateEnvironmentID_injective _ _ _ _ hid1).1
  · apply hmapped _ _ h1
    intro row hrow hid
    have hexid : ex.ID = row0.id := by rw [hex0]; rfl
    have hexname : ex.RepositoryName = row0.repository_name := by rw [hex0]; rfl
    have hid1 : row.id = row0.id := by
      rw [hid]; exact hexid
    rw [hinv row hrow, hinv row0 hrow0] at hid1
    exact ((CreateEnvironmentID_injective _ _ _ _ hid1).1).trans hexname.symm

/-! ## Identity of the stored records -/

/-- C14. In a store whose rows all have the id of their repository name and PR number, no
sequence of create, update and remove calls changes the repository name or the PR number of a
row that exists: the ids, repository names and PR numbers of the rows present before are, in
order, those of the first rows present afterwards, and every row afterwards still has the id of
its repository name and PR number. -/
theorem identity_preserved (o : Oracle) (c : EnvironmentConfig) (fuel : Nat) (calls : List Call)
    (w w1 : World)
    (hinv : ∀ row ∈ w.environments,
      row.id = CreateEnvironmentID row.repository_name row.pr_number)
    (hrun : runCalls o c fuel calls w = some w1) :
    (∀ row ∈ w1.environments,
      row.id = CreateEnvironmentID row.repository_name row.pr_number) ∧
    w.environments.map (fun x => (x.id, x.repository_name, x.pr_number))
      <+: w1.environments.map (fun x => (x.id, x.repository_name, x.pr_number)) := by
  induction calls generalizing w with
  | nil =>
    simp only [runCalls, Option.some.injEq] at hrun
    subst hrun
    exact ⟨hinv, List.prefix_refl _⟩
  | cons call rest ih =>
    unfold runCalls at hrun
    cases hc : runCall o c fuel call w with
    | none => simp [hc] at hrun
    | some w2 =>
      simp only [hc] at hrun
      obtain ⟨h1, h2⟩ := runCall_identity o c fuel call w w2 hinv hc
      obtain ⟨h3, h4⟩ := ih w2 h1 hrun
      exact ⟨h3, h2.trans h4⟩

theorem identity_preserved_witness :
    ∃ w1, runCalls allSucceed exampleConfig 1
        [Call.update "widgets" 42 apiV2, Call.create "gadgets" 7 apiV1, Call.remove "widgets" 42]
        widgetsWorld = some w1 ∧
      [("widgets-pr-42", "widgets", (42 : Int))]
        <+: w1.environments.map (fun x => (x.id, x.repository_name, x.pr_number)) :=
  ⟨_, rfl,
    (identity_preserved allSucceed exampleConfig 1
      [Call.update "widgets" 42 apiV2, Call.create "gadgets" 7 apiV1, Call.remove "widgets" 42]
      widgetsWorld _ (by decide) rfl).2⟩

/-! ## The environment id, the delegation, the stop and the services round trip -/

/-! ## Lemmas: the directory of an environment -/

theorem splitOnSlash_ne_nil (s : List Char) : splitOnSlash s ≠ [] := by
  cases s with
  | nil => simp [splitOnSlash]
  | cons ch rest =>
    unfold splitOnSlash
    by_cases h : ch = '/'
    · simp [h]
    · simp only [h, if_false]
      cases splitOnSlash rest <;> simp

theorem splitOnSlash_no_slash (b : List Char) (h : '/' ∉ b) : splitOnSlash b = [b] := by
  induction b with
  | nil => rfl
  | cons ch rest ih =>
    have h1 : ch ≠ '/' := fun e => h (by simp [e])
    have h2 : '/' ∉ rest := fun e => h (List.mem_cons_of_mem _ e)
    simp [splitOnSlash, h1, ih h2]

theorem splitOnSlash_append (a b : List Char) :
    splitOnSlash (a ++ '/' :: b) = splitOnSlash a ++ splitOnSlash b := by
  induction a with
  | nil => simp [splitOnSlash]
  | cons ch rest ih =>
    by_cases h : ch = '/'
    · simp [splitOnSlash, h, ih]
    · simp only [List.cons_append, splitOnSlash, h, if_false, List.append_eq]
      rw [ih]
      cases hs : splitOnSlash rest with
      | nil => exact absurd hs (splitOnSlash_ne_nil rest)
      | cons part parts => simp

theorem joinParts_append_singleton (pre : List (List Char)) (x : List Char) :
    joinParts (pre ++ [x]) = (if pre = [] then [] else joinParts pre ++ ['/']) ++ x := by
  induction pre with
  | nil => simp [joinParts]
  | cons p t ih =>
    cases t with
    | nil => simp [joinParts]
    | cons q rest =>
      have ih1 : joinParts (q :: (rest ++ [x])) = joinParts (q :: rest) ++ '/' :: x := by
        simpa using ih
      show p ++ '/' :: joinParts (q :: (rest ++ [x])) = _
      rw [ih1]
      simp [joinParts]

/-- The join of a directory and a single path element that is no `.` or `..`: a text that
depends on the directory only, followed by the element. -/
theorem filepathJoin_element (a : String) :
    ∃ pre : List Char, ∀ b : String, '/' ∉ b.data → b.data ≠ [] → b.data ≠ ['.'] →
      b.data ≠ ['.', '.'] → (filepathJoin a b).data = pre ++ b.data := by
  by_cases ha : a = ""
  · refine ⟨[], ?_⟩
    intro b hs h0 h1 h2
    have hb : b ≠ "" := fun e => h0 (by rw [e])
    have hhead : ¬ (b.data.head? = some '/') := by
      intro e
      cases hd : b.data with
      | nil => exact h0 hd
      | cons ch rest =>
        rw [hd] at e hs
        simp only [List.head?_cons, Option.some.injEq] at e
        exact hs (by simp [e])
    simp [filepathJoin, ha, hb, filepathClean, hhead, splitOnSlash_no_slash _ hs, cleanStep,
      h0, h1, h2, joinParts]
  · have hadata : a.data ≠ [] := fun e => ha (String.ext e)
    refine ⟨(if a.data.head? = some '/' then ['/'] else []) ++
      (if ((splitOnSlash a.data).foldl
            (cleanStep (decide (a.data.head? = some '/'))) []).reverse = [] then []
        else joinParts ((splitOnSlash a.data).foldl
            (cleanStep (decide (a.data.head? = some '/'))) []).reverse ++ ['/']), ?_⟩
    intro b hs h0 h1 h2
    have hb : b ≠ "" := fun e => h0 (by rw [e])
    have hhead : (a.data ++ '/' :: b.data).head? = a.data.head? := by
      cases hd : a.data with
      | nil => exact absurd hd hadata
      | cons ch rest => rfl
    have hstep : ∀ rooted stack, cleanStep rooted stack b.data = b.data :: stack := by
      intro rooted stack
      simp [cleanStep, h0, h1, h2]
    simp only [filepathJoin, ha, hb, if_false, filepathClean, hhead, splitOnSlash_append,
      splitOnSlash_no_slash _ hs, List.foldl_append, List.foldl_cons, List.foldl_nil, hstep,
      List.reverse_cons, joinParts_append_singleton]
    by_cases hr : a.data.head? = some '/'
    · simp [hr]
    · have hne : ∀ x : List Char, x ++ b.data ≠ [] := fun x e =>
        h0 (List.append_eq_nil.mp e).2
      simp [hr, hne, h0]

theorem decimal_no_slash (n : Int) : ∀ ch ∈ (toString n).data, ch ≠ '/' := by
  obtain ⟨sign, ds, hdata, hsign, _, hdig, _⟩ := decimal_shape n
  intro ch hch
  rw [hdata] at hch
  rcases List.mem_append.mp hch with h1 | h1
  · rcases hsign with ⟨rfl, _⟩ | ⟨rfl, _⟩
    · simp at h1
    · rw [List.mem_singleton.mp h1]; decide
  · intro e
    have := hdig ch h1
    rw [e] at this
    revert this
    decide

theorem CreateEnvironmentID_element (r : String) (n : Int) (h : '/' ∉ r.data) :
    '/' ∉ (CreateEnvironmentID r n).data ∧ (CreateEnvironmentID r n).data ≠ [] ∧
    (CreateEnvironmentID r n).data ≠ ['.'] ∧ (CreateEnvironmentID r n).data ≠ ['.', '.'] := by
  have hp : 'p' ∈ (CreateEnvironmentID r n).data := by
    rw [CreateEnvironmentID_data]; simp
  refine ⟨?_, ?_, ?_, ?_⟩
  · rw [CreateEnvironmentID_data]
    intro hmem
    rcases List.mem_append.mp hmem with h1 | h1
    · rcases List.mem_append.mp h1 with h2 | h2
      · exact h h2
      · revert h2; decide
    · exact decimal_no_slash n _ h1 rfl
  · intro e
    rw [e] at hp
    simp at hp
  · intro e
    rw [e] at hp
    revert hp; decide
  · intro e
    rw [e] at hp
    revert hp; decide

/-- C29, as amended. `CreateEnvironmentID` is injective: two pairs of a repository name and a
PR number with the same environment id are the same pair, whatever the repository names
contain. Hence two distinct pairs never share a primary key or, under one configured domain, a
url; and with the directory joined by `filepath.Join`, two distinct pairs whose repository
names contain no path separator never share a directory. -/
theorem environment_id_injective (c : EnvironmentConfig) (r1 r2 : String) (n1 n2 : Int) :
    (CreateEnvironmentID r1 n1 = CreateEnvironmentID r2 n2 → r1 = r2 ∧ n1 = n2) ∧
    (CreateEnvironmentURL c (CreateEnvironmentID r1 n1)
        = CreateEnvironmentURL c (CreateEnvironmentID r2 n2) → r1 = r2 ∧ n1 = n2) ∧
    (c.Join = filepathJoin → '/' ∉ r1.data → '/' ∉ r2.data →
      GetEnvironmentDir c (CreateEnvironmentID r1 n1)
        = GetEnvironmentDir c (CreateEnvironmentID r2 n2) → r1 = r2 ∧ n1 = n2) := by
  refine ⟨CreateEnvironmentID_injective r1 r2 n1 n2, ?_, ?_⟩
  · intro h
    apply CreateEnvironmentID_injective
    have hd := congrArg String.data h
    simp only [CreateEnvironmentURL, String.data_append, List.append_assoc] at hd
    have h1 := List.append_cancel_left hd
    have h2 := List.append_cancel_right h1
    exact String.ext h2
  · intro hjoin hs1 hs2 h
    apply CreateEnvironmentID_injective
    obtain ⟨pre, hpre⟩ := filepathJoin_element c.EnvsDir
    obtain ⟨a1, a2, a3, a4⟩ := CreateEnvironmentID_element r1 n1 hs1
    obtain ⟨b1, b2, b3, b4⟩ := CreateEnvironmentID_element r2 n2 hs2
    have hd := congrArg String.data h
    simp only [GetEnvironmentDir, hjoin] at hd
    rw [hpre _ a1 a2 a3 a4, hpre _ b1 b2 b3 b4] at hd
    exact String.ext (List.append_cancel_left hd)

theorem environment_id_injective_witness :
    (CreateEnvironmentID "my-pr-1" 2 = CreateEnvironmentID "my" 12 → False) ∧
    CreateEnvironmentID "my-pr-1" 2 = "my-pr-1-pr-2" ∧
    CreateEnvironmentID "my" 12 = "my-pr-12" ∧
    (GetEnvironmentDir cleaningConfig (CreateEnvironmentID "widgets" 42)
        = GetEnvironmentDir cleaningConfig (CreateEnvironmentID "gadgets" 42) → False) ∧
    GetEnvironmentDir cleaningConfig (CreateEnvironmentID "widgets" 42)
      = "data/environments/widgets-pr-42" :=
  ⟨fun h => absurd
      ((environment_id_injective exampleConfig "my-pr-1" "my" 2 12).1 h).2 (by decide),
    by decide, by decide,
    fun h => absurd
      ((environment_id_injective cleaningConfig "widgets" "gadgets" 42 42).2.2 rfl
        (by decide) (by decide) h).1 (by decide),
    by decide⟩

/-- C29, refuted as stated: the repository names `./widgets` and `widgets` are distinct and so
are the environment ids of their PR 42, yet both environments have the directory
`data/environments/widgets-pr-42`, the join being cleaned. -/
theorem distinct_pairs_share_directory :
    ("./widgets", (42 : Int)) ≠ ("widgets", (42 : Int)) ∧
    CreateEnvironmentID "./widgets" 42 = "./widgets-pr-42" ∧
    CreateEnvironmentID "widgets" 42 = "widgets-pr-42" ∧
    GetEnvironmentDir cleaningConfig (CreateEnvironmentID "./widgets" 42)
      = "data/environments/widgets-pr-42" ∧
    GetEnvironmentDir cleaningConfig (CreateEnvironmentID "widgets" 42)
      = "data/environments/widgets-pr-42" := by
  decide

/-- C30. When the lookup returns the same result when repeated, the delegation between
`CreateEnvironment` and `UpdateEnvironment` ends after at most one hand-off. Without any
hand-off allowed, create returns exactly when the lookup yields no record and update exactly
when it yields one; with one hand-off allowed both return, and more allowance changes nothing:
create on a record is the update body after two lookups, update on no record is the create body
after two lookups, and the operation handed to never hands back. -/
theorem delegation_one_handoff (o : Oracle) (c : EnvironmentConfig) (r : String) (n : Int)
    (s : List Service) (w : World)
    (hstable : (EnvironmentRepository.Get o (CreateEnvironmentID r n)
        (EnvironmentRepository.Get o (CreateEnvironmentID r n) w).2).1
      = (EnvironmentRepository.Get o (CreateEnvironmentID r n) w).1) :
    (CreateEnvironment o c 0 r n s w = none ↔
      ∃ ex, (EnvironmentRepository.Get o (CreateEnvironmentID r n) w).1 = Except.ok ex) ∧
    (UpdateEnvironment o c 0 r n s w = none ↔
      ∃ e, (EnvironmentRepository.Get o (CreateEnvironmentID r n) w).1 = Except.error e) ∧
    (∀ e, (EnvironmentRepository.Get o (CreateEnvironmentID r n) w).1 = Except.error e →
      ∀ fuel,
        CreateEnvironment o c fuel r n s w = some (createFresh o c r n s (afterLookup w)) ∧
        UpdateEnvironment o c (fuel + 1) r n s w
          = some (createFresh o c r n s (afterLookup (afterLookup w)))) ∧
    (∀ ex, (EnvironmentRepository.Get o (CreateEnvironmentID r n) w).1 = Except.ok ex →
      ∀ fuel,
        UpdateEnvironment o c fuel r n s w
          = some (updateExisting o c ex r n s (afterLookup w)) ∧
        CreateEnvironment o c (fuel + 1) r n s w
          = some (updateExisting o c ex r n s (afterLookup (afterLookup w)))) := by
  rw [Get_snd] at hstable
  refine ⟨?_, ?_, ?_, ?_⟩
  · cases hg : (EnvironmentRepository.Get o (CreateEnvironmentID r n) w).1 with
    | error e => simp [CreateEnvironment_of_error o c 0 r n s w e hg]
    | ok ex => simp [CreateEnvironment_zero_of_ok o c r n s w ex hg]
  · cases hg : (EnvironmentRepository.Get o (CreateEnvironmentID r n) w).1 with
    | error e => simp [UpdateEnvironment_zero_of_error o c r n s w e hg]
    | ok ex => simp [UpdateEnvironment_of_ok o c 0 r n s w ex hg]
  · intro e hg fuel
    rw [hg] at hstable
    exact ⟨CreateEnvironment_of_error o c fuel r n s w e hg, by
      rw [UpdateEnvironment_of_error o c fuel r n s w e hg,
        CreateEnvironment_of_error o c fuel r n s _ e hstable]⟩
  · intro ex hg fuel
    rw [hg] at hstable
    exact ⟨UpdateEnvironment_of_ok o c fuel r n s w ex hg, by
      rw [CreateEnvironment_of_ok o c fuel r n s w ex hg,
        UpdateEnvironment_of_ok o c fuel r n s _ ex hstable]⟩

theorem delegation_one_handoff_witness :
    CreateEnvironment allSucceed exampleConfig 0 "widgets" 42 apiV2 widgetsWorld = none ∧
    (∀ fuel, CreateEnvironment allSucceed exampleConfig (fuel + 1) "widgets" 42 apiV2 widgetsWorld
      = some (updateExisting allSucceed exampleConfig widgetsEnvironment "widgets" 42 apiV2
          (afterLookup (afterLookup widgetsWorld)))) :=
  ⟨(delegation_one_handoff allSucceed exampleConfig "widgets" 42 apiV2 widgetsWorld
      (by decide)).1.mpr ⟨widgetsEnvironment, by decide⟩,
    fun fuel => ((delegation_one_handoff allSucceed exampleConfig "widgets" 42 apiV2 widgetsWorld
      (by decide)).2.2.2 widgetsEnvironment (by decide) fuel).2⟩

/-- C22. `StopEnvironment` returns an error exactly when the compose-down command fails or,
compose-down having succeeded, the prune fails, and the error is the one of the failing
command. When compose-down fails the prune is not run; when it succeeds the prune is run, and a
failure of the prune is the error of the stop. -/
theorem stop_error_iff (o : Oracle) (d : String) (w : World) :
    ((∃ e, (StopEnvironment o d w).1 = Except.error e) ↔
      (∃ e, o.exec w.count.exec = some e) ∨
        (o.exec w.count.exec = none ∧ ∃ e, o.exec (w.count.exec + 1) = some e)) ∧
    (∀ e, o.exec w.count.exec = some e →
      (StopEnvironment o d w).1 = Except.error e ∧
      (StopEnvironment o d w).2.trace = w.trace ++
        [Event.stop d,
          Event.exec ("cd " ++ d ++ " && docker compose down -v --remove-orphans")]) ∧
    (o.exec w.count.exec = none →
      (StopEnvironment o d w).2.trace = w.trace ++
        [Event.stop d,
          Event.exec ("cd " ++ d ++ " && docker compose down -v --remove-orphans"),
          Event.exec "docker system prune -f"] ∧
      (∀ e, o.exec (w.count.exec + 1) = some e → (StopEnvironment o d w).1 = Except.error e) ∧
      (o.exec (w.count.exec + 1) = none → (StopEnvironment o d w).1 = Except.ok ())) := by
  cases h1 : o.exec w.count.exec <;> cases h2 : o.exec (w.count.exec + 1) <;>
    simp [StopEnvironment, Execute, h1, h2]

theorem stop_error_iff_witness :
    (StopEnvironment execFails "data/environments/widgets-pr-42" widgetsWorld).1
      = Except.error "exit status 1" ∧
    (StopEnvironment execFails "data/environments/widgets-pr-42" widgetsWorld).2.trace
      = widgetsWorld.trace ++
        [Event.stop "data/environments/widgets-pr-42",
          Event.exec ("cd " ++ "data/environments/widgets-pr-42"
            ++ " && docker compose down -v --remove-orphans")] :=
  (stop_error_iff execFails "data/environments/widgets-pr-42" widgetsWorld).2.1
    "exit status 1" rfl

/-- C23. For every environment, `MarshalServices` returns no error, and `UnmarshalServices` on
a record that carries the `ServicesData` it produced returns no error and a services list equal
to the original one: the same length, and the same name and image URL at every index. -/
theorem marshal_unmarshal_roundtrip (e : Environment) :
    ∃ e1, e.MarshalServices = Except.ok e1 ∧
      ∀ e2 : Environment, e2.ServicesData = e1.ServicesData →
        ∃ e3, e2.UnmarshalServices = Except.ok e3 ∧ e3.Services = e.Services ∧
          e3.Services.length = e.Services.length ∧
          ∀ i (h3 : i < e3.Services.length) (h : i < e.Services.length),
            (e3.Services.get ⟨i, h3⟩).Name = (e.Services.get ⟨i, h⟩).Name ∧
            (e3.Services.get ⟨i, h3⟩).ImageURL = (e.Services.get ⟨i, h⟩).ImageURL := by
  refine ⟨_, rfl, ?_⟩
  intro e2 h2
  refine ⟨{ e2 with Services := e.Services },
    UnmarshalServices_marshalled e2 e.Services h2, rfl, rfl, ?_⟩
  intro i h3 h
  exact ⟨rfl, rfl⟩

theorem marshal_unmarshal_roundtrip_witness :
    ∃ e1, widgetsEnvironment.MarshalServices = Except.ok e1 ∧
      ∃ e3, e1.UnmarshalServices = Except.ok e3 ∧ e3.Services = apiV1 := by
  obtain ⟨e1, h1, h2⟩ := marshal_unmarshal_roundtrip widgetsEnvironment
  obtain ⟨e3, h3, h4, _⟩ := h2 e1 rfl
  exact ⟨e1, h1, e3, h3, h4⟩

/-! ## The code against its tests -/

/-- C24, on the code. The key `image_url` selects no field of `models.Service`, whose tag is
`imageUrl`: `UnmarshalServices` on the services data of `TestEnvironment_UnmarshalServices`
returns no error and two services with their names and empty image URLs, where the test
expects `image1:latest` and `image2:latest`. -/
theorem unmarshal_image_url_key_is_ignored :
    findField "image_url".data = none ∧
    ({ widgetsEnvironment with ServicesData := testServicesData }).UnmarshalServices
      = Except.ok { widgetsEnvironment with
          ServicesData := testServicesData
          Services := [⟨"service1", ""⟩, ⟨"service2", ""⟩] } := by
  decide

/-- C25, on the code. The body `TestCreateEnvironment` posts binds to the repository name
`test-repo`, the PR number 123 and one service named `service1` with an empty image URL, and
the create handler answers 400 without calling the service, where the test expects 201; with
the image under the key `imageUrl` the handler calls the service and answers 201. -/
theorem create_handler_rejects_image_url_body :
    ShouldBindJSON true testCreateBody = Except.ok ("test-repo", 123, [⟨"service1", ""⟩]) ∧
    CreateEnvironmentHandler (CreateEnvironment allSucceed exampleConfig 1) testCreateBody
      emptyWorld = some ((400, none), emptyWorld) ∧
    ShouldBindJSON true tagCreateBody
      = Except.ok ("test-repo", 123, [⟨"service1", "image1:latest"⟩]) ∧
    (CreateEnvironmentHandler (CreateEnvironment allSucceed exampleConfig 1) tagCreateBody
      emptyWorld).map (fun p => (p.1.1, p.1.2.map (fun e => e.ID)))
      = some (201, some "test-repo-pr-123") := by
  decide

/-- C27, on the code. For `PUT /api/environments/widgets-pr-42` with a valid body that names
the repository `gadgets`, the id parses to `widgets` and 42, yet the handler calls
`UpdateEnvironment` with `gadgets` and 42: the response is 200 with the environment
`gadgets-pr-42`, whose row is added, and the row of `widgets-pr-42` is as it was. -/
theorem update_handler_takes_name_from_body :
    splitEnvironmentID "widgets-pr-42" = Except.ok ("widgets", 42) ∧
    ShouldBindJSON false gadgetsUpdateBody = Except.ok ("gadgets", 0, [⟨"api", "img:v2"⟩]) ∧
    UpdateEnvironmentHandler (UpdateEnvironment allSucceed exampleConfig 1) "widgets-pr-42"
        gadgetsUpdateBody widgetsWorld
      = (UpdateEnvironment allSucceed exampleConfig 1 "gadgets" 42 [⟨"api", "img:v2"⟩]
          widgetsWorld).map (fun p => ((200, p.1.toOption), p.2)) ∧
    (UpdateEnvironmentHandler (UpdateEnvironment allSucceed exampleConfig 1) "widgets-pr-42"
        gadgetsUpdateBody widgetsWorld).map
        (fun p => (p.1.1, p.1.2.map (fun e => e.ID), p.2.environments.map (fun r => r.id),
          p.2.environments.head?))
      = some (200, some "gadgets-pr-42", ["widgets-pr-42", "gadgets-pr-42"], some widgetsRow) ∧
    CreateEnvironmentID "gadgets" 42 ≠ "widgets-pr-42" := by
  decide

/-- C28, on the code. For `echo 'Error message' >&2`, which exits with status zero and writes
to standard error only, `Execute` returns the empty string: the text of standard error is not
in the output returned, where `TestCommandExecutor_ExecuteWithOutput` expects it. -/
theorem execute_returns_stdout_only :
    (echoToStderr "echo 'Error message' >&2" 5).err = none ∧
    (echoToStderr "echo 'Error message' >&2" 5).stderr = "Error message\n" ∧
    CommandExecutor.Execute echoToStderr 5 "echo 'Error message' >&2" = Except.ok "" ∧
    Contains "" "Error message" = false := by
  decide

/-! ## Validation in the handlers -/

theorem validateServices_invalid (ss : List Service)
    (h : ∃ svc ∈ ss, svc.Name = "" ∨ svc.ImageURL = "") :
    ∃ m, validateServices ss = some m := by
  induction ss with
  | nil => simp at h
  | cons a t ih =>
    unfold validateServices
    by_cases h1 : a.Name = ""
    · exact ⟨"Each service must have a name", by simp [h1]⟩
    · by_cases h2 : a.ImageURL = ""
      · exact ⟨"Each service must have an image_url", by simp [h1, h2]⟩
      · simp only [h1, h2, if_false]
        apply ih
        obtain ⟨svc, hmem, hsvc⟩ := h
        rcases List.mem_cons.mp hmem with rfl | hmem1
        · rcases hsvc with h3 | h3
          · exact absurd h3 h1
          · exact absurd h3 h2
        · exact ⟨svc, hmem1, hsvc⟩

theorem splitEnvironmentID_status (id : String) (status : Nat) (m : String)
    (h : splitEnvironmentID id = Except.error (status, m)) : status = 400 := by
  unfold splitEnvironmentID at h
  split at h
  · split at h
    · simp only [Except.error.injEq, Prod.mk.injEq] at h
      exact h.1.symm
    · cases h
  · simp only [Except.error.injEq, Prod.mk.injEq] at h
    exact h.1.symm

/-- C26. Whatever environment service the handlers hold: when the body binds and the services
list decoded from it is empty or contains a service with an empty name or an empty image URL,
the create handler and the update handler answer 400 and leave the state as it was, the service
not being called; a body that does not bind is answered 400 in the same way. -/
theorem invalid_services_rejected
    (service : String → Int → List Service → World → Option (Except String Environment × World))
    (id body : String) (w : World) :
    (∀ r n ss, ShouldBindJSON true body = Except.ok (r, n, ss) →
      (ss = [] ∨ ∃ svc ∈ ss, svc.Name = "" ∨ svc.ImageURL = "") →
      CreateEnvironmentHandler service body w = some ((400, none), w)) ∧
    (∀ r n ss, ShouldBindJSON false body = Except.ok (r, n, ss) →
      (ss = [] ∨ ∃ svc ∈ ss, svc.Name = "" ∨ svc.ImageURL = "") →
      UpdateEnvironmentHandler service id body w = some ((400, none), w)) ∧
    (∀ e, ShouldBindJSON true body = Except.error e →
      CreateEnvironmentHandler service body w = some ((400, none), w)) ∧
    (∀ e, ShouldBindJSON false body = Except.error e →
      UpdateEnvironmentHandler service id body w = some ((400, none), w)) := by
  refine ⟨?_, ?_, ?_, ?_⟩
  · intro r n ss hb hinv
    simp only [CreateEnvironmentHandler, hb]
    rcases hinv with rfl | hinv
    · simp
    · obtain ⟨m, hm⟩ := validateServices_invalid ss hinv
      simp [hm]
  · intro r n ss hb hinv
    unfold UpdateEnvironmentHandler
    cases hs : splitEnvironmentID id with
    | error e =>
      obtain ⟨status, m⟩ := e
      simp [splitEnvironmentID_status id status m hs]
    | ok p =>
      obtain ⟨r0, n0⟩ := p
      simp only [hb]
      rcases hinv with rfl | hinv
      · simp
      · obtain ⟨m, hm⟩ := validateServices_invalid ss hinv
        simp [hm]
  · intro e hb
    simp only [CreateEnvironmentHandler, hb]
  · intro e hb
    unfold UpdateEnvironmentHandler
    cases hs : splitEnvironmentID id with
    | error e1 =>
      obtain ⟨status, m⟩ := e1
      simp [splitEnvironmentID_status id status m hs]
    | ok p =>
      obtain ⟨r0, n0⟩ := p
      simp only [hb]

theorem invalid_services_rejected_witness :
    ShouldBindJSON true testCreateBody = Except.ok ("test-repo", 123, [⟨"service1", ""⟩]) ∧
    CreateEnvironmentHandler (CreateEnvironment allSucceed exampleConfig 1) testCreateBody
      widgetsWorld = some ((400, none), widgetsWorld) :=
  ⟨by decide,
    (invalid_services_rejected (CreateEnvironment allSucceed exampleConfig 1) "widgets-pr-42"
      testCreateBody widgetsWorld).1 "test-repo" 123 [⟨"service1", ""⟩] (by decide)
      (Or.inr ⟨⟨"service1", ""⟩, by simp, Or.inr rfl⟩)⟩

/-! ## Lemmas: maps of the manifest -/

theorem mapGet_cons (a : String × YAMLValue) (t : List (String × YAMLValue)) (key : String) :
    mapGet (a :: t) key = if a.1 = key then some a.2 else mapGet t key := by
  unfold mapGet
  by_cases h : a.1 = key <;> simp [List.find?_cons, h]

theorem mapGet_nil (key : String) : mapGet [] key = none := rfl

theorem mapGet_some_any (m : List (String × YAMLValue)) (key : String) (v : YAMLValue)
    (h : mapGet m key = some v) : m.any (fun e => decide (e.1 = key)) = true := by
  induction m with
  | nil => simp [mapGet_nil] at h
  | cons a t ih =>
    rw [mapGet_cons] at h
    by_cases ha : a.1 = key
    · simp [ha]
    · simp only [ha, if_false] at h
      simp [ha, ih h]

theorem mapGet_map_replace (m : List (String × YAMLValue)) (key key1 : String)
    (value : YAMLValue) :
    mapGet (m.map (fun e => if e.1 = key then (key, value) else e)) key1
      = if key1 = key then
          (if m.any (fun e => decide (e.1 = key)) = true then some value else none)
        else mapGet m key1 := by
  induction m with
  | nil => simp [mapGet_nil]
  | cons a t ih =>
    simp only [List.map_cons, mapGet_cons, ih, List.any_cons]
    by_cases ha : a.1 = key <;> by_cases hk : key1 = key
    · subst hk; simp [ha]
    · have hne : ¬ key = key1 := fun h => hk h.symm
      simp [ha, hk, hne]
    · subst hk
      simp only [ha, if_false, if_true, decide_False]
      rfl
    · simp [ha, hk]

theorem mapGet_append_new (m : List (String × YAMLValue)) (key key1 : String)
    (value : YAMLValue) (h : m.any (fun e => decide (e.1 = key)) = false) :
    mapGet (m ++ [(key, value)]) key1 = if key1 = key then some value else mapGet m key1 := by
  induction m with
  | nil =>
    simp only [List.nil_append, mapGet_cons, mapGet_nil]
    by_cases hk : key1 = key
    · subst hk; simp
    · have hne : ¬ key = key1 := fun h => hk h.symm
      simp [hk, hne]
  | cons a t ih =>
    simp only [List.any_cons, Bool.or_eq_false_iff, decide_eq_false_iff_not] at h
    simp only [List.cons_append, mapGet_cons, ih h.2]
    by_cases hk : key1 = key
    · subst hk; simp [h.1]
    · simp [hk]

theorem mapGet_mapSet (m : List (String × YAMLValue)) (key key1 : String) (value : YAMLValue) :
    mapGet (mapSet m key value) key1 = if key1 = key then some value else mapGet m key1 := by
  unfold mapSet
  by_cases h : m.any (fun e => decide (e.1 = key)) = true
  · simp only [h, if_true, mapGet_map_replace]
  · simp only [h]
    exact mapGet_append_new m key key1 value (Bool.eq_false_iff.mpr h)

theorem mapSet_keys (m : List (String × YAMLValue)) (key : String) (value : YAMLValue)
    (h : m.any (fun e => decide (e.1 = key)) = true) :
    (mapSet m key value).map Prod.fst = m.map Prod.fst := by
  simp only [mapSet, h, if_true, List.map_map]
  apply List.map_congr_left
  intro e _
  by_cases he : e.1 = key <;> simp [he]

theorem mapSet_mapSet (m : List (String × YAMLValue)) (key : String) (a b : YAMLValue) :
    mapSet (mapSet m key a) key b = mapSet m key b := by
  by_cases h : m.any (fun e => decide (e.1 = key)) = true
  · have h1 : (m.map (fun e => if e.1 = key then (key, a) else e)).any
        (fun e => decide (e.1 = key)) = true := by
      rw [List.any_eq_true] at h ⊢
      obtain ⟨e, he, hk⟩ := h
      refine ⟨(key, a), List.mem_map.mpr ⟨e, he, ?_⟩, by simp⟩
      simp only [decide_eq_true_eq] at hk
      simp [hk]
    simp only [mapSet, h, h1, if_true, List.map_map]
    apply List.map_congr_left
    intro e _
    by_cases he : e.1 = key <;> simp [he]
  · have h0 : m.any (fun e => decide (e.1 = key)) = false := Bool.eq_false_iff.mpr h
    have h1 : (m ++ [(key, a)]).any (fun e => decide (e.1 = key)) = true := by simp
    have h2 : m.map (fun e => if e.1 = key then (key, b) else e) = m := by
      rw [List.any_eq_false] at h0
      conv_rhs => rw [← List.map_id m]
      apply List.map_congr_left
      intro e he
      have := h0 e he
      simp only [decide_eq_true_eq] at this
      simp [this]
    simp only [mapSet, h0, h1, if_true, List.map_append, h2, Bool.false_eq_true, if_false]
    simp

theorem updateServiceImage_keys (m : List (String × YAMLValue)) (service : Service) :
    (updateServiceImage m service).map Prod.fst = m.map Prod.fst := by
  unfold updateServiceImage
  cases h : mapGet m service.Name with
  | none => rfl
  | some v =>
    cases v <;> try rfl
    exact mapSet_keys m _ _ (mapGet_some_any m _ _ h)

/-- The definition of a service after one request: a mapping named by the request gets the
requested image, everything else stays. -/
theorem updateServiceImage_get (m : List (String × YAMLValue)) (service : Service)
    (key : String) :
    mapGet (updateServiceImage m service) key
      = if key = service.Name then
          (match mapGet m key with
            | some (YAMLValue.mapping serviceConfig) =>
              some (YAMLValue.mapping
                (mapSet serviceConfig "image" (YAMLValue.string service.ImageURL)))
            | other => other)
        else mapGet m key := by
  unfold updateServiceImage
  by_cases hk : key = service.Name
  · subst hk
    simp only [if_true]
    cases h : mapGet m service.Name with
    | none => simp [h]
    | some v => cases v <;> simp [h, mapGet_mapSet]
  · simp only [hk, if_false]
    cases h : mapGet m service.Name with
    | none => rfl
    | some v => cases v <;> simp [mapGet_mapSet, hk]

theorem requestedImage_append (services : List Service) (service : Service) (key : String) :
    requestedImage (services ++ [service]) key
      = if service.Name = key then some service.ImageURL else requestedImage services key := by
  unfold requestedImage
  by_cases h : service.Name = key <;> simp [List.find?_cons, h]

theorem updateServiceImages_spec (m : List (String × YAMLValue)) (services : List Service) :
    (updateServiceImages m services).map Prod.fst = m.map Prod.fst ∧
    ∀ key, mapGet (updateServiceImages m services) key
      = match mapGet m key with
        | some (YAMLValue.mapping serviceConfig) =>
          (match requestedImage services key with
            | some image =>
              some (YAMLValue.mapping (mapSet serviceConfig "image" (YAMLValue.string image)))
            | none => some (YAMLValue.mapping serviceConfig))
        | other => other := by
  induction services using List.reverseRecOn with
  | nil =>
    refine ⟨rfl, ?_⟩
    intro key
    cases h : mapGet m key with
    | none => simp [updateServiceImages, h]
    | some v => cases v <;> simp [updateServiceImages, h, requestedImage]
  | append_singleton init service ih =>
    obtain ⟨ih1, ih2⟩ := ih
    have hfold : updateServiceImages m (init ++ [service])
        = updateServiceImage (updateServiceImages m init) service := by
      simp [updateServiceImages, List.foldl_append]
    rw [hfold]
    refine ⟨by rw [updateServiceImage_keys, ih1], ?_⟩
    intro key
    rw [updateServiceImage_get, ih2 key, requestedImage_append]
    by_cases hk : key = service.Name
    · have hk1 : service.Name = key := hk.symm
      simp only [hk1, if_true]
      cases h : mapGet m key with
      | none => rfl
      | some v =>
        cases v <;> try rfl
        cases hr : requestedImage init key <;> simp [mapSet_mapSet]
    · have hk1 : ¬ service.Name = key := fun h => hk h.symm
      simp only [hk, hk1, if_false]

/-! ## The images of the manifest -/

/-- C21. For every service map of a manifest and every list of requested services, the image
patching yields a service map with the same keys; a service whose definition is a mapping gets,
under `image`, the image URL of the last requested service of its name when there is one, its
other fields being those it had, and is as it was otherwise; a definition that is no mapping is
as it was, and a requested name that the map lacks stays absent. Within the manifest only the
entry `services` changes. -/
theorem image_patching (servicesMap : List (String × YAMLValue)) (services : List Service) :
    (updateServiceImages servicesMap services).map Prod.fst = servicesMap.map Prod.fst ∧
    (∀ key serviceConfig, mapGet servicesMap key = some (YAMLValue.mapping serviceConfig) →
      (∀ image, requestedImage services key = some image →
        ∃ patched, mapGet (updateServiceImages servicesMap services) key
            = some (YAMLValue.mapping patched) ∧
          mapGet patched "image" = some (YAMLValue.string image) ∧
          ∀ field, field ≠ "image" → mapGet patched field = mapGet serviceConfig field) ∧
      (requestedImage services key = none →
        mapGet (updateServiceImages servicesMap services) key
          = some (YAMLValue.mapping serviceConfig))) ∧
    (∀ key, (∀ serviceConfig, mapGet servicesMap key ≠ some (YAMLValue.mapping serviceConfig)) →
      mapGet (updateServiceImages servicesMap services) key = mapGet servicesMap key) ∧
    (∀ compose, mapGet compose "services" = some (YAMLValue.mapping servicesMap) →
      ∀ key, mapGet (updateComposeImages compose services) key
        = if key = "services" then
            some (YAMLValue.mapping (updateServiceImages servicesMap services))
          else mapGet compose key) := by
  obtain ⟨hkeys, hget⟩ := updateServiceImages_spec servicesMap services
  refine ⟨hkeys, ?_, ?_, ?_⟩
  · intro key serviceConfig hM
    constructor
    · intro image hreq
      refine ⟨mapSet serviceConfig "image" (YAMLValue.string image), ?_, ?_, ?_⟩
      · rw [hget key, hM]
        simp only [hreq]
      · rw [mapGet_mapSet]; simp
      · intro field hfield
        rw [mapGet_mapSet]; simp [hfield]
    · intro hreq
      rw [hget key, hM]
      simp only [hreq]
  · intro key hno
    rw [hget key]
    cases h : mapGet servicesMap key with
    | none => rfl
    | some v =>
      cases v <;> try rfl
      exact absurd h (hno _)
  · intro compose hc key
    simp only [updateComposeImages, hc, mapGet_mapSet]

theorem image_patching_witness :
    mapGet (updateServiceImages exampleServicesMap exampleRequests) "api"
      = some (YAMLValue.mapping
          [("image", YAMLValue.string "img:v2"),
            ("ports", YAMLValue.sequence [YAMLValue.string "80:80"])]) ∧
    (updateServiceImages exampleServicesMap exampleRequests).map Prod.fst
      = ["api", "db", "note"] ∧
    mapGet (updateServiceImages exampleServicesMap exampleRequests) "db"
      = some (YAMLValue.mapping [("image", YAMLValue.string "postgres:16")]) ∧
    mapGet (updateServiceImages exampleServicesMap exampleRequests) "cache"
      = mapGet exampleServicesMap "cache" :=
  ⟨rfl,
    (image_patching exampleServicesMap exampleRequests).1,
    ((image_patching exampleServicesMap exampleRequests).2.1 "db"
      [("image", YAMLValue.string "postgres:16")] rfl).2 (by decide),
    (image_patching exampleServicesMap exampleRequests).2.2.1 "cache"
      (fun _ h => by simp [exampleServicesMap, mapGet] at h)⟩

end PrEnv
